import Mathlib

/-!
# Moving persons detector (`follow_me/src/moving_person_detector_node.cpp`)

A shallow embedding of the class `moving_persons_detector` and a verification
of its detection pipeline.

Modelling conventions.

* C `int` values are `Int`; no count in the program can leave the `int` range
  before the fixed tables of 1000 entries are exhausted, so no wrap-around is
  modelled.
* C `float`/`double` values are exact rationals (`ℚ`): rounding is abstracted
  away.  The three calls into the C maths library (`sqrt`, `cos`, `sin`) are
  taken from an explicit record `Libm`, so every result holds for any
  implementation of them.  `pow(x, 2.0)` is `x ^ 2`.
* A C array is a total function from `Int`; the capacity of the tables (1000,
  resp. 2000 for the display tables) is not enforced by the source and is not
  part of the model.  An uninitialised table or field is an arbitrary value of
  the initial state.
* `ROS_INFO` output is the field `log`; the two publishers are the fields
  `goal_pub` and `marker_pub`, which collect every published message.
-/

namespace FollowMe

/-! ## Constants (`#define`s of the source) -/

/-- Threshold for clustering. -/
def cluster_threshold : ℚ := 2 / 10

/-- Threshold for motion detection. -/
def detection_threshold : ℚ := 2 / 10

/-- Percentage deciding whether a cluster is static or dynamic. -/
def dynamic_threshold : Int := 75

/-- Lower bound of the size of a leg. -/
def leg_size_min : ℚ := 5 / 100

/-- Upper bound of the size of a leg. -/
def leg_size_max : ℚ := 25 / 100

/-- Largest distance between the two legs of one person. -/
def legs_distance_max : ℚ := 7 / 10

/-! ## Data model -/

/-- The message type `geometry_msgs::Point`. -/
structure Point where
  x : ℚ
  y : ℚ
  z : ℚ
deriving DecidableEq

/-- The message type `std_msgs::ColorRGBA`. -/
structure ColorRGBA where
  r : ℚ
  g : ℚ
  b : ℚ
  a : ℚ
deriving DecidableEq

/-- The part of `visualization_msgs::Marker` that depends on the data. -/
structure Marker where
  id : Int
  points : List Point
  colors : List ColorRGBA

/-- The part of `sensor_msgs::LaserScan` read by `scanCallback`. -/
structure LaserScan where
  range_min : ℚ
  range_max : ℚ
  angle_min : ℚ
  angle_max : ℚ
  angle_increment : ℚ
  ranges : List ℚ

/-- The functions of the C maths library used by the node. -/
structure Libm where
  sqrt : ℚ → ℚ
  cos : ℚ → ℚ
  sin : ℚ → ℚ

/-- The lines written with `ROS_INFO`, numeric arguments of type `int` kept. -/
inductive Event where
  | newline
  | new_laser_data
  | new_robot_moving_data
  | robot_not_moving
  | robot_moving
  | wait_laser
  | laser_ok
  | wait_robot
  | robot_ok
  | storing_background
  | background_stored
  | detecting_motion
  | motion_detected
  | performing_clustering
  | cluster_info (c s e d : Int)
  | clustering_performed
  | detecting_moving_legs
  | moving_leg (k c : Int)
  | nb_moving_legs (k : Int)
  | moving_legs_detected
  | detecting_moving_persons
  | moving_person (k leg1 leg2 : Int)
  | nb_moving_persons (k : Int)
  | moving_persons_detected
deriving DecidableEq

/-- The member variables of `moving_persons_detector`, followed by what the
node has written to the console and to its two publishers. -/
structure State where
  nb_beams : Int
  range_min : ℚ
  range_max : ℚ
  angle_min : ℚ
  angle_max : ℚ
  angle_inc : ℚ
  range : Int → ℚ
  current_scan : Int → Point
  background : Int → ℚ
  dynamic : Int → Bool
  nb_cluster : Int
  cluster : Int → Int
  cluster_size : Int → ℚ
  cluster_middle : Int → Point
  cluster_dynamic : Int → Int
  cluster_start : Int → Int
  cluster_end : Int → Int
  nb_moving_legs_detected : Int
  moving_leg_detected : Int → Point
  nb_moving_persons_detected : Int
  moving_persons_detected : Int → Point
  goal_to_reach : Point
  nb_pts : Int
  display : Int → Point
  colors : Int → ColorRGBA
  previous_robot_moving : Bool
  current_robot_moving : Bool
  init_laser : Bool
  init_robot : Bool
  display_laser : Bool
  display_robot : Bool
  log : List Event
  goal_pub : List Point
  marker_pub : List Marker

/-! ## Control structure -/

/-- Runs `body i`, `body (i+1)`, ... for `k` consecutive values of the loop
variable. -/
def forLoopFrom {σ : Type} (body : Int → σ → σ) : Nat → Int → σ → σ
  | 0, _, s => s
  | k + 1, i, s => forLoopFrom body k (i + 1) (body i s)

/-- The loop `for (int i = lo; i < hi; i++) body`, for a bound `hi` that the
body does not change. -/
def forLoop {σ : Type} (lo hi : Int) (body : Int → σ → σ) (s : σ) : σ :=
  forLoopFrom body (hi - lo).toNat lo s

/-- The assignment `table[i] = v`. -/
def assign {α : Type} (table : Int → α) (i : Int) (v : α) : Int → α :=
  fun k => if k = i then v else table k

/-- Conversion of a floating-point value to `int`: truncation toward zero. -/
def truncToInt (q : ℚ) : Int := Int.tdiv q.num q.den

/-- One call of `ROS_INFO`. -/
def info (e : Event) (s : State) : State :=
  { s with log := s.log ++ [e] }

/-- Appends one coloured point to the display tables:
`display[nb_pts] = p; colors[nb_pts] = c; nb_pts++`. -/
def pushDisplay (p : Point) (c : ColorRGBA) (s : State) : State :=
  { s with
    display := assign s.display s.nb_pts p
    colors := assign s.colors s.nb_pts c
    nb_pts := s.nb_pts + 1 }

/-- Colour of the start of a cluster. -/
def green : ColorRGBA := ⟨0, 1, 0, 1⟩

/-- Colour of the end of a cluster. -/
def red : ColorRGBA := ⟨1, 0, 0, 1⟩

/-- Colour of the hits of a moving leg. -/
def white : ColorRGBA := ⟨1, 1, 1, 1⟩

/-- Colour of a moving person. -/
def yellow : ColorRGBA := ⟨1, 1, 0, 1⟩

/-! ## Operations -/

/-- Distance between two points (`distancePoints`). -/
def distancePoints (m : Libm) (pa pb : Point) : ℚ :=
  m.sqrt ((pa.x - pb.x) ^ 2 + (pa.y - pb.y) ^ 2)

/-- Stores all the hits of the laser in the background table
(`store_background`). -/
def store_background (s : State) : State :=
  let s := info .storing_background s
  let s := forLoop 0 s.nb_beams
    (fun loop s => { s with background := assign s.background loop (s.range loop) }) s
  info .background_stored s

/-- Body of the loop of `detect_motion`. -/
def detect_motion_step (loop : Int) (s : State) : State :=
  let diff := s.background loop - s.range loop
  let diff := if diff < 0 then -diff else diff
  if diff > detection_threshold then
    { s with dynamic := assign s.dynamic loop true }
  else
    { s with dynamic := assign s.dynamic loop false }

/-- Classifies each hit of the laser as dynamic or not (`detect_motion`). -/
def detect_motion (s : State) : State :=
  let s := info .detecting_motion s
  let s := forLoop 0 s.nb_beams detect_motion_step s
  info .motion_detected s

/-- The block that ends the current cluster at hit `e` (written twice in
`perform_clustering`: inside the loop with `e = loop - 1`, after the loop with
`e = nb_beams - 1`); `nb_dynamic` is the local counter of dynamic hits. -/
def closeCluster (m : Libm) (nb_dynamic : Int) (e : Int) (s : State) : State :=
  let s := { s with cluster_end := assign s.cluster_end s.nb_cluster e }
  let dist := forLoop (s.cluster_start s.nb_cluster) (s.cluster_end s.nb_cluster)
    (fun i dist => dist + distancePoints m (s.current_scan i) (s.current_scan (i + 1))) 0
  let s := { s with cluster_size := assign s.cluster_size s.nb_cluster dist }
  let diff_x := (s.current_scan (s.cluster_end s.nb_cluster)).x
    - (s.current_scan (s.cluster_start s.nb_cluster)).x
  let diff_y := (s.current_scan (s.cluster_end s.nb_cluster)).y
    - (s.current_scan (s.cluster_start s.nb_cluster)).y
  let mid_x := diff_x / 2 + (s.current_scan (s.cluster_start s.nb_cluster)).x
  let mid_y := diff_y / 2 + (s.current_scan (s.cluster_start s.nb_cluster)).y
  let s := { s with cluster_middle := assign s.cluster_middle s.nb_cluster ⟨mid_x, mid_y, 0⟩ }
  let ratio : ℚ := (nb_dynamic : ℚ)
    / ((s.cluster_end s.nb_cluster - s.cluster_start s.nb_cluster + 1 : Int) : ℚ) * 100
  let s := { s with cluster_dynamic := assign s.cluster_dynamic s.nb_cluster (truncToInt ratio) }
  let s := pushDisplay (s.current_scan (s.cluster_end s.nb_cluster)) red s
  info (.cluster_info s.nb_cluster (s.cluster_start s.nb_cluster) (s.cluster_end s.nb_cluster)
    (s.cluster_dynamic s.nb_cluster)) s

/-- Body of the main loop of `perform_clustering`; the second component is the
local variable `nb_dynamic`. -/
def clustering_step (m : Libm) (loop : Int) (p : State × Int) : State × Int :=
  let s := p.1
  let nb_dynamic := p.2
  let diff := s.range (loop - 1) - s.range loop
  let diff := if diff < 0 then -diff else diff
  if diff < cluster_threshold then
    let s := { s with cluster := assign s.cluster loop s.nb_cluster }
    (s, if s.dynamic loop = true then nb_dynamic + 1 else nb_dynamic)
  else
    let s := closeCluster m nb_dynamic (loop - 1) s
    let nb_dynamic : Int := 0
    let s := { s with nb_cluster := s.nb_cluster + 1 }
    let s := { s with cluster_start := assign s.cluster_start s.nb_cluster loop }
    let s := { s with cluster := assign s.cluster loop s.nb_cluster }
    let nb_dynamic := if s.dynamic loop = true then nb_dynamic + 1 else nb_dynamic
    let s := pushDisplay (s.current_scan (s.cluster_start s.nb_cluster)) green s
    (s, nb_dynamic)

/-- The part of `perform_clustering` before its main loop. -/
def clustering_init (s : State) : State × Int :=
  let s := info .performing_clustering s
  let s := { s with nb_cluster := 0 }
  let s := { s with cluster_start := assign s.cluster_start 0 0 }
  let s := { s with cluster := assign s.cluster 0 0 }
  let nb_dynamic : Int := 0
  let s := pushDisplay (s.current_scan (s.cluster_start s.nb_cluster)) green s
  (s, if s.dynamic 0 = true then nb_dynamic + 1 else nb_dynamic)

/-- The main loop of `perform_clustering`. -/
def clustering_loop (m : Libm) (p : State × Int) : State × Int :=
  forLoop 1 p.1.nb_beams (clustering_step m) p

/-- Stores in the table `cluster` the cluster of each hit of the laser and
fills the tables describing the clusters (`perform_clustering`). -/
def perform_clustering (m : Libm) (s : State) : State :=
  let p := clustering_loop m (clustering_init s)
  let s := closeCluster m p.2 (p.1.nb_beams - 1) p.1
  let s := { s with nb_cluster := s.nb_cluster + 1 }
  info .clustering_performed s

/-- Body of the loop of `detect_moving_legs`. -/
def detect_moving_legs_step (loop : Int) (s : State) : State :=
  if s.cluster_size loop > leg_size_min ∧ s.cluster_size loop < leg_size_max
      ∧ s.cluster_dynamic loop ≥ dynamic_threshold then
    let leg : Point := ⟨(s.cluster_middle loop).x, (s.cluster_middle loop).y, (s.cluster_middle loop).z⟩
    let legs := assign s.moving_leg_detected s.nb_moving_legs_detected leg
    let s := { s with moving_leg_detected := legs }
    let s := info (.moving_leg s.nb_moving_legs_detected loop) s
    let s := { s with nb_moving_legs_detected := s.nb_moving_legs_detected + 1 }
    forLoop (s.cluster_start loop) (s.cluster_end loop + 1)
      (fun loop2 s => pushDisplay (s.current_scan loop2) white s) s
  else s

/-- Detects the moving legs among the clusters (`detect_moving_legs`). -/
def detect_moving_legs (s : State) : State :=
  let s := info .detecting_moving_legs s
  let s := { s with nb_moving_legs_detected := 0 }
  let s := forLoop 0 s.nb_cluster detect_moving_legs_step s
  let s := if s.nb_moving_legs_detected ≠ 0 then info (.nb_moving_legs s.nb_moving_legs_detected) s else s
  info .moving_legs_detected s

/-- Body of the inner loop of `detect_moving_persons`. -/
def detect_moving_persons_step (m : Libm) (loop_leg1 loop_leg2 : Int) (s : State) : State :=
  if distancePoints m (s.moving_leg_detected loop_leg1) (s.moving_leg_detected loop_leg2)
      < legs_distance_max then
    let diff_x := (s.moving_leg_detected loop_leg2).x - (s.moving_leg_detected loop_leg1).x
    let diff_y := (s.moving_leg_detected loop_leg2).y - (s.moving_leg_detected loop_leg1).y
    let mid_x := diff_x / 2 + (s.moving_leg_detected loop_leg1).x
    let mid_y := diff_y / 2 + (s.moving_leg_detected loop_leg1).y
    let persons := assign s.moving_persons_detected s.nb_moving_persons_detected ⟨mid_x, mid_y, 0⟩
    let s := { s with moving_persons_detected := persons }
    let s := info (.moving_person s.nb_moving_persons_detected loop_leg1 loop_leg2) s
    let s := pushDisplay (s.moving_persons_detected s.nb_moving_persons_detected) yellow s
    let s := { s with goal_to_reach := ⟨mid_x, mid_y, 0⟩ }
    { s with nb_moving_persons_detected := s.nb_moving_persons_detected + 1 }
  else s

/-- Body of the outer loop of `detect_moving_persons`. -/
def detect_moving_persons_row (m : Libm) (loop_leg1 : Int) (s : State) : State :=
  forLoop (loop_leg1 + 1) s.nb_moving_legs_detected (detect_moving_persons_step m loop_leg1) s

/-- Pairs the moving legs into moving persons (`detect_moving_persons`). -/
def detect_moving_persons (m : Libm) (s : State) : State :=
  let s := info .detecting_moving_persons s
  let s := { s with nb_moving_persons_detected := 0 }
  let s := forLoop 0 s.nb_moving_legs_detected (detect_moving_persons_row m) s
  let s := if s.nb_moving_persons_detected ≠ 0 then
    info (.nb_moving_persons s.nb_moving_persons_detected) s else s
  info .moving_persons_detected s

/-- Body of the loop of `scanCallback`; the second component is the local
variable `beam_angle`. -/
def scanCallback_step (m : Libm) (scan : LaserScan) (loop : Int) (p : State × ℚ) : State × ℚ :=
  let s := p.1
  let beam_angle := p.2
  let raw := scan.ranges.getD loop.toNat 0
  let s := if raw < s.range_max ∧ raw > s.range_min then
      { s with range := assign s.range loop raw }
    else
      { s with range := assign s.range loop s.range_max }
  let hit : Point := ⟨s.range loop * m.cos beam_angle, s.range loop * m.sin beam_angle, 0⟩
  let s := { s with current_scan := assign s.current_scan loop hit }
  (s, beam_angle + s.angle_inc)

/-- Stores a new scan of the laser (`scanCallback`). -/
def scanCallback (m : Libm) (scan : LaserScan) (s : State) : State :=
  let s := { s with init_laser := true }
  let s := { s with range_min := scan.range_min }
  let s := { s with range_max := scan.range_max }
  let s := { s with angle_min := scan.angle_min }
  let s := { s with angle_max := scan.angle_max }
  let s := { s with angle_inc := scan.angle_increment }
  let s := { s with nb_beams := truncToInt (((-1) * s.angle_min + s.angle_max) / s.angle_inc) }
  (forLoop 0 s.nb_beams (scanCallback_step m scan) (s, s.angle_min)).1

/-- Stores a new value of the robot_moving stream (`robot_movingCallback`). -/
def robot_movingCallback (data : Bool) (s : State) : State :=
  let s := { s with init_robot := true }
  let s := { s with previous_robot_moving := s.current_robot_moving }
  { s with current_robot_moving := data }

/-- The reference marker drawn by `populateMarkerReference`: the field of view
of the laser. -/
def populateMarkerReference (m : Libm) (s : State) : State :=
  let v1 : Point := ⟨2 / 100 * m.cos (-2356194 / 1000000), 2 / 100 * m.sin (-2356194 / 1000000), 0⟩
  let v2 : Point := ⟨56 / 10 * m.cos (-2356194 / 1000000), 56 / 10 * m.sin (-2356194 / 1000000), 0⟩
  let arc := forLoop 0 723
    (fun _ (p : List Point × ℚ) =>
      (p.1 ++ [⟨56 / 10 * m.cos p.2, 56 / 10 * m.sin p.2, 0⟩], p.2 + 6136 / 1000000))
    ([v1, v2], -2356194 / 1000000 + 6136 / 1000000)
  let v3 : Point := ⟨56 / 10 * m.cos (2092350 / 1000000), 56 / 10 * m.sin (2092350 / 1000000), 0⟩
  let v4 : Point := ⟨2 / 100 * m.cos (2092350 / 1000000), 2 / 100 * m.sin (2092350 / 1000000), 0⟩
  { s with marker_pub := s.marker_pub ++ [⟨1, arc.1 ++ [v3, v4], []⟩] }

/-- Publishes the display tables as a marker (`populateMarkerTopic`). -/
def populateMarkerTopic (m : Libm) (s : State) : State :=
  let mk := forLoop 0 s.nb_pts
    (fun loop (mk : Marker) =>
      { mk with points := mk.points ++ [s.display loop], colors := mk.colors ++ [s.colors loop] })
    ⟨0, [], []⟩
  let s := { s with marker_pub := s.marker_pub ++ [mk] }
  populateMarkerReference m s

/-- The four detection steps of `update`, run when the robot is not moving. -/
def detection (m : Libm) (s : State) : State :=
  let s := detect_motion s
  let s := perform_clustering m s
  let s := detect_moving_legs s
  detect_moving_persons m s

/-- The branch of `update` taken when both streams have delivered and the
robot is not moving. -/
def update_stationary (m : Libm) (s : State) : State :=
  let s := info .robot_not_moving s
  let s := if s.previous_robot_moving && !s.current_robot_moving then store_background s else s
  let s := detection m s
  let s := populateMarkerTopic m s
  if s.nb_moving_persons_detected ≠ 0 then
    { s with goal_pub := s.goal_pub ++ [s.goal_to_reach] }
  else s

/-- First statement of the waiting branch of `update`. -/
def wait_for_laser (s : State) : State :=
  if !s.display_laser && !s.init_laser then
    { (info .wait_laser s) with display_laser := true } else s

/-- Second statement of the waiting branch of `update`. -/
def laser_is_ok (s : State) : State :=
  if s.display_laser && s.init_laser then
    { (info .laser_ok s) with display_laser := false } else s

/-- Third statement of the waiting branch of `update`. -/
def wait_for_robot (s : State) : State :=
  if !s.display_robot && !s.init_robot then
    { (info .wait_robot s) with display_robot := true } else s

/-- Fourth statement of the waiting branch of `update`. -/
def robot_is_ok (s : State) : State :=
  if s.display_robot && s.init_robot then
    { (info .robot_ok s) with display_robot := true } else s

/-- The branch of `update` taken while a stream has not delivered yet. -/
def update_waiting (s : State) : State :=
  robot_is_ok (wait_for_robot (laser_is_ok (wait_for_laser s)))

/-- Main processing of the laser data and of robot_moving (`update`). -/
def update (m : Libm) (s : State) : State :=
  if s.init_laser && s.init_robot then
    let s := { s with nb_pts := 0 }
    let s := info .newline s
    let s := info .new_laser_data s
    let s := info .new_robot_moving_data s
    let s := { s with nb_pts := 0 }
    if !s.current_robot_moving then
      update_stationary m s
    else
      info .robot_moving s
  else
    update_waiting s

/-! ## Reading the tables as lists -/

/-- The values `lo, lo + 1, ..., hi - 1` of a loop variable, in order. -/
def intRange (lo hi : Int) : List Int :=
  (List.range (hi - lo).toNat).map (fun k : Nat => lo + (k : Int))

/-- The first `n` entries of a table, in order. -/
def tableList {α : Type} (table : Int → α) (n : Int) : List α :=
  (intRange 0 n).map table

/-- The moving legs stored in the state. -/
def State.legs (s : State) : List Point :=
  tableList s.moving_leg_detected s.nb_moving_legs_detected

/-- The moving persons stored in the state. -/
def State.persons (s : State) : List Point :=
  tableList s.moving_persons_detected s.nb_moving_persons_detected

/-- The condition under which `detect_moving_legs` takes cluster `c` for a
moving leg. -/
def isMovingLeg (s : State) (c : Int) : Bool :=
  decide (s.cluster_size c > leg_size_min ∧ s.cluster_size c < leg_size_max
    ∧ s.cluster_dynamic c ≥ dynamic_threshold)

/-- The state after the loop that displays `n` consecutive hits, from hit `a`
on, in colour `c`. -/
def displayRun (s : State) (a n : Int) (c : ColorRGBA) : State :=
  { s with
    display := fun k =>
      if s.nb_pts ≤ k ∧ k < s.nb_pts + n then s.current_scan (a + (k - s.nb_pts)) else s.display k
    colors := fun k => if s.nb_pts ≤ k ∧ k < s.nb_pts + n then c else s.colors k
    nb_pts := s.nb_pts + n }

/-! ## Motion detection -/

/-- The table of dynamic flags after `detect_motion`, in closed form: entries
`0 .. n-1` are recomputed, the others keep their old value. -/
def motionFlags (background range : Int → ℚ) (n : Int) (old : Int → Bool) : Int → Bool :=
  fun i => if 0 ≤ i ∧ i < n then decide (|background i - range i| > detection_threshold) else old i

/-! ## Clustering -/

/-- The continuity predicate between the adjacent beams `i - 1` and `i`. -/
def continuity (range : Int → ℚ) (i : Int) : Prop :=
  |range (i - 1) - range i| < cluster_threshold

instance (range : Int → ℚ) (i : Int) : Decidable (continuity range i) := by
  unfold continuity
  infer_instance

/-- The indices `i` in `1 .. n` at which the continuity predicate fails. -/
def breaks (range : Int → ℚ) (n : Int) : Finset Int :=
  (Finset.Icc 1 n).filter (fun i => ¬ continuity range i)

/-- Invariant of the main loop of `perform_clustering`, started from `s0`:
what holds of the state `t` when the loop variable has the value `j`, that is
when the beams `0 .. j-1` have been assigned to clusters and the cluster
numbered `t.nb_cluster` is still open. -/
structure ClusteringInv (s0 : State) (j : Int) (t : State) : Prop where
  range_eq : t.range = s0.range
  nb_beams_eq : t.nb_beams = s0.nb_beams
  nb_nonneg : 0 ≤ t.nb_cluster
  start_zero : t.cluster_start 0 = 0
  closed : ∀ c : Int, 0 ≤ c → c < t.nb_cluster →
    t.cluster_start c ≤ t.cluster_end c ∧ t.cluster_start (c + 1) = t.cluster_end c + 1
  cluster_bounds : ∀ i : Int, 0 ≤ i → i < j → 0 ≤ t.cluster i ∧ t.cluster i ≤ t.nb_cluster
  cluster_last : t.cluster (j - 1) = t.nb_cluster
  adjacent : ∀ i : Int, 1 ≤ i → i < j →
    (continuity s0.range i → t.cluster i = t.cluster (i - 1)) ∧
    (¬ continuity s0.range i → t.cluster i = t.cluster (i - 1) + 1 ∧
      t.cluster_end (t.cluster (i - 1)) = i - 1 ∧ t.cluster_start (t.cluster i) = i)
  start_le : ∀ i : Int, 0 ≤ i → i < j → t.cluster_start (t.cluster i) ≤ i
  le_end : ∀ i : Int, 0 ≤ i → i < j → t.cluster i < t.nb_cluster → i ≤ t.cluster_end (t.cluster i)
  count : t.nb_cluster = (breaks s0.range (j - 1)).card

/-- What `perform_clustering` establishes for a scan of at least one beam, on
the final state `t`: the invariant of the loop with every cluster closed. -/
structure Clustered (s t : State) : Prop where
  nb_pos : 1 ≤ t.nb_cluster
  start_zero : t.cluster_start 0 = 0
  end_last : t.cluster_end (t.nb_cluster - 1) = s.nb_beams - 1
  start_le_end : ∀ c : Int, 0 ≤ c → c < t.nb_cluster → t.cluster_start c ≤ t.cluster_end c
  next_start : ∀ c : Int, 0 ≤ c → c + 1 < t.nb_cluster →
    t.cluster_start (c + 1) = t.cluster_end c + 1
  cluster_bounds : ∀ i : Int, 0 ≤ i → i < s.nb_beams → 0 ≤ t.cluster i ∧ t.cluster i < t.nb_cluster
  member : ∀ i : Int, 0 ≤ i → i < s.nb_beams →
    t.cluster_start (t.cluster i) ≤ i ∧ i ≤ t.cluster_end (t.cluster i)
  adjacent : ∀ i : Int, 1 ≤ i → i < s.nb_beams →
    (continuity s.range i → t.cluster i = t.cluster (i - 1)) ∧
    (¬ continuity s.range i → t.cluster i = t.cluster (i - 1) + 1 ∧
      t.cluster_end (t.cluster (i - 1)) = i - 1 ∧ t.cluster_start (t.cluster i) = i)
  count : t.nb_cluster = 1 + (breaks s.range (s.nb_beams - 1)).card

/-! ## Example inputs -/

/-- A maths library over the rationals, to run the definitions on examples:
the square root is exact on squares of rationals, cosine and sine are the
first terms of their power series. -/
def exampleLibm : Libm where
  sqrt := Rat.sqrt
  cos := fun a => 1 - a ^ 2 / 2 + a ^ 4 / 24
  sin := fun a => a - a ^ 3 / 6 + a ^ 5 / 120

/-- The state of the node right after the initialisations of the constructor,
with every table and every field that the constructor leaves uninitialised set
to zero (resp. `false`). -/
def initialState : State where
  nb_beams := 0
  range_min := 0
  range_max := 0
  angle_min := 0
  angle_max := 0
  angle_inc := 0
  range := fun _ => 0
  current_scan := fun _ => ⟨0, 0, 0⟩
  background := fun _ => 0
  dynamic := fun _ => false
  nb_cluster := 0
  cluster := fun _ => 0
  cluster_size := fun _ => 0
  cluster_middle := fun _ => ⟨0, 0, 0⟩
  cluster_dynamic := fun _ => 0
  cluster_start := fun _ => 0
  cluster_end := fun _ => 0
  nb_moving_legs_detected := 0
  moving_leg_detected := fun _ => ⟨0, 0, 0⟩
  nb_moving_persons_detected := 0
  moving_persons_detected := fun _ => ⟨0, 0, 0⟩
  goal_to_reach := ⟨0, 0, 0⟩
  nb_pts := 0
  display := fun _ => ⟨0, 0, 0⟩
  colors := fun _ => ⟨0, 0, 0, 0⟩
  previous_robot_moving := false
  current_robot_moving := true
  init_laser := false
  init_robot := false
  display_laser := false
  display_robot := false
  log := []
  goal_pub := []
  marker_pub := []

/-- A state holding a scan of four beams: two beams at range 1 followed by two
beams at range 3. -/
def fourBeams : State :=
  { initialState with
    nb_beams := 4
    range := fun i => if i < 2 then 1 else 3
    current_scan := fun i => if i < 2 then ⟨1, 0, 0⟩ else ⟨3, 0, 0⟩ }

/-! ## Detection of the moving legs -/

/-- The clusters taken for moving legs among the clusters `0 .. n - 1`. -/
def legClusters (s : State) (n : Int) : List Int :=
  (intRange 0 n).filter (isMovingLeg s)

/-- Invariant of the loop of `detect_moving_legs` started from `s`. -/
structure LegsInv (s : State) (j : Int) (t : State) : Prop where
  size_eq : t.cluster_size = s.cluster_size
  dynamic_eq : t.cluster_dynamic = s.cluster_dynamic
  middle_eq : t.cluster_middle = s.cluster_middle
  nb_eq : t.nb_moving_legs_detected = ((legClusters s j).length : Int)
  legs_eq : t.legs = (legClusters s j).map s.cluster_middle

/-! ## Detection of the moving persons -/

/-- The test of `detect_moving_persons` on the pair of legs `(i, j)`. -/
def pairAccepted (m : Libm) (s : State) (i j : Int) : Bool :=
  decide (distancePoints m (s.moving_leg_detected i) (s.moving_leg_detected j) < legs_distance_max)

/-- The point that `detect_moving_persons` stores for the pair of legs
`(i, j)`. -/
def pairMiddle (s : State) (i j : Int) : Point :=
  ⟨((s.moving_leg_detected j).x - (s.moving_leg_detected i).x) / 2 + (s.moving_leg_detected i).x,
    ((s.moving_leg_detected j).y - (s.moving_leg_detected i).y) / 2 + (s.moving_leg_detected i).y,
    0⟩

/-- The persons found for the first leg `i` and the second legs
`i + 1 .. hi - 1`. -/
def rowPersons (m : Libm) (s : State) (i hi : Int) : List Point :=
  ((intRange (i + 1) hi).filter (pairAccepted m s i)).map (pairMiddle s i)

/-- The persons found for the first legs `0 .. n - 1`. -/
def allPersons (m : Libm) (s : State) (n : Int) : List Point :=
  (intRange 0 n).flatMap (fun i => rowPersons m s i s.nb_moving_legs_detected)

/-- What holds of the state `t` during `detect_moving_persons` started from
`s`, when the pairs examined so far have produced the persons `l`. -/
structure PersonsInv (s : State) (l : List Point) (t : State) : Prop where
  legs_eq : t.moving_leg_detected = s.moving_leg_detected
  nb_legs_eq : t.nb_moving_legs_detected = s.nb_moving_legs_detected
  nb_eq : t.nb_moving_persons_detected = (l.length : Int)
  persons_eq : t.persons = l
  goal_last : l ≠ [] → l.getLast? = some t.goal_to_reach
  goal_keep : l = [] → t.goal_to_reach = s.goal_to_reach

/-- The console lines that announce the entry into one of the five steps of
the detection (`store_background`, `detect_motion`, `perform_clustering`,
`detect_moving_legs`, `detect_moving_persons`). -/
def Event.isMarker : Event → Bool
  | .storing_background => true
  | .detecting_motion => true
  | .performing_clustering => true
  | .detecting_moving_legs => true
  | .detecting_moving_persons => true
  | _ => false

/-- The state `t` differs from `s` at most in the tables and counters written
by the detection steps (dynamic flags, clusters, legs, persons, goal, display)
and in console lines that do not announce a step. -/
structure Frame (s t : State) : Prop where
  nb_beams : t.nb_beams = s.nb_beams
  range_min : t.range_min = s.range_min
  range_max : t.range_max = s.range_max
  angle_min : t.angle_min = s.angle_min
  angle_max : t.angle_max = s.angle_max
  angle_inc : t.angle_inc = s.angle_inc
  range : t.range = s.range
  current_scan : t.current_scan = s.current_scan
  background : t.background = s.background
  previous_robot_moving : t.previous_robot_moving = s.previous_robot_moving
  current_robot_moving : t.current_robot_moving = s.current_robot_moving
  init_laser : t.init_laser = s.init_laser
  init_robot : t.init_robot = s.init_robot
  display_laser : t.display_laser = s.display_laser
  display_robot : t.display_robot = s.display_robot
  goal_pub : t.goal_pub = s.goal_pub
  marker_pub : t.marker_pub = s.marker_pub
  log_quiet : ∀ e : Event, e.isMarker = true → List.count e t.log = List.count e s.log

/-! ## Background capture -/

/-- The background table after `store_background`, in closed form. -/
def storedBackground (background range : Int → ℚ) (n : Int) : Int → ℚ :=
  fun i => if 0 ≤ i ∧ i < n then range i else background i

/-! ## The main processing step -/

/-- The condition under which `update` runs the detection: both streams have
delivered and the robot is not moving. -/
def State.gate (s : State) : Bool :=
  s.init_laser && s.init_robot && !s.current_robot_moving

/-- The condition under which `update` calls `store_background`. -/
def State.captures (s : State) : Bool :=
  s.gate && s.previous_robot_moving

/-- The state in which `update` enters its stationary branch. -/
def prelude (s : State) : State :=
  info .new_robot_moving_data (info .new_laser_data (info .newline { s with nb_pts := 0 }))

/-- The markers published so far, after one more call of
`populateMarkerTopic`. -/
@[irreducible] def markerOutput (m : Libm) (s : State) : List Marker :=
  (populateMarkerTopic m s).marker_pub

/-- What one run of the stationary branch of `update` establishes, from the
state `x` in which it is entered to its result `r`. -/
structure Stationary (m : Libm) (x r : State) : Prop where
  init_laser : r.init_laser = x.init_laser
  init_robot : r.init_robot = x.init_robot
  previous_robot_moving : r.previous_robot_moving = x.previous_robot_moving
  current_robot_moving : r.current_robot_moving = x.current_robot_moving
  log_count : ∀ e : Event, e.isMarker = true → List.count e r.log
    = List.count e x.log
      + (if e = .storing_background then (if x.previous_robot_moving = true then 1 else 0) else 1)
  goal_pub : r.goal_pub
    = x.goal_pub ++ (if r.nb_moving_persons_detected ≠ 0 then [r.goal_to_reach] else [])
  persons_eq : r.persons = allPersons m r r.nb_moving_legs_detected
  nb_eq : r.nb_moving_persons_detected
    = ((allPersons m r r.nb_moving_legs_detected).length : Int)

/-- What `update` leaves alone when it does not run the detection. -/
structure Idle (s t : State) : Prop where
  init_laser : t.init_laser = s.init_laser
  init_robot : t.init_robot = s.init_robot
  previous_robot_moving : t.previous_robot_moving = s.previous_robot_moving
  current_robot_moving : t.current_robot_moving = s.current_robot_moving
  background : t.background = s.background
  dynamic : t.dynamic = s.dynamic
  nb_cluster : t.nb_cluster = s.nb_cluster
  cluster : t.cluster = s.cluster
  cluster_size : t.cluster_size = s.cluster_size
  cluster_middle : t.cluster_middle = s.cluster_middle
  cluster_dynamic : t.cluster_dynamic = s.cluster_dynamic
  cluster_start : t.cluster_start = s.cluster_start
  cluster_end : t.cluster_end = s.cluster_end
  nb_moving_legs_detected : t.nb_moving_legs_detected = s.nb_moving_legs_detected
  moving_leg_detected : t.moving_leg_detected = s.moving_leg_detected
  nb_moving_persons_detected : t.nb_moving_persons_detected = s.nb_moving_persons_detected
  moving_persons_detected : t.moving_persons_detected = s.moving_persons_detected
  goal_to_reach : t.goal_to_reach = s.goal_to_reach
  goal_pub : t.goal_pub = s.goal_pub
  marker_pub : t.marker_pub = s.marker_pub
  log_quiet : ∀ e : Event, e.isMarker = true → List.count e t.log = List.count e s.log

/-! ## Ticks of the main loop -/

/-- What one `ros::spinOnce()` delivers: at most one scan and at most one
value of robot_moving (both subscriptions have a queue of size 1). -/
structure Tick where
  scan : Option LaserScan
  moving : Option Bool

/-- The call `ros::spinOnce()`: each callback is called at most once. -/
def spinOnce (m : Libm) (tk : Tick) (s : State) : State :=
  let s := match tk.scan with
    | some scan => scanCallback m scan s
    | none => s
  match tk.moving with
  | some data => robot_movingCallback data s
  | none => s

/-- One turn of the loop of the constructor: `ros::spinOnce(); update();`. -/
def tick (m : Libm) (tk : Tick) (s : State) : State :=
  update m (spinOnce m tk s)

/-- Whether `store_background` has been announced between `s` and `t`. -/
def ranBackground (s t : State) : Bool :=
  decide (List.count Event.storing_background s.log < List.count Event.storing_background t.log)

/-- Whether `detect_motion` has been announced between `s` and `t`. -/
def ranMotion (s t : State) : Bool :=
  decide (List.count Event.detecting_motion s.log < List.count Event.detecting_motion t.log)

/-- For each tick of a run, whether `store_background` ran on that tick. -/
def captureTrace (m : Libm) : List Tick → State → List Bool
  | [], _ => []
  | tk :: rest, s => ranBackground s (tick m tk s) :: captureTrace m rest (tick m tk s)

/-- For each tick of a run, whether `detect_motion` ran on that tick. -/
def motionTrace (m : Libm) : List Tick → State → List Bool
  | [], _ => []
  | tk :: rest, s => ranMotion s (tick m tk s) :: motionTrace m rest (tick m tk s)

/-- For each tick of a run, whether the robot goes from moving to stationary
on that tick; `moving` is the state of the robot at the preceding tick, and a
tick without a value of robot_moving leaves the state of the robot as it is.
This follows the words of the specification, not the code. -/
def transitionTrace : List Tick → Bool → List Bool
  | [], _ => []
  | tk :: rest, moving =>
    match tk.moving with
    | none => false :: transitionTrace rest moving
    | some data => (moving && !data) :: transitionTrace rest data

/-- The four flags that decide what `update` does. -/
structure Control where
  init_laser : Bool
  init_robot : Bool
  previous : Bool
  current : Bool
deriving DecidableEq

/-- The flags of a state. -/
def State.control (s : State) : Control :=
  ⟨s.init_laser, s.init_robot, s.previous_robot_moving, s.current_robot_moving⟩

/-- Effect of `spinOnce` on the flags. -/
def Control.spin (scan : Bool) (moving : Option Bool) (c : Control) : Control :=
  let c := if scan then { c with init_laser := true } else c
  match moving with
  | some data => { c with init_robot := true, previous := c.current, current := data }
  | none => c

/-- The gate of `update` on the flags. -/
def Control.gate (c : Control) : Bool :=
  c.init_laser && c.init_robot && !c.current

/-- The condition of `store_background` on the flags. -/
def Control.captures (c : Control) : Bool :=
  c.gate && c.previous

/-- The run of the flags alone; `f` is the observation made after each
`spinOnce`. -/
def controlTrace (f : Control → Bool) : List (Bool × Option Bool) → Control → List Bool
  | [], _ => []
  | (scan, moving) :: rest, c =>
    f (c.spin scan moving) :: controlTrace f rest (c.spin scan moving)

/-- What of a tick matters to the flags. -/
def Tick.shape (tk : Tick) : Bool × Option Bool :=
  (tk.scan.isSome, tk.moving)

/-- A scan of four beams over the angles `-1 .. 1`. -/
def exampleScan : LaserScan where
  range_min := 1 / 10
  range_max := 10
  angle_min := -1
  angle_max := 1
  angle_increment := 1 / 2
  ranges := [1, 1, 3, 3]

/-! ## Size, middle and dynamic percentage of a cluster -/

/-- The sum of the distances between the consecutive points `k`, `k + 1` for
`k = s .. e - 1`. -/
def arcLength (m : Libm) (scan : Int → Point) (s e : Int) : ℚ :=
  ((intRange s e).map (fun k => distancePoints m (scan k) (scan (k + 1)))).sum

/-- The number of indices `k` in `s .. e` with `dynamic[k]` true. -/
def dynCount (dynamic : Int → Bool) (s e : Int) : Int :=
  (((intRange s (e + 1)).filter (fun k => dynamic k)).length : Int)

/-- The point `point[s] + (point[e] - point[s]) / 2`, with `z = 0`. -/
def endpointMiddle (scan : Int → Point) (s e : Int) : Point :=
  ⟨(scan s).x + ((scan e).x - (scan s).x) / 2, (scan s).y + ((scan e).y - (scan s).y) / 2, 0⟩

/-- What the main loop of `perform_clustering`, started from `s0`, has stored
about the sizes, middles and dynamic percentages when the loop variable has
the value `j`: the closed clusters are described by their first and last hit,
and the local counter `d` counts the dynamic hits of the open cluster. -/
structure ClusterDataInv (m : Libm) (s0 : State) (j : Int) (t : State) (d : Int) : Prop where
  scan_eq : t.current_scan = s0.current_scan
  dynamic_eq : t.dynamic = s0.dynamic
  counter : d = dynCount s0.dynamic (t.cluster_start t.nb_cluster) (j - 1)
  size : ∀ c : Int, 0 ≤ c → c < t.nb_cluster →
    t.cluster_size c = arcLength m s0.current_scan (t.cluster_start c) (t.cluster_end c)
  middle : ∀ c : Int, 0 ≤ c → c < t.nb_cluster →
    t.cluster_middle c = endpointMiddle s0.current_scan (t.cluster_start c) (t.cluster_end c)
  percentage : ∀ c : Int, 0 ≤ c → c < t.nb_cluster →
    t.cluster_dynamic c
      = truncToInt ((dynCount s0.dynamic (t.cluster_start c) (t.cluster_end c) : ℚ)
          / ((t.cluster_end c - t.cluster_start c + 1 : Int) : ℚ) * 100)

/-- A state holding a scan of `n` beams at range 1, in front of a background
at range 1 except at beam `k0`, where the background is at range 1.3. -/
def oneDynamicBeam (n k0 : Int) : State :=
  { initialState with
    nb_beams := n
    range := fun _ => 1
    background := fun i => if i = k0 then 13 / 10 else 1 }

/-! ## Scans -/

/-- The range that `scanCallback` stores for beam `i` of a scan. -/
def scanRange (scan : LaserScan) (i : Int) : ℚ :=
  if scan.ranges.getD i.toNat 0 < scan.range_max ∧ scan.ranges.getD i.toNat 0 > scan.range_min then
    scan.ranges.getD i.toNat 0
  else scan.range_max

/-- The point that `scanCallback` stores for beam `i` of a scan. -/
def scanPoint (m : Libm) (scan : LaserScan) (i : Int) : Point :=
  ⟨scanRange scan i * m.cos (scan.angle_min + i * scan.angle_increment),
    scanRange scan i * m.sin (scan.angle_min + i * scan.angle_increment), 0⟩

/-- The state after the assignments with which `scanCallback` begins. -/
def scanHeader (scan : LaserScan) (s : State) : State :=
  { s with
    init_laser := true
    range_min := scan.range_min
    range_max := scan.range_max
    angle_min := scan.angle_min
    angle_max := scan.angle_max
    angle_inc := scan.angle_increment
    nb_beams := truncToInt (((-1) * scan.angle_min + scan.angle_max) / scan.angle_increment) }

/-- The state after the first `j` iterations of the loop of `scanCallback`
started in state `h`. -/
def scanFilled (m : Libm) (scan : LaserScan) (h : State) (j : Int) : State :=
  { h with
    range := fun i => if 0 ≤ i ∧ i < j then scanRange scan i else h.range i
    current_scan := fun i => if 0 ≤ i ∧ i < j then scanPoint m scan i else h.current_scan i }

/-- A state holding a scan of ten beams at range 1, except the beams 3, 4 and 5
at range 0.3, in front of a background at range 1. -/
def tenBeams : State :=
  { initialState with
    nb_beams := 10
    background := fun _ => 1
    range := fun i => if 3 ≤ i ∧ i ≤ 5 then 3 / 10 else 1 }

/-- The state `t` holds the same dynamic flags and the same tables of
clusters as the state `s`. -/
structure ClustersKept (s t : State) : Prop where
  dynamic : t.dynamic = s.dynamic
  nb_cluster : t.nb_cluster = s.nb_cluster
  cluster_start : t.cluster_start = s.cluster_start
  cluster_end : t.cluster_end = s.cluster_end
  cluster_size : t.cluster_size = s.cluster_size
  cluster_middle : t.cluster_middle = s.cluster_middle
  cluster_dynamic : t.cluster_dynamic = s.cluster_dynamic

/-- The state of `update` right after its call of `store_background`, on a
tick at which it makes that call. -/
def afterCapture (s : State) : State :=
  store_background (info .robot_not_moving { (prelude s) with nb_pts := 0 })

/-- The scan of ten beams in a node that has received both streams and whose
robot has just stopped. -/
def tenBeamsStopped : State :=
  { tenBeams with
    init_laser := true
    init_robot := true
    previous_robot_moving := true
    current_robot_moving := false }

/-! ## A crowded scan -/

@[simp] theorem assign_same {α : Type} (table : Int → α) (i : Int) (v : α) :
    assign table i v i = v := by
  simp [assign]

theorem assign_noteq {α : Type} {i k : Int} (h : k ≠ i) (v : α) (table : Int → α) :
    assign table i v k = table k := by
  simp [assign, h]

theorem forLoopFrom_succ_last {σ : Type} (body : Int → σ → σ) (k : Nat) (i : Int) (s : σ) :
    forLoopFrom body (k + 1) i s = body (i + k) (forLoopFrom body k i s) := by
  induction k generalizing i s with
  | zero => simp [forLoopFrom]
  | succ k ih =>
    rw [forLoopFrom, ih (i + 1) (body i s)]
    have h : i + 1 + (k : Int) = i + ((k + 1 : Nat) : Int) := by push_cast; ring
    rw [h]
    rfl

/-- Invariant rule for a counted loop: an invariant that holds on entry and is
kept by every iteration holds on exit, for the final value of the loop
variable. -/
theorem forLoopFrom_invariant {σ : Type} (body : Int → σ → σ) (Inv : Int → σ → Prop)
    (k : Nat) (i : Int) (s : σ) (h0 : Inv i s)
    (hstep : ∀ j t, i ≤ j → j < i + k → Inv j t → Inv (j + 1) (body j t)) :
    Inv (i + k) (forLoopFrom body k i s) := by
  induction k with
  | zero => simpa [forLoopFrom] using h0
  | succ k ih =>
    rw [forLoopFrom_succ_last]
    have hk : Inv (i + k) (forLoopFrom body k i s) :=
      ih (fun j t h1 h2 hj => hstep j t h1 (by push_cast; omega) hj)
    have := hstep (i + k) _ (by omega) (by push_cast; omega) hk
    have e : i + ((k + 1 : Nat) : Int) = i + k + 1 := by push_cast; ring
    rw [e]
    exact this

/-- Invariant rule for `for (i = lo; i < hi; i++)` when `lo ≤ hi`. -/
theorem forLoop_invariant {σ : Type} (body : Int → σ → σ) (Inv : Int → σ → Prop)
    (lo hi : Int) (s : σ) (hle : lo ≤ hi) (h0 : Inv lo s)
    (hstep : ∀ j t, lo ≤ j → j < hi → Inv j t → Inv (j + 1) (body j t)) :
    Inv hi (forLoop lo hi body s) := by
  have h := forLoopFrom_invariant body Inv (hi - lo).toNat lo s h0
    (fun j t h1 h2 hj => hstep j t h1 (by omega) hj)
  have e : lo + ((hi - lo).toNat : Int) = hi := by omega
  rw [e] at h
  exact h

/-- A loop whose range is empty does nothing. -/
theorem forLoop_empty {σ : Type} (body : Int → σ → σ) (lo hi : Int) (s : σ) (h : hi ≤ lo) :
    forLoop lo hi body s = s := by
  have e : (hi - lo).toNat = 0 := by omega
  simp [forLoop, e, forLoopFrom]

/-- Rule for a property of the state alone that every iteration keeps. -/
theorem forLoop_preserves {σ : Type} (body : Int → σ → σ) (P : σ → Prop)
    (lo hi : Int) (s : σ) (h0 : P s) (hstep : ∀ j t, lo ≤ j → j < hi → P t → P (body j t)) :
    P (forLoop lo hi body s) := by
  rcases le_or_lt lo hi with hle | hlt
  · exact forLoop_invariant body (fun _ t => P t) lo hi s hle h0 hstep
  · rw [forLoop_empty body lo hi s (le_of_lt hlt)]
    exact h0

/-! ## Motion detection -/

theorem detect_motion_step_eq (loop : Int) (s : State) :
    detect_motion_step loop s =
      { s with dynamic := assign s.dynamic loop (decide (|s.background loop - s.range loop| > detection_threshold)) } := by
  simp only [detect_motion_step]
  by_cases hneg : s.background loop - s.range loop < 0
  · rw [if_pos hneg, abs_of_neg hneg]
    by_cases hd : -(s.background loop - s.range loop) > detection_threshold
    · rw [if_pos hd, decide_eq_true hd]
    · rw [if_neg hd, decide_eq_false hd]
  · rw [if_neg hneg, abs_of_nonneg (not_lt.mp hneg)]
    by_cases hd : s.background loop - s.range loop > detection_threshold
    · rw [if_pos hd, decide_eq_true hd]
    · rw [if_neg hd, decide_eq_false hd]

theorem detect_motion_loop_eq (s : State) (n : Int) (hn : 0 ≤ n) :
    forLoop 0 n detect_motion_step s
      = { s with dynamic := motionFlags s.background s.range n s.dynamic } := by
  refine forLoop_invariant detect_motion_step
    (fun j t => t = { s with dynamic := motionFlags s.background s.range j s.dynamic })
    0 n s hn ?_ ?_
  · have : motionFlags s.background s.range 0 s.dynamic = s.dynamic := by
      funext i
      have : ¬ (0 ≤ i ∧ i < 0) := by omega
      simp [motionFlags, this]
    simp [this]
  · intro j t h0 _ ht
    subst ht
    rw [detect_motion_step_eq]
    simp only [State.mk.injEq, true_and, and_true]
    funext i
    by_cases hij : i = j
    · subst hij
      have : 0 ≤ i ∧ i < i + 1 := by omega
      simp [motionFlags, this]
    · have e : (0 ≤ i ∧ i < j + 1) ↔ (0 ≤ i ∧ i < j) := by omega
      simp [motionFlags, assign_noteq hij, e]

/-- Closed form of `detect_motion`: only the dynamic flags of the beams and the
console change. -/
theorem detect_motion_eq (s : State) :
    detect_motion s = { s with
      dynamic := motionFlags s.background s.range s.nb_beams s.dynamic
      log := s.log ++ [.detecting_motion, .motion_detected] } := by
  unfold detect_motion
  rcases le_or_lt 0 s.nb_beams with h | h
  · simp [info, detect_motion_loop_eq _ _ h]
  · have e : motionFlags s.background s.range s.nb_beams s.dynamic = s.dynamic := by
      funext i
      have : ¬ (0 ≤ i ∧ i < s.nb_beams) := by omega
      simp [motionFlags, this]
    simp [info, forLoop_empty _ _ _ _ (le_of_lt h), e]

theorem ite_neg_eq_abs (d : ℚ) : (if d < 0 then -d else d) = |d| := by
  by_cases h : d < 0
  · rw [if_pos h, abs_of_neg h]
  · rw [if_neg h, abs_of_nonneg (not_lt.mp h)]

theorem breaks_zero (range : Int → ℚ) : breaks range 0 = ∅ := by
  simp [breaks]

theorem breaks_succ_of_continuity (range : Int → ℚ) (j : Int) (h : continuity range j) :
    breaks range j = breaks range (j - 1) := by
  ext i
  simp only [breaks, Finset.mem_filter, Finset.mem_Icc]
  constructor
  · rintro ⟨⟨h1, h2⟩, h3⟩
    have : i ≠ j := fun e => h3 (e ▸ h)
    exact ⟨⟨h1, by omega⟩, h3⟩
  · rintro ⟨⟨h1, h2⟩, h3⟩
    exact ⟨⟨h1, by omega⟩, h3⟩

theorem breaks_succ_of_not_continuity (range : Int → ℚ) (j : Int) (hj : 1 ≤ j)
    (h : ¬ continuity range j) :
    (breaks range j).card = (breaks range (j - 1)).card + 1 := by
  have e : breaks range j = insert j (breaks range (j - 1)) := by
    ext i
    simp only [breaks, Finset.mem_filter, Finset.mem_Icc, Finset.mem_insert]
    constructor
    · rintro ⟨⟨h1, h2⟩, h3⟩
      by_cases hij : i = j
      · exact Or.inl hij
      · exact Or.inr ⟨⟨h1, by omega⟩, h3⟩
    · rintro (rfl | ⟨⟨h1, h2⟩, h3⟩)
      · exact ⟨⟨hj, le_refl _⟩, h⟩
      · exact ⟨⟨h1, by omega⟩, h3⟩
  have hnot : j ∉ breaks range (j - 1) := by
    simp only [breaks, Finset.mem_filter, Finset.mem_Icc]
    rintro ⟨⟨_, h2⟩, _⟩
    omega
  rw [e, Finset.card_insert_of_not_mem hnot]

/-- Effect of one iteration of the clustering loop on the tables that describe
the partition, when the continuity predicate holds. -/
theorem clustering_step_of_continuity (m : Libm) (j : Int) (p : State × Int)
    (h : continuity p.1.range j) :
    (clustering_step m j p).1 = { p.1 with cluster := assign p.1.cluster j p.1.nb_cluster } := by
  have h2 : (if p.1.range (j - 1) - p.1.range j < 0 then -(p.1.range (j - 1) - p.1.range j)
      else p.1.range (j - 1) - p.1.range j) < cluster_threshold := by
    rw [ite_neg_eq_abs]
    exact h
  simp only [clustering_step]
  rw [if_pos h2]

/-- Effect of one iteration of the clustering loop on the tables that describe
the partition, when the continuity predicate fails. -/
theorem clustering_step_of_not_continuity (m : Libm) (j : Int) (p : State × Int)
    (h : ¬ continuity p.1.range j) :
    (clustering_step m j p).1.nb_cluster = p.1.nb_cluster + 1 ∧
    (clustering_step m j p).1.cluster = assign p.1.cluster j (p.1.nb_cluster + 1) ∧
    (clustering_step m j p).1.cluster_start
      = assign p.1.cluster_start (p.1.nb_cluster + 1) j ∧
    (clustering_step m j p).1.cluster_end
      = assign p.1.cluster_end p.1.nb_cluster (j - 1) ∧
    (clustering_step m j p).1.range = p.1.range ∧
    (clustering_step m j p).1.nb_beams = p.1.nb_beams := by
  have h2 : ¬ (if p.1.range (j - 1) - p.1.range j < 0 then -(p.1.range (j - 1) - p.1.range j)
      else p.1.range (j - 1) - p.1.range j) < cluster_threshold := by
    rw [ite_neg_eq_abs]
    exact h
  simp only [clustering_step]
  rw [if_neg h2]
  simp [closeCluster, info, pushDisplay]

theorem clustering_init_fields (s : State) :
    (clustering_init s).1.nb_cluster = 0 ∧
    (clustering_init s).1.cluster = assign s.cluster 0 0 ∧
    (clustering_init s).1.cluster_start = assign s.cluster_start 0 0 ∧
    (clustering_init s).1.cluster_end = s.cluster_end ∧
    (clustering_init s).1.range = s.range ∧
    (clustering_init s).1.nb_beams = s.nb_beams := by
  simp [clustering_init, info, pushDisplay]

theorem clusteringInv_init (s : State) : ClusteringInv s 1 (clustering_init s).1 := by
  obtain ⟨h1, h2, h3, _, h5, h6⟩ := clustering_init_fields s
  refine ⟨h5, h6, by omega, by simp [h3], ?_, ?_, by simp [h1, h2], ?_, ?_, ?_, ?_⟩
  · intro c hc0 hc1
    omega
  · intro i hi0 hi1
    have : i = 0 := by omega
    subst this
    simp [h1, h2]
  · intro i hi0 hi1
    omega
  · intro i hi0 hi1
    have : i = 0 := by omega
    subst this
    simp [h2, h3]
  · intro i hi0 hi1 hlt
    have : i = 0 := by omega
    subst this
    simp [h1, h2] at hlt
  · simp [h1, breaks_zero]

theorem clusteringInv_step (m : Libm) (s0 : State) (j : Int) (p : State × Int) (hj : 1 ≤ j)
    (inv : ClusteringInv s0 j p.1) : ClusteringInv s0 (j + 1) (clustering_step m j p).1 := by
  have hjj : j + 1 - 1 = j := by omega
  by_cases hc : continuity p.1.range j
  · rw [clustering_step_of_continuity m j p hc]
    have hc0 : continuity s0.range j := inv.range_eq ▸ hc
    have hupd : ∀ i : Int, i < j → assign p.1.cluster j p.1.nb_cluster i = p.1.cluster i :=
      fun i hi => assign_noteq (by omega) _ _
    refine ⟨inv.range_eq, inv.nb_beams_eq, inv.nb_nonneg, inv.start_zero, inv.closed, ?_, ?_, ?_,
      ?_, ?_, ?_⟩
    · intro i hi0 hi1
      show 0 ≤ assign p.1.cluster j p.1.nb_cluster i ∧
        assign p.1.cluster j p.1.nb_cluster i ≤ p.1.nb_cluster
      by_cases hij : i = j
      · subst hij
        simp [inv.nb_nonneg]
      · rw [hupd i (by omega)]
        exact inv.cluster_bounds i hi0 (by omega)
    · show assign p.1.cluster j p.1.nb_cluster (j + 1 - 1) = p.1.nb_cluster
      rw [hjj, assign_same]
    · intro i hi0 hi1
      show (continuity s0.range i → assign p.1.cluster j p.1.nb_cluster i
          = assign p.1.cluster j p.1.nb_cluster (i - 1)) ∧
        (¬ continuity s0.range i → assign p.1.cluster j p.1.nb_cluster i
          = assign p.1.cluster j p.1.nb_cluster (i - 1) + 1 ∧
          p.1.cluster_end (assign p.1.cluster j p.1.nb_cluster (i - 1)) = i - 1 ∧
          p.1.cluster_start (assign p.1.cluster j p.1.nb_cluster i) = i)
      rw [hupd (i - 1) (by omega)]
      by_cases hij : i = j
      · subst hij
        refine ⟨fun _ => ?_, fun hn => absurd hc0 hn⟩
        simp [inv.cluster_last]
      · rw [hupd i (by omega)]
        exact inv.adjacent i hi0 (by omega)
    · intro i hi0 hi1
      show p.1.cluster_start (assign p.1.cluster j p.1.nb_cluster i) ≤ i
      by_cases hij : i = j
      · subst hij
        have h1 := inv.start_le (i - 1) (by omega) (by omega)
        rw [inv.cluster_last] at h1
        simp only [assign_same]
        omega
      · rw [hupd i (by omega)]
        exact inv.start_le i hi0 (by omega)
    · intro i hi0 hi1
      show assign p.1.cluster j p.1.nb_cluster i < p.1.nb_cluster →
        i ≤ p.1.cluster_end (assign p.1.cluster j p.1.nb_cluster i)
      by_cases hij : i = j
      · subst hij
        simp
      · rw [hupd i (by omega)]
        exact inv.le_end i hi0 (by omega)
    · show p.1.nb_cluster = (breaks s0.range (j + 1 - 1)).card
      rw [hjj, breaks_succ_of_continuity s0.range j hc0]
      exact inv.count
  · obtain ⟨h1, h2, h3, h4, h5, h6⟩ := clustering_step_of_not_continuity m j p hc
    have hc0 : ¬ continuity s0.range j := inv.range_eq ▸ hc
    have hnb := inv.nb_nonneg
    have hupd : ∀ i : Int, i < j →
        assign p.1.cluster j (p.1.nb_cluster + 1) i = p.1.cluster i :=
      fun i hi => assign_noteq (by omega) _ _
    have hstart : ∀ c : Int, c ≤ p.1.nb_cluster →
        assign p.1.cluster_start (p.1.nb_cluster + 1) j c = p.1.cluster_start c :=
      fun c hc => assign_noteq (by omega) _ _
    have hend : ∀ c : Int, c < p.1.nb_cluster →
        assign p.1.cluster_end p.1.nb_cluster (j - 1) c = p.1.cluster_end c :=
      fun c hc => assign_noteq (by omega) _ _
    have hopen : p.1.cluster_start p.1.nb_cluster ≤ j - 1 := by
      have := inv.start_le (j - 1) (by omega) (by omega)
      rwa [inv.cluster_last] at this
    refine ⟨h5.trans inv.range_eq, h6.trans inv.nb_beams_eq, by omega, ?_, ?_, ?_, ?_, ?_, ?_, ?_,
      ?_⟩
    · rw [h3, hstart 0 hnb]
      exact inv.start_zero
    · intro c hc0' hc1
      rw [h1] at hc1
      rw [h3, h4]
      by_cases hcn : c = p.1.nb_cluster
      · subst hcn
        rw [hstart _ (le_refl _)]
        simp only [assign_same]
        exact ⟨hopen, by omega⟩
      · have hlt : c < p.1.nb_cluster := by omega
        rw [hstart c (by omega), hstart (c + 1) (by omega), hend c hlt]
        exact inv.closed c hc0' hlt
    · intro i hi0 hi1
      rw [h1, h2]
      by_cases hij : i = j
      · subst hij
        simp only [assign_same]
        omega
      · rw [hupd i (by omega)]
        have := inv.cluster_bounds i hi0 (by omega)
        omega
    · rw [h1, h2, hjj]
      simp
    · intro i hi0 hi1
      rw [h2, h3, h4, hupd (i - 1) (by omega)]
      have hb := inv.cluster_bounds (i - 1) (by omega) (by omega)
      by_cases hij : i = j
      · subst hij
        refine ⟨fun hcont => absurd hcont hc0, fun _ => ?_⟩
        rw [inv.cluster_last]
        simp
      · rw [hupd i (by omega)]
        have hbi := inv.cluster_bounds i (by omega) (by omega)
        obtain ⟨ha, hb'⟩ := inv.adjacent i hi0 (by omega)
        refine ⟨ha, fun hn => ?_⟩
        obtain ⟨e1, e2, e3⟩ := hb' hn
        refine ⟨e1, ?_, ?_⟩
        · rw [hend _ (by omega)]
          exact e2
        · rw [hstart _ hbi.2]
          exact e3
    · intro i hi0 hi1
      rw [h2, h3]
      by_cases hij : i = j
      · subst hij
        simp
      · rw [hupd i (by omega)]
        have hbi := inv.cluster_bounds i hi0 (by omega)
        rw [hstart _ hbi.2]
        exact inv.start_le i hi0 (by omega)
    · intro i hi0 hi1
      rw [h1, h2, h4]
      by_cases hij : i = j
      · subst hij
        simp
      · rw [hupd i (by omega)]
        intro _
        have hbi := inv.cluster_bounds i hi0 (by omega)
        by_cases hcl : p.1.cluster i = p.1.nb_cluster
        · rw [hcl]
          simp only [assign_same]
          omega
        · have hlt : p.1.cluster i < p.1.nb_cluster := by omega
          rw [hend _ hlt]
          exact inv.le_end i hi0 (by omega) hlt
    · rw [h1, hjj, breaks_succ_of_not_continuity s0.range j hj hc0]
      have := inv.count
      omega

theorem clusteringInv_loop (m : Libm) (s : State) (hN : 1 ≤ s.nb_beams) :
    ClusteringInv s s.nb_beams (clustering_loop m (clustering_init s)).1 := by
  have hnb : (clustering_init s).1.nb_beams = s.nb_beams := (clustering_init_fields s).2.2.2.2.2
  unfold clustering_loop
  rw [hnb]
  exact forLoop_invariant (clustering_step m) (fun j p => ClusteringInv s j p.1) 1 s.nb_beams
    (clustering_init s) hN (clusteringInv_init s)
    (fun j p h1 _ inv => clusteringInv_step m s j p h1 inv)

/-- The tables describing the partition after `perform_clustering`, in terms
of the state `p` at the exit of the main loop. -/
theorem perform_clustering_fields (m : Libm) (s : State) :
    (perform_clustering m s).nb_cluster = (clustering_loop m (clustering_init s)).1.nb_cluster + 1 ∧
    (perform_clustering m s).cluster = (clustering_loop m (clustering_init s)).1.cluster ∧
    (perform_clustering m s).cluster_start
      = (clustering_loop m (clustering_init s)).1.cluster_start ∧
    (perform_clustering m s).cluster_end
      = assign (clustering_loop m (clustering_init s)).1.cluster_end
          (clustering_loop m (clustering_init s)).1.nb_cluster
          ((clustering_loop m (clustering_init s)).1.nb_beams - 1) ∧
    (perform_clustering m s).range = (clustering_loop m (clustering_init s)).1.range ∧
    (perform_clustering m s).nb_beams = (clustering_loop m (clustering_init s)).1.nb_beams := by
  simp [perform_clustering, closeCluster, info, pushDisplay]

theorem perform_clustering_clustered (m : Libm) (s : State) (hN : 1 ≤ s.nb_beams) :
    Clustered s (perform_clustering m s) := by
  have inv := clusteringInv_loop m s hN
  obtain ⟨h1, h2, h3, h4, _, _⟩ := perform_clustering_fields m s
  generalize (clustering_loop m (clustering_init s)).1 = q at inv h1 h2 h3 h4
  have hnb := inv.nb_nonneg
  have hend : ∀ c : Int, c < q.nb_cluster →
      assign q.cluster_end q.nb_cluster (q.nb_beams - 1) c = q.cluster_end c :=
    fun c hc => assign_noteq (by omega) _ _
  have hopen : q.cluster_start q.nb_cluster ≤ s.nb_beams - 1 := by
    have := inv.start_le (s.nb_beams - 1) (by omega) (by omega)
    rwa [inv.cluster_last] at this
  refine ⟨by omega, ?_, ?_, ?_, ?_, ?_, ?_, ?_, ?_⟩
  · rw [h3]
    exact inv.start_zero
  · rw [h1, h4, inv.nb_beams_eq]
    have : q.nb_cluster + 1 - 1 = q.nb_cluster := by omega
    rw [this, assign_same]
  · intro c hc0 hc1
    rw [h1] at hc1
    rw [h3, h4]
    by_cases hcn : c = q.nb_cluster
    · subst hcn
      rw [assign_same, inv.nb_beams_eq]
      exact hopen
    · rw [hend c (by omega)]
      exact (inv.closed c hc0 (by omega)).1
  · intro c hc0 hc1
    rw [h1] at hc1
    rw [h3, h4, hend c (by omega)]
    exact (inv.closed c hc0 (by omega)).2
  · intro i hi0 hi1
    rw [h1, h2]
    have := inv.cluster_bounds i hi0 hi1
    omega
  · intro i hi0 hi1
    rw [h2, h3, h4]
    refine ⟨inv.start_le i hi0 hi1, ?_⟩
    have hb := inv.cluster_bounds i hi0 hi1
    by_cases hcl : q.cluster i = q.nb_cluster
    · rw [hcl, assign_same, inv.nb_beams_eq]
      omega
    · have hlt : q.cluster i < q.nb_cluster := by omega
      rw [hend _ hlt]
      exact inv.le_end i hi0 hi1 hlt
  · intro i hi0 hi1
    rw [h2, h3, h4]
    obtain ⟨ha, hb⟩ := inv.adjacent i hi0 hi1
    refine ⟨ha, fun hn => ?_⟩
    obtain ⟨e1, e2, e3⟩ := hb hn
    have hbi := inv.cluster_bounds i (by omega) hi1
    refine ⟨e1, ?_, e3⟩
    rw [hend _ (by omega)]
    exact e2
  · rw [h1, inv.count]
    omega

/-- Telescoping sum of the sizes of consecutive index intervals. -/
theorem sum_consecutive (st en : Int → Int) (n : Nat)
    (h : ∀ c : Int, 0 ≤ c → c < n → st (c + 1) = en c + 1) :
    ∑ c ∈ Finset.range n, (en (c : Int) - st (c : Int) + 1) = st n - st 0 := by
  induction n with
  | zero => simp
  | succ n ih =>
    rw [Finset.sum_range_succ, ih (fun c h0 h1 => h c h0 (by push_cast; omega))]
    have := h n (by omega) (by push_cast; omega)
    push_cast
    omega

/-- Consecutive index intervals are ordered: an earlier one ends before a
later one starts. -/
theorem consecutive_lt (st en : Int → Int) (n : Int)
    (hle : ∀ c : Int, 0 ≤ c → c < n → st c ≤ en c)
    (hnext : ∀ c : Int, 0 ≤ c → c + 1 < n → st (c + 1) = en c + 1)
    (c : Int) (d : Nat) (hc : 0 ≤ c) (hd : c + d + 1 < n) : en c < st (c + d + 1) := by
  induction d with
  | zero =>
    have := hnext c hc (by simpa using hd)
    simp only [Nat.cast_zero, add_zero]
    omega
  | succ d ih =>
    have h1 := ih (by push_cast at hd; omega)
    have h2 := hle (c + d + 1) (by omega) (by push_cast at hd; omega)
    have h3 := hnext (c + d + 1) (by omega) (by push_cast at hd; omega)
    have e : c + ((d + 1 : Nat) : Int) + 1 = c + d + 1 + 1 := by push_cast; ring
    rw [e]
    omega

/-! ## The partition into clusters -/

/-- C1: for a scan of `N ≥ 1` beams `perform_clustering` produces at least one
cluster; the first cluster starts at 0, the last one ends at `N - 1`, every
cluster has `start ≤ end`, each following cluster starts at the end of the
previous one plus 1, the sizes `end - start + 1` add up to `N`, and every beam
index of `0 .. N-1` lies in exactly one cluster (no gap, no overlap). -/
theorem perform_clustering_partition (m : Libm) (s : State) (hN : 1 ≤ s.nb_beams) :
    1 ≤ (perform_clustering m s).nb_cluster ∧
    (perform_clustering m s).cluster_start 0 = 0 ∧
    (perform_clustering m s).cluster_end ((perform_clustering m s).nb_cluster - 1)
      = s.nb_beams - 1 ∧
    (∀ c : Int, 0 ≤ c → c < (perform_clustering m s).nb_cluster →
      (perform_clustering m s).cluster_start c ≤ (perform_clustering m s).cluster_end c) ∧
    (∀ c : Int, 0 ≤ c → c + 1 < (perform_clustering m s).nb_cluster →
      (perform_clustering m s).cluster_start (c + 1)
        = (perform_clustering m s).cluster_end c + 1) ∧
    (∑ c ∈ Finset.range (perform_clustering m s).nb_cluster.toNat,
      ((perform_clustering m s).cluster_end (c : Int)
        - (perform_clustering m s).cluster_start (c : Int) + 1)) = s.nb_beams ∧
    (∀ i : Int, 0 ≤ i → i < s.nb_beams →
      ∃! c : Int, 0 ≤ c ∧ c < (perform_clustering m s).nb_cluster ∧
        (perform_clustering m s).cluster_start c ≤ i ∧
        i ≤ (perform_clustering m s).cluster_end c) := by
  have h := perform_clustering_clustered m s hN
  generalize perform_clustering m s = t at h
  refine ⟨h.nb_pos, h.start_zero, h.end_last, h.start_le_end, h.next_start, ?_, ?_⟩
  · have hpos := h.nb_pos
    obtain ⟨k, hk⟩ : ∃ k : Nat, t.nb_cluster = k + 1 := ⟨(t.nb_cluster - 1).toNat, by omega⟩
    have e : t.nb_cluster.toNat = k + 1 := by omega
    rw [e, Finset.sum_range_succ,
      sum_consecutive t.cluster_start t.cluster_end k (fun c h0 h1 => h.next_start c h0 (by omega))]
    have h1 := h.end_last
    have h2 := h.start_zero
    have e2 : t.nb_cluster - 1 = k := by omega
    rw [e2] at h1
    omega
  · intro i hi0 hi1
    obtain ⟨hb0, hb1⟩ := h.cluster_bounds i hi0 hi1
    obtain ⟨hm0, hm1⟩ := h.member i hi0 hi1
    refine ⟨t.cluster i, ⟨hb0, hb1, hm0, hm1⟩, ?_⟩
    rintro c ⟨hc0, hc1, hc2, hc3⟩
    by_contra hne
    rcases lt_or_gt_of_ne hne with hlt | hgt
    · have := consecutive_lt t.cluster_start t.cluster_end t.nb_cluster h.start_le_end
        h.next_start c (t.cluster i - c - 1).toNat hc0 (by omega)
      have e : c + ((t.cluster i - c - 1).toNat : Int) + 1 = t.cluster i := by omega
      rw [e] at this
      omega
    · have := consecutive_lt t.cluster_start t.cluster_end t.nb_cluster h.start_le_end
        h.next_start (t.cluster i) (c - t.cluster i - 1).toNat hb0 (by omega)
      have e : t.cluster i + ((c - t.cluster i - 1).toNat : Int) + 1 = c := by omega
      rw [e] at this
      omega

/-- Witness for C1: the partition of a scan of four beams. -/
theorem perform_clustering_partition_witness :
    (1 : Int) ≤ fourBeams.nb_beams ∧
    1 ≤ (perform_clustering exampleLibm fourBeams).nb_cluster ∧
    (perform_clustering exampleLibm fourBeams).cluster_start 0 = 0 ∧
    (perform_clustering exampleLibm fourBeams).cluster_end
      ((perform_clustering exampleLibm fourBeams).nb_cluster - 1) = fourBeams.nb_beams - 1 :=
  ⟨by decide, (perform_clustering_partition exampleLibm fourBeams (by decide)).1,
    (perform_clustering_partition exampleLibm fourBeams (by decide)).2.1,
    (perform_clustering_partition exampleLibm fourBeams (by decide)).2.2.1⟩

theorem intRange_empty (lo hi : Int) (h : hi ≤ lo) : intRange lo hi = [] := by
  have e : (hi - lo).toNat = 0 := by omega
  simp [intRange, e]

theorem intRange_succ (lo hi : Int) (h : lo ≤ hi) : intRange lo (hi + 1) = intRange lo hi ++ [hi] := by
  have e : (hi + 1 - lo).toNat = (hi - lo).toNat + 1 := by omega
  have e2 : lo + (((hi - lo).toNat : Nat) : Int) = hi := by omega
  simp only [intRange, e, List.range_succ, List.map_append, List.map_cons, List.map_nil, e2]

theorem mem_intRange (lo hi i : Int) : i ∈ intRange lo hi ↔ lo ≤ i ∧ i < hi := by
  simp only [intRange, List.mem_map, List.mem_range]
  constructor
  · rintro ⟨k, hk, rfl⟩
    omega
  · rintro ⟨h1, h2⟩
    exact ⟨(i - lo).toNat, by omega, by omega⟩

theorem length_intRange (lo hi : Int) : (intRange lo hi).length = (hi - lo).toNat := by
  simp [intRange]

theorem tableList_succ {α : Type} (table : Int → α) (n : Int) (h : 0 ≤ n) :
    tableList table (n + 1) = tableList table n ++ [table n] := by
  simp [tableList, intRange_succ 0 n h]

theorem tableList_assign {α : Type} (table : Int → α) (n i : Int) (v : α) (h : n ≤ i) :
    tableList (assign table i v) n = tableList table n := by
  unfold tableList
  apply List.map_congr_left
  intro k hk
  rw [mem_intRange] at hk
  exact assign_noteq (by omega) _ _

theorem length_tableList {α : Type} (table : Int → α) (n : Int) :
    (tableList table n).length = n.toNat := by
  simp [tableList, length_intRange]

/-! ## Display of a run of hits -/

theorem display_loop_eq (s : State) (a b : Int) (c : ColorRGBA) (h : a ≤ b) :
    forLoop a b (fun loop2 s => pushDisplay (s.current_scan loop2) c s) s
      = displayRun s a (b - a) c := by
  refine forLoop_invariant _ (fun j t => t = displayRun s a (j - a) c) a b s h ?_ ?_
  · simp only [displayRun, sub_self, add_zero]
    have e : ∀ k : Int, ¬ (s.nb_pts ≤ k ∧ k < s.nb_pts) := fun k => by omega
    simp [e]
  · intro j t h1 _ ht
    subst ht
    simp only [pushDisplay, displayRun, State.mk.injEq, true_and, and_true]
    refine ⟨by ring, ?_, ?_⟩
    · funext k
      by_cases hk : k = s.nb_pts + (j - a)
      · subst hk
        have e1 : s.nb_pts ≤ s.nb_pts + (j - a) ∧ s.nb_pts + (j - a) < s.nb_pts + (j + 1 - a) := by
          omega
        have e2 : a + (s.nb_pts + (j - a) - s.nb_pts) = j := by ring
        simp [e1, e2]
      · have e : (s.nb_pts ≤ k ∧ k < s.nb_pts + (j + 1 - a)) ↔ (s.nb_pts ≤ k ∧ k < s.nb_pts + (j - a)) := by
          omega
        rw [assign_noteq hk]
        simp only [e]
    · funext k
      by_cases hk : k = s.nb_pts + (j - a)
      · subst hk
        have e1 : s.nb_pts ≤ s.nb_pts + (j - a) ∧ s.nb_pts + (j - a) < s.nb_pts + (j + 1 - a) := by
          omega
        simp [e1]
      · have e : (s.nb_pts ≤ k ∧ k < s.nb_pts + (j + 1 - a)) ↔ (s.nb_pts ≤ k ∧ k < s.nb_pts + (j - a)) := by
          omega
        rw [assign_noteq hk]
        simp only [e]

theorem displayRun_zero (s : State) (a : Int) (c : ColorRGBA) : displayRun s a 0 c = s := by
  have e : ∀ k : Int, ¬ (s.nb_pts ≤ k ∧ k < s.nb_pts) := fun k => by omega
  simp [displayRun, e]

/-- Closed form of the loop that displays the hits `a .. b - 1`. -/
theorem display_loop_eq_toNat (s : State) (a b : Int) (c : ColorRGBA) :
    forLoop a b (fun loop2 s => pushDisplay (s.current_scan loop2) c s) s
      = displayRun s a ((b - a).toNat : Int) c := by
  rcases le_or_lt a b with h | h
  · rw [display_loop_eq s a b c h]
    have e : ((b - a).toNat : Int) = b - a := by omega
    rw [e]
  · rw [forLoop_empty _ _ _ _ (le_of_lt h)]
    have e : ((b - a).toNat : Int) = 0 := by omega
    rw [e, displayRun_zero]

/-! ## Detection of the moving legs -/

/-- Effect of one iteration of the loop of `detect_moving_legs` on the tables
of the clusters and of the legs. -/
theorem detect_moving_legs_step_fields (loop : Int) (s : State) :
    (detect_moving_legs_step loop s).cluster_size = s.cluster_size ∧
    (detect_moving_legs_step loop s).cluster_dynamic = s.cluster_dynamic ∧
    (detect_moving_legs_step loop s).cluster_middle = s.cluster_middle ∧
    (detect_moving_legs_step loop s).nb_moving_legs_detected
      = s.nb_moving_legs_detected + (if isMovingLeg s loop = true then 1 else 0) ∧
    (detect_moving_legs_step loop s).moving_leg_detected
      = (if isMovingLeg s loop = true then
          assign s.moving_leg_detected s.nb_moving_legs_detected (s.cluster_middle loop)
        else s.moving_leg_detected) := by
  by_cases h : s.cluster_size loop > leg_size_min ∧ s.cluster_size loop < leg_size_max
      ∧ s.cluster_dynamic loop ≥ dynamic_threshold
  · have hb : isMovingLeg s loop = true := by simp only [isMovingLeg, decide_eq_true h]
    simp only [detect_moving_legs_step]
    rw [if_pos h, display_loop_eq_toNat, if_pos hb, if_pos hb]
    simp [displayRun, info]
  · have hb : ¬ isMovingLeg s loop = true := by simp only [isMovingLeg, decide_eq_false h]; simp
    simp only [detect_moving_legs_step]
    rw [if_neg h, if_neg hb, if_neg hb]
    simp

theorem legClusters_succ (s : State) (n : Int) (h : 0 ≤ n) :
    legClusters s (n + 1) = legClusters s n ++ (if isMovingLeg s n = true then [n] else []) := by
  unfold legClusters
  rw [intRange_succ 0 n h, List.filter_append]
  by_cases hb : isMovingLeg s n = true
  · simp [hb]
  · simp [hb]

theorem isMovingLeg_congr (s t : State) (h1 : t.cluster_size = s.cluster_size)
    (h2 : t.cluster_dynamic = s.cluster_dynamic) (c : Int) : isMovingLeg t c = isMovingLeg s c := by
  simp only [isMovingLeg, h1, h2]

theorem legsInv_step (s : State) (j : Int) (t : State) (hj : 0 ≤ j) (inv : LegsInv s j t) :
    LegsInv s (j + 1) (detect_moving_legs_step j t) := by
  obtain ⟨h1, h2, h3, h4, h5⟩ := detect_moving_legs_step_fields j t
  have hb := isMovingLeg_congr s t inv.size_eq inv.dynamic_eq j
  rw [hb] at h4 h5
  have hlegs := inv.legs_eq
  unfold State.legs at hlegs
  refine ⟨h1.trans inv.size_eq, h2.trans inv.dynamic_eq, h3.trans inv.middle_eq, ?_, ?_⟩
  · rw [h4, inv.nb_eq, legClusters_succ s j hj]
    by_cases hl : isMovingLeg s j = true
    · simp [hl]
    · simp [hl]
  · unfold State.legs
    rw [h4, h5, legClusters_succ s j hj]
    by_cases hl : isMovingLeg s j = true
    · rw [if_pos hl, if_pos hl, if_pos hl, tableList_succ _ _ (by rw [inv.nb_eq]; omega),
        tableList_assign _ _ _ _ (le_refl _), hlegs, assign_same, inv.middle_eq]
      simp
    · rw [if_neg hl, if_neg hl, if_neg hl]
      simpa using hlegs

/-- The legs stored by `detect_moving_legs` are the middles of the clusters
that pass its test, in the order of the clusters. -/
theorem detect_moving_legs_legs (s : State) :
    (detect_moving_legs s).legs = (legClusters s s.nb_cluster).map s.cluster_middle ∧
    (detect_moving_legs s).nb_moving_legs_detected = ((legClusters s s.nb_cluster).length : Int) := by
  have key : ∀ t : State, t.nb_moving_legs_detected = 0 → t.nb_cluster = s.nb_cluster →
      t.cluster_size = s.cluster_size → t.cluster_dynamic = s.cluster_dynamic →
      t.cluster_middle = s.cluster_middle →
      (forLoop 0 t.nb_cluster detect_moving_legs_step t).legs
          = (legClusters s s.nb_cluster).map s.cluster_middle ∧
        (forLoop 0 t.nb_cluster detect_moving_legs_step t).nb_moving_legs_detected
          = ((legClusters s s.nb_cluster).length : Int) := by
    intro t h0 hn h1 h2 h3
    rw [hn]
    rcases le_or_lt 0 s.nb_cluster with hle | hlt
    · have inv := forLoop_invariant detect_moving_legs_step (LegsInv s) 0 s.nb_cluster t hle
        ⟨h1, h2, h3, by simp [legClusters, intRange_empty, h0],
          by simp [legClusters, intRange_empty, State.legs, tableList, h0]⟩
        (fun j u hj _ hu => legsInv_step s j u hj hu)
      exact ⟨inv.legs_eq, inv.nb_eq⟩
    · rw [forLoop_empty _ _ _ _ (le_of_lt hlt)]
      simp [legClusters, intRange_empty 0 s.nb_cluster (le_of_lt hlt), State.legs, tableList, h0,
        intRange_empty 0 0 (le_refl _)]
  have h := key { (info .detecting_moving_legs s) with nb_moving_legs_detected := 0 } rfl rfl rfl
    rfl rfl
  unfold detect_moving_legs
  simp only []
  split_ifs with hne
  · exact h
  · exact h

/-- C4: `detect_moving_legs` stores exactly the middles of the clusters with
`leg_size_min < size < leg_size_max` (both strict) and a dynamic percentage of
at least `dynamic_threshold`, in ascending order of the clusters, one leg for
each such cluster; a cluster that fails one of the conditions gives no leg. -/
theorem detect_moving_legs_spec (s : State) :
    (detect_moving_legs s).legs
      = ((intRange 0 s.nb_cluster).filter (fun c =>
          decide (leg_size_min < s.cluster_size c ∧ s.cluster_size c < leg_size_max
            ∧ dynamic_threshold ≤ s.cluster_dynamic c))).map s.cluster_middle ∧
    (detect_moving_legs s).nb_moving_legs_detected
      = (((intRange 0 s.nb_cluster).filter (fun c =>
          decide (leg_size_min < s.cluster_size c ∧ s.cluster_size c < leg_size_max
            ∧ dynamic_threshold ≤ s.cluster_dynamic c))).length : Int) ∧
    leg_size_min = 5 / 100 ∧ leg_size_max = 25 / 100 ∧ dynamic_threshold = 75 :=
  ⟨(detect_moving_legs_legs s).1, (detect_moving_legs_legs s).2, rfl, rfl, rfl⟩

/-! ## Detection of the moving persons -/

theorem detect_moving_persons_step_fields (m : Libm) (i j : Int) (s : State) :
    (detect_moving_persons_step m i j s).moving_leg_detected = s.moving_leg_detected ∧
    (detect_moving_persons_step m i j s).nb_moving_legs_detected = s.nb_moving_legs_detected ∧
    (detect_moving_persons_step m i j s).nb_moving_persons_detected
      = s.nb_moving_persons_detected + (if pairAccepted m s i j = true then 1 else 0) ∧
    (detect_moving_persons_step m i j s).moving_persons_detected
      = (if pairAccepted m s i j = true then
          assign s.moving_persons_detected s.nb_moving_persons_detected (pairMiddle s i j)
        else s.moving_persons_detected) ∧
    (detect_moving_persons_step m i j s).goal_to_reach
      = (if pairAccepted m s i j = true then pairMiddle s i j else s.goal_to_reach) := by
  by_cases h : distancePoints m (s.moving_leg_detected i) (s.moving_leg_detected j)
      < legs_distance_max
  · have hb : pairAccepted m s i j = true := by simp only [pairAccepted, decide_eq_true h]
    simp only [detect_moving_persons_step]
    rw [if_pos h, if_pos hb, if_pos hb, if_pos hb]
    simp [pushDisplay, info, pairMiddle]
  · have hb : ¬ pairAccepted m s i j = true := by
      simp only [pairAccepted, decide_eq_false h]
      simp
    simp only [detect_moving_persons_step]
    rw [if_neg h, if_neg hb, if_neg hb, if_neg hb]
    simp

theorem pairAccepted_congr (m : Libm) (s t : State)
    (h : t.moving_leg_detected = s.moving_leg_detected) (i j : Int) :
    pairAccepted m t i j = pairAccepted m s i j := by
  simp only [pairAccepted, h]

theorem pairMiddle_congr (s t : State) (h : t.moving_leg_detected = s.moving_leg_detected)
    (i j : Int) : pairMiddle t i j = pairMiddle s i j := by
  simp only [pairMiddle, h]

theorem personsInv_step (m : Libm) (s : State) (l : List Point) (i j : Int) (t : State)
    (inv : PersonsInv s l t) :
    PersonsInv s (l ++ (if pairAccepted m s i j = true then [pairMiddle s i j] else []))
      (detect_moving_persons_step m i j t) := by
  obtain ⟨h1, h2, h3, h4, h5⟩ := detect_moving_persons_step_fields m i j t
  rw [pairAccepted_congr m s t inv.legs_eq] at h3 h4 h5
  rw [pairMiddle_congr s t inv.legs_eq] at h4 h5
  have hp := inv.persons_eq
  unfold State.persons at hp
  by_cases hb : pairAccepted m s i j = true
  · rw [if_pos hb] at h3 h4 h5 ⊢
    refine ⟨h1.trans inv.legs_eq, h2.trans inv.nb_legs_eq, ?_, ?_, ?_, ?_⟩
    · rw [h3, inv.nb_eq]
      simp
    · unfold State.persons
      rw [h3, h4, tableList_succ _ _ (by rw [inv.nb_eq]; omega),
        tableList_assign _ _ _ _ (le_refl _), hp, assign_same]
    · intro _
      rw [h5]
      simp
    · intro hnil
      simp at hnil
  · rw [if_neg hb] at h3 h4 h5 ⊢
    rw [List.append_nil]
    refine ⟨h1.trans inv.legs_eq, h2.trans inv.nb_legs_eq, ?_, ?_, ?_, ?_⟩
    · rw [h3, inv.nb_eq]
      simp
    · unfold State.persons
      rw [h3, h4, add_zero]
      exact hp
    · intro hne
      rw [h5]
      exact inv.goal_last hne
    · intro hnil
      rw [h5]
      exact inv.goal_keep hnil

theorem rowPersons_succ (m : Libm) (s : State) (i j : Int) (h : i + 1 ≤ j) :
    rowPersons m s i (j + 1)
      = rowPersons m s i j ++ (if pairAccepted m s i j = true then [pairMiddle s i j] else []) := by
  unfold rowPersons
  rw [intRange_succ (i + 1) j h, List.filter_append, List.map_append]
  by_cases hb : pairAccepted m s i j = true
  · simp [hb]
  · simp [hb]

theorem personsInv_row (m : Libm) (s : State) (l : List Point) (i : Int) (t : State)
    (inv : PersonsInv s l t) :
    PersonsInv s (l ++ rowPersons m s i s.nb_moving_legs_detected)
      (detect_moving_persons_row m i t) := by
  unfold detect_moving_persons_row
  rw [inv.nb_legs_eq]
  rcases le_or_lt (i + 1) s.nb_moving_legs_detected with hle | hlt
  · refine forLoop_invariant (detect_moving_persons_step m i)
      (fun j u => PersonsInv s (l ++ rowPersons m s i j) u) (i + 1) s.nb_moving_legs_detected t
      hle ?_ ?_
    · simpa [rowPersons, intRange_empty (i + 1) (i + 1) (le_refl _)] using inv
    · intro j u hj _ hu
      rw [rowPersons_succ m s i j hj, ← List.append_assoc]
      exact personsInv_step m s _ i j u hu
  · rw [forLoop_empty _ _ _ _ (le_of_lt hlt)]
    simpa [rowPersons, intRange_empty (i + 1) s.nb_moving_legs_detected (le_of_lt hlt)] using inv

theorem allPersons_succ (m : Libm) (s : State) (n : Int) (h : 0 ≤ n) :
    allPersons m s (n + 1) = allPersons m s n ++ rowPersons m s n s.nb_moving_legs_detected := by
  unfold allPersons
  rw [intRange_succ 0 n h, List.flatMap_append]
  simp

/-- The state after `detect_moving_persons` in terms of the persons found for
all the pairs of legs. -/
theorem detect_moving_persons_inv (m : Libm) (s : State) :
    PersonsInv s (allPersons m s s.nb_moving_legs_detected) (detect_moving_persons m s) := by
  have key : ∀ t : State, PersonsInv s [] t →
      PersonsInv s (allPersons m s s.nb_moving_legs_detected)
        (forLoop 0 t.nb_moving_legs_detected (detect_moving_persons_row m) t) := by
    intro t inv
    rw [inv.nb_legs_eq]
    rcases le_or_lt 0 s.nb_moving_legs_detected with hle | hlt
    · refine forLoop_invariant (detect_moving_persons_row m)
        (fun i u => PersonsInv s (allPersons m s i) u) 0 s.nb_moving_legs_detected t hle ?_ ?_
      · simpa [allPersons, intRange_empty 0 0 (le_refl _)] using inv
      · intro i u hi _ hu
        rw [allPersons_succ m s i hi]
        exact personsInv_row m s _ i u hu
    · rw [forLoop_empty _ _ _ _ (le_of_lt hlt)]
      simpa [allPersons, intRange_empty 0 s.nb_moving_legs_detected (le_of_lt hlt)] using inv
  have h0 : PersonsInv s []
      { (info .detecting_moving_persons s) with nb_moving_persons_detected := 0 } :=
    ⟨rfl, rfl, rfl, by simp [State.persons, tableList, intRange_empty 0 0 (le_refl _)],
      fun h => absurd rfl h, fun _ => rfl⟩
  have h := key _ h0
  have frame : ∀ (e : Event) (u : State) (l : List Point), PersonsInv s l u →
      PersonsInv s l (info e u) :=
    fun e u l hu => ⟨hu.legs_eq, hu.nb_legs_eq, hu.nb_eq, hu.persons_eq, hu.goal_last, hu.goal_keep⟩
  unfold detect_moving_persons
  simp only []
  split_ifs with hne
  · exact frame _ _ _ (frame _ _ _ h)
  · exact frame _ _ _ h

theorem allPersons_eq (m : Libm) (s : State) :
    allPersons m s s.nb_moving_legs_detected
      = (intRange 0 s.nb_moving_legs_detected).flatMap (fun i =>
          ((intRange (i + 1) s.nb_moving_legs_detected).filter (fun j =>
            decide (distancePoints m (s.moving_leg_detected i) (s.moving_leg_detected j)
              < legs_distance_max))).map (fun j =>
            (⟨(s.moving_leg_detected i).x
                + ((s.moving_leg_detected j).x - (s.moving_leg_detected i).x) / 2,
              (s.moving_leg_detected i).y
                + ((s.moving_leg_detected j).y - (s.moving_leg_detected i).y) / 2,
              0⟩ : Point))) := by
  unfold allPersons rowPersons
  congr 1
  funext i
  congr 1
  funext j
  simp only [pairMiddle, Point.mk.injEq, and_true]
  exact ⟨add_comm _ _, add_comm _ _⟩

theorem Frame.same (s : State) : Frame s s :=
  ⟨rfl, rfl, rfl, rfl, rfl, rfl, rfl, rfl, rfl, rfl, rfl, rfl, rfl, rfl, rfl, rfl, rfl,
    fun _ _ => rfl⟩

theorem Frame.comp {s t u : State} (h1 : Frame s t) (h2 : Frame t u) : Frame s u :=
  ⟨h2.nb_beams.trans h1.nb_beams, h2.range_min.trans h1.range_min,
    h2.range_max.trans h1.range_max, h2.angle_min.trans h1.angle_min,
    h2.angle_max.trans h1.angle_max, h2.angle_inc.trans h1.angle_inc, h2.range.trans h1.range,
    h2.current_scan.trans h1.current_scan, h2.background.trans h1.background,
    h2.previous_robot_moving.trans h1.previous_robot_moving,
    h2.current_robot_moving.trans h1.current_robot_moving, h2.init_laser.trans h1.init_laser,
    h2.init_robot.trans h1.init_robot, h2.display_laser.trans h1.display_laser,
    h2.display_robot.trans h1.display_robot, h2.goal_pub.trans h1.goal_pub,
    h2.marker_pub.trans h1.marker_pub,
    fun e he => (h2.log_quiet e he).trans (h1.log_quiet e he)⟩

/-- Counting a line in the console after one more `ROS_INFO`. -/
theorem count_info (e x : Event) (s : State) :
    List.count e (info x s).log = List.count e s.log + (if x = e then 1 else 0) := by
  simp only [info, List.count_append, List.count_cons, List.count_nil, beq_iff_eq, zero_add]

theorem Frame.of_info {x : Event} (hx : x.isMarker = false) (s : State) : Frame s (info x s) := by
  refine ⟨rfl, rfl, rfl, rfl, rfl, rfl, rfl, rfl, rfl, rfl, rfl, rfl, rfl, rfl, rfl, rfl, rfl, ?_⟩
  intro e he
  have hne : x ≠ e := fun h => by rw [h, he] at hx; exact Bool.noConfusion hx
  rw [count_info, if_neg hne, add_zero]

theorem Frame.pushDisplay (p : Point) (c : ColorRGBA) (s : State) : Frame s (pushDisplay p c s) :=
  ⟨rfl, rfl, rfl, rfl, rfl, rfl, rfl, rfl, rfl, rfl, rfl, rfl, rfl, rfl, rfl, rfl, rfl,
    fun _ _ => rfl⟩

/-- A loop whose iterations satisfy `Frame` satisfies `Frame`. -/
theorem Frame.forLoop (body : Int → State → State) (lo hi : Int) (s : State)
    (h : ∀ j t, Frame t (body j t)) : Frame s (forLoop lo hi body s) :=
  forLoop_preserves body (fun t => Frame s t) lo hi s (Frame.same s)
    (fun j t _ _ ht => ht.comp (h j t))

theorem closeCluster_frame (m : Libm) (d e : Int) (s : State) : Frame s (closeCluster m d e s) := by
  refine ⟨rfl, rfl, rfl, rfl, rfl, rfl, rfl, rfl, rfl, rfl, rfl, rfl, rfl, rfl, rfl, rfl, rfl, ?_⟩
  intro x hx
  unfold closeCluster
  simp only []
  rw [count_info, if_neg (fun h => by rw [← h] at hx; exact Bool.noConfusion hx), add_zero]
  rfl

theorem clustering_step_frame (m : Libm) (j : Int) (p : State × Int) :
    Frame p.1 (clustering_step m j p).1 := by
  by_cases hc : continuity p.1.range j
  · rw [clustering_step_of_continuity m j p hc]
    exact ⟨rfl, rfl, rfl, rfl, rfl, rfl, rfl, rfl, rfl, rfl, rfl, rfl, rfl, rfl, rfl, rfl, rfl,
      fun _ _ => rfl⟩
  · have h2 : ¬ (if p.1.range (j - 1) - p.1.range j < 0 then -(p.1.range (j - 1) - p.1.range j)
        else p.1.range (j - 1) - p.1.range j) < cluster_threshold := by
      rw [ite_neg_eq_abs]
      exact hc
    have hf := closeCluster_frame m p.2 (j - 1) p.1
    simp only [clustering_step]
    rw [if_neg h2]
    exact hf.comp ⟨rfl, rfl, rfl, rfl, rfl, rfl, rfl, rfl, rfl, rfl, rfl, rfl, rfl, rfl, rfl, rfl,
      rfl, fun _ _ => rfl⟩

/-- `perform_clustering` announces itself once and then touches only the
tables of the clusters and the display. -/
theorem perform_clustering_frame (m : Libm) (s : State) :
    Frame (info .performing_clustering s) (perform_clustering m s) := by
  have h1 : Frame (info .performing_clustering s) (clustering_init s).1 :=
    ⟨rfl, rfl, rfl, rfl, rfl, rfl, rfl, rfl, rfl, rfl, rfl, rfl, rfl, rfl, rfl, rfl, rfl,
      fun _ _ => rfl⟩
  have h2 : Frame (clustering_init s).1 (clustering_loop m (clustering_init s)).1 := by
    unfold clustering_loop
    exact forLoop_preserves (clustering_step m) (fun p => Frame (clustering_init s).1 p.1) 1 _ _
      (Frame.same _) (fun j p _ _ hp => hp.comp (clustering_step_frame m j p))
  have h3 := closeCluster_frame m (clustering_loop m (clustering_init s)).2
    ((clustering_loop m (clustering_init s)).1.nb_beams - 1) (clustering_loop m (clustering_init s)).1
  refine (h1.comp (h2.comp h3)).comp ?_
  unfold perform_clustering
  exact (Frame.of_info (x := .clustering_performed) rfl _).comp
    ⟨rfl, rfl, rfl, rfl, rfl, rfl, rfl, rfl, rfl, rfl, rfl, rfl, rfl, rfl, rfl, rfl, rfl,
      fun _ _ => rfl⟩

theorem detect_motion_frame (s : State) : Frame (info .detecting_motion s) (detect_motion s) := by
  rw [detect_motion_eq]
  refine ⟨rfl, rfl, rfl, rfl, rfl, rfl, rfl, rfl, rfl, rfl, rfl, rfl, rfl, rfl, rfl, rfl, rfl, ?_⟩
  intro e he
  have hne : Event.motion_detected ≠ e := fun h => by rw [← h] at he; exact Bool.noConfusion he
  simp [info, List.count_cons, hne]

theorem detect_moving_legs_step_frame (j : Int) (s : State) :
    Frame s (detect_moving_legs_step j s) := by
  unfold detect_moving_legs_step
  split_ifs with h
  · simp only []
    refine Frame.comp ?_ (Frame.forLoop _ _ _ _ (fun k u => Frame.pushDisplay _ _ u))
    exact (Frame.of_info (x := .moving_leg s.nb_moving_legs_detected j) rfl _).comp
      ⟨rfl, rfl, rfl, rfl, rfl, rfl, rfl, rfl, rfl, rfl, rfl, rfl, rfl, rfl, rfl, rfl, rfl,
        fun _ _ => rfl⟩
  · exact Frame.same s

/-- `detect_moving_legs` announces itself once and then touches only the table
of the legs and the display. -/
theorem detect_moving_legs_frame (s : State) :
    Frame (info .detecting_moving_legs s) (detect_moving_legs s) := by
  have h1 : Frame (info .detecting_moving_legs s)
      { (info .detecting_moving_legs s) with nb_moving_legs_detected := 0 } :=
    ⟨rfl, rfl, rfl, rfl, rfl, rfl, rfl, rfl, rfl, rfl, rfl, rfl, rfl, rfl, rfl, rfl, rfl,
      fun _ _ => rfl⟩
  have h2 := Frame.forLoop detect_moving_legs_step 0 s.nb_cluster
    { (info .detecting_moving_legs s) with nb_moving_legs_detected := 0 }
    detect_moving_legs_step_frame
  unfold detect_moving_legs
  simp only []
  split_ifs with hne
  · exact (h1.comp h2).comp ((Frame.of_info (x := .nb_moving_legs _) rfl _).comp
      (Frame.of_info (x := .moving_legs_detected) rfl _))
  · exact (h1.comp h2).comp (Frame.of_info (x := .moving_legs_detected) rfl _)

theorem detect_moving_persons_step_frame (m : Libm) (i j : Int) (s : State) :
    Frame s (detect_moving_persons_step m i j s) := by
  unfold detect_moving_persons_step
  split_ifs with h
  · simp only []
    exact (Frame.of_info (x := .moving_person s.nb_moving_persons_detected i j) rfl _).comp
      ⟨rfl, rfl, rfl, rfl, rfl, rfl, rfl, rfl, rfl, rfl, rfl, rfl, rfl, rfl, rfl, rfl, rfl,
        fun _ _ => rfl⟩
  · exact Frame.same s

/-- `detect_moving_persons` announces itself once and then touches only the
table of the persons, the goal and the display. -/
theorem detect_moving_persons_frame (m : Libm) (s : State) :
    Frame (info .detecting_moving_persons s) (detect_moving_persons m s) := by
  have h1 : Frame (info .detecting_moving_persons s)
      { (info .detecting_moving_persons s) with nb_moving_persons_detected := 0 } :=
    ⟨rfl, rfl, rfl, rfl, rfl, rfl, rfl, rfl, rfl, rfl, rfl, rfl, rfl, rfl, rfl, rfl, rfl,
      fun _ _ => rfl⟩
  have h2 := Frame.forLoop (detect_moving_persons_row m) 0 s.nb_moving_legs_detected
    { (info .detecting_moving_persons s) with nb_moving_persons_detected := 0 }
    (fun i u => Frame.forLoop (detect_moving_persons_step m i) _ _ u
      (detect_moving_persons_step_frame m i))
  unfold detect_moving_persons
  simp only []
  split_ifs with hne
  · exact (h1.comp h2).comp ((Frame.of_info (x := .nb_moving_persons _) rfl _).comp
      (Frame.of_info (x := .moving_persons_detected) rfl _))
  · exact (h1.comp h2).comp (Frame.of_info (x := .moving_persons_detected) rfl _)

/-- The four detection steps together: what they leave alone, and how often
each of them is announced on the console. -/
theorem detection_frame (m : Libm) (s : State) :
    (detection m s).nb_beams = s.nb_beams ∧ (detection m s).range = s.range ∧
    (detection m s).current_scan = s.current_scan ∧
    (detection m s).background = s.background ∧
    (detection m s).previous_robot_moving = s.previous_robot_moving ∧
    (detection m s).current_robot_moving = s.current_robot_moving ∧
    (detection m s).init_laser = s.init_laser ∧ (detection m s).init_robot = s.init_robot ∧
    (detection m s).display_laser = s.display_laser ∧
    (detection m s).display_robot = s.display_robot ∧
    (detection m s).goal_pub = s.goal_pub ∧ (detection m s).marker_pub = s.marker_pub ∧
    (∀ e : Event, e.isMarker = true → List.count e (detection m s).log
      = List.count e s.log + (if e = .storing_background then 0 else 1)) := by
  have f1 := detect_motion_frame s
  have f2 := perform_clustering_frame m (detect_motion s)
  have f3 := detect_moving_legs_frame (perform_clustering m (detect_motion s))
  have f4 := detect_moving_persons_frame m
    (detect_moving_legs (perform_clustering m (detect_motion s)))
  have e : detection m s = detect_moving_persons m
      (detect_moving_legs (perform_clustering m (detect_motion s))) := rfl
  rw [e]
  refine ⟨?_, ?_, ?_, ?_, ?_, ?_, ?_, ?_, ?_, ?_, ?_, ?_, ?_⟩
  · exact f4.nb_beams.trans (f3.nb_beams.trans (f2.nb_beams.trans f1.nb_beams))
  · exact f4.range.trans (f3.range.trans (f2.range.trans f1.range))
  · exact f4.current_scan.trans (f3.current_scan.trans (f2.current_scan.trans f1.current_scan))
  · exact f4.background.trans (f3.background.trans (f2.background.trans f1.background))
  · exact f4.previous_robot_moving.trans (f3.previous_robot_moving.trans
      (f2.previous_robot_moving.trans f1.previous_robot_moving))
  · exact f4.current_robot_moving.trans (f3.current_robot_moving.trans
      (f2.current_robot_moving.trans f1.current_robot_moving))
  · exact f4.init_laser.trans (f3.init_laser.trans (f2.init_laser.trans f1.init_laser))
  · exact f4.init_robot.trans (f3.init_robot.trans (f2.init_robot.trans f1.init_robot))
  · exact f4.display_laser.trans (f3.display_laser.trans
      (f2.display_laser.trans f1.display_laser))
  · exact f4.display_robot.trans (f3.display_robot.trans
      (f2.display_robot.trans f1.display_robot))
  · exact f4.goal_pub.trans (f3.goal_pub.trans (f2.goal_pub.trans f1.goal_pub))
  · exact f4.marker_pub.trans (f3.marker_pub.trans (f2.marker_pub.trans f1.marker_pub))
  · intro x hx
    rw [f4.log_quiet x hx, count_info, f3.log_quiet x hx, count_info, f2.log_quiet x hx,
      count_info, f1.log_quiet x hx, count_info]
    cases x <;> first | exact Bool.noConfusion hx | simp

/-! ## Background capture -/

theorem store_background_loop_eq (s : State) (n : Int) (hn : 0 ≤ n) :
    forLoop 0 n (fun loop s => { s with background := assign s.background loop (s.range loop) }) s
      = { s with background := storedBackground s.background s.range n } := by
  refine forLoop_invariant _
    (fun j t => t = { s with background := storedBackground s.background s.range j }) 0 n s hn ?_ ?_
  · have : storedBackground s.background s.range 0 = s.background := by
      funext i
      have : ¬ (0 ≤ i ∧ i < 0) := by omega
      simp [storedBackground, this]
    simp [this]
  · intro j t h0 _ ht
    subst ht
    simp only [State.mk.injEq, true_and, and_true]
    funext i
    by_cases hij : i = j
    · subst hij
      have : 0 ≤ i ∧ i < i + 1 := by omega
      simp [storedBackground, this]
    · have e : (0 ≤ i ∧ i < j + 1) ↔ (0 ≤ i ∧ i < j) := by omega
      simp [storedBackground, assign_noteq hij, e]

/-- Closed form of `store_background`: the first `nb_beams` entries of the
background become the current ranges, and two lines go to the console. -/
theorem store_background_eq (s : State) :
    store_background s = { s with
      background := storedBackground s.background s.range s.nb_beams
      log := s.log ++ [.storing_background, .background_stored] } := by
  unfold store_background
  rcases le_or_lt 0 s.nb_beams with h | h
  · simp [info, store_background_loop_eq _ _ h]
  · have e : storedBackground s.background s.range s.nb_beams = s.background := by
      funext i
      have : ¬ (0 ≤ i ∧ i < s.nb_beams) := by omega
      simp [storedBackground, this]
    simp [info, forLoop_empty _ _ _ _ (le_of_lt h), e]

/-! ## The main processing step -/

theorem update_of_gate (m : Libm) (s : State) (h : s.gate = true) :
    update m s = update_stationary m { (prelude s) with nb_pts := 0 } := by
  simp only [State.gate, Bool.and_eq_true, Bool.not_eq_true'] at h
  obtain ⟨⟨h1, h2⟩, h3⟩ := h
  simp [update, prelude, info, h1, h2, h3]

theorem update_of_not_gate (m : Libm) (s : State) (h : s.gate = false) :
    update m s = (if s.init_laser && s.init_robot then
        info .robot_moving { (prelude s) with nb_pts := 0 }
      else update_waiting s) := by
  unfold update
  by_cases h1 : (s.init_laser && s.init_robot) = true
  · have h3 : s.current_robot_moving = true := by
      simp only [State.gate, h1, Bool.true_and, Bool.not_eq_false'] at h
      exact h
    simp [prelude, info, h1, h3]
  · simp [h1]

/-- `populateMarkerTopic` only publishes. -/
theorem populateMarkerTopic_eq (m : Libm) (s : State) :
    populateMarkerTopic m s = { s with marker_pub := markerOutput m s } := by
  unfold markerOutput
  rfl

theorem info_previous_robot_moving (e : Event) (s : State) :
    (info e s).previous_robot_moving = s.previous_robot_moving :=
  rfl

theorem info_current_robot_moving (e : Event) (s : State) :
    (info e s).current_robot_moving = s.current_robot_moving :=
  rfl

/-- The stationary branch of `update`, entered in state `x`: the background is
stored if the robot was moving before, the four detection steps run, a marker
is published and, if there is a person, the goal is published. -/
theorem update_stationary_eq (m : Libm) (x : State) (hc : x.current_robot_moving = false) :
    update_stationary m x
      = (if (detection m (if x.previous_robot_moving = true then
              store_background (info .robot_not_moving x)
            else info .robot_not_moving x)).nb_moving_persons_detected ≠ 0 then
          { (detection m (if x.previous_robot_moving = true then
              store_background (info .robot_not_moving x)
            else info .robot_not_moving x)) with
            marker_pub := markerOutput m (detection m (if x.previous_robot_moving = true then
                store_background (info .robot_not_moving x)
              else info .robot_not_moving x))
            goal_pub := (detection m (if x.previous_robot_moving = true then
                store_background (info .robot_not_moving x)
              else info .robot_not_moving x)).goal_pub
              ++ [(detection m (if x.previous_robot_moving = true then
                store_background (info .robot_not_moving x)
              else info .robot_not_moving x)).goal_to_reach] }
        else
          { (detection m (if x.previous_robot_moving = true then
              store_background (info .robot_not_moving x)
            else info .robot_not_moving x)) with
            marker_pub := markerOutput m (detection m (if x.previous_robot_moving = true then
                store_background (info .robot_not_moving x)
              else info .robot_not_moving x)) }) := by
  simp only [update_stationary, info_previous_robot_moving, info_current_robot_moving, hc,
    Bool.not_false, Bool.and_true, populateMarkerTopic_eq]

theorem allPersons_congr (m : Libm) (s t : State)
    (h1 : t.moving_leg_detected = s.moving_leg_detected)
    (h2 : t.nb_moving_legs_detected = s.nb_moving_legs_detected) (n : Int) :
    allPersons m t n = allPersons m s n := by
  have e1 : pairAccepted m t = pairAccepted m s := by
    funext i j
    exact pairAccepted_congr m s t h1 i j
  have e2 : pairMiddle t = pairMiddle s := by
    funext i j
    exact pairMiddle_congr s t h1 i j
  simp only [allPersons, rowPersons, e1, e2, h2]

theorem allPersons_of_lt_two (m : Libm) (s : State) (h : s.nb_moving_legs_detected < 2) :
    allPersons m s s.nb_moving_legs_detected = [] := by
  unfold allPersons
  rw [List.flatMap_eq_nil_iff]
  intro i hi
  rw [mem_intRange] at hi
  unfold rowPersons
  rw [intRange_empty (i + 1) s.nb_moving_legs_detected (by omega)]
  rfl

theorem update_stationary_spec (m : Libm) (x : State) (hc : x.current_robot_moving = false) :
    Stationary m x (update_stationary m x) := by
  rw [update_stationary_eq m x hc]
  generalize hb : (if x.previous_robot_moving = true then
      store_background (info .robot_not_moving x) else info .robot_not_moving x) = b
  have hb1 : b.init_laser = x.init_laser ∧ b.init_robot = x.init_robot ∧
      b.previous_robot_moving = x.previous_robot_moving ∧
      b.current_robot_moving = x.current_robot_moving ∧ b.goal_pub = x.goal_pub ∧
      (∀ e : Event, e.isMarker = true → List.count e b.log = List.count e x.log
        + (if e = .storing_background ∧ x.previous_robot_moving = true then 1 else 0)) := by
    rw [← hb]
    by_cases hp : x.previous_robot_moving = true
    · rw [if_pos hp, store_background_eq]
      refine ⟨rfl, rfl, rfl, rfl, rfl, ?_⟩
      intro e he
      cases e <;> first | exact Bool.noConfusion he | simp [info, hp, List.count_cons]
    · rw [if_neg hp]
      refine ⟨rfl, rfl, rfl, rfl, rfl, ?_⟩
      intro e he
      rw [(Frame.of_info (x := .robot_not_moving) rfl x).log_quiet e he]
      simp [hp]
  obtain ⟨b1, b2, b3, b4, b5, b6⟩ := hb1
  obtain ⟨_, _, _, _, d1, d2, d3, d4, _, _, d5, _, d6⟩ := detection_frame m b
  have inv := detect_moving_persons_inv m (detect_moving_legs (perform_clustering m (detect_motion b)))
  have ed : detect_moving_persons m (detect_moving_legs (perform_clustering m (detect_motion b)))
      = detection m b := rfl
  rw [ed] at inv
  have hall := allPersons_congr m _ _ inv.legs_eq inv.nb_legs_eq
    (detection m b).nb_moving_legs_detected
  have hlog : ∀ e : Event, e.isMarker = true → List.count e (detection m b).log
      = List.count e x.log
        + (if e = .storing_background then (if x.previous_robot_moving = true then 1 else 0)
          else 1) := by
    intro e he
    rw [d6 e he, b6 e he]
    by_cases h1 : e = .storing_background
    · by_cases h2 : x.previous_robot_moving = true
      · simp [h1, h2]
      · simp [h1, h2]
    · simp [h1]
  have hpers : (detection m b).persons
      = allPersons m (detection m b) (detection m b).nb_moving_legs_detected := by
    rw [inv.persons_eq, hall, inv.nb_legs_eq]
  have hnb : (detection m b).nb_moving_persons_detected
      = ((allPersons m (detection m b) (detection m b).nb_moving_legs_detected).length : Int) := by
    rw [inv.nb_eq, hall, inv.nb_legs_eq]
  have e1 := d3.trans b1
  have e2 := d4.trans b2
  have e3 := d1.trans b3
  have e4 := d2.trans b4
  have e5 := d5.trans b5
  clear inv hall ed d1 d2 d3 d4 d5 d6 b1 b2 b3 b4 b5 b6 hb
  generalize detection m b = d at e1 e2 e3 e4 e5 hlog hpers hnb ⊢
  by_cases hn : d.nb_moving_persons_detected ≠ 0
  · rw [if_pos hn]
    refine ⟨e1, e2, e3, e4, hlog, ?_, hpers, hnb⟩
    show d.goal_pub ++ [d.goal_to_reach]
      = x.goal_pub ++ (if d.nb_moving_persons_detected ≠ 0 then [d.goal_to_reach] else [])
    rw [if_pos hn, e5]
  · rw [if_neg hn]
    refine ⟨e1, e2, e3, e4, hlog, ?_, hpers, hnb⟩
    show d.goal_pub
      = x.goal_pub ++ (if d.nb_moving_persons_detected ≠ 0 then [d.goal_to_reach] else [])
    rw [if_neg hn, e5, List.append_nil]

theorem Idle.idle_same (s : State) : Idle s s :=
  ⟨rfl, rfl, rfl, rfl, rfl, rfl, rfl, rfl, rfl, rfl, rfl, rfl, rfl, rfl, rfl, rfl, rfl, rfl, rfl,
    rfl, fun _ _ => rfl⟩

theorem Idle.idle_comp {s t u : State} (h1 : Idle s t) (h2 : Idle t u) : Idle s u :=
  ⟨h2.init_laser.trans h1.init_laser, h2.init_robot.trans h1.init_robot,
    h2.previous_robot_moving.trans h1.previous_robot_moving,
    h2.current_robot_moving.trans h1.current_robot_moving, h2.background.trans h1.background,
    h2.dynamic.trans h1.dynamic, h2.nb_cluster.trans h1.nb_cluster, h2.cluster.trans h1.cluster,
    h2.cluster_size.trans h1.cluster_size, h2.cluster_middle.trans h1.cluster_middle,
    h2.cluster_dynamic.trans h1.cluster_dynamic, h2.cluster_start.trans h1.cluster_start,
    h2.cluster_end.trans h1.cluster_end,
    h2.nb_moving_legs_detected.trans h1.nb_moving_legs_detected,
    h2.moving_leg_detected.trans h1.moving_leg_detected,
    h2.nb_moving_persons_detected.trans h1.nb_moving_persons_detected,
    h2.moving_persons_detected.trans h1.moving_persons_detected,
    h2.goal_to_reach.trans h1.goal_to_reach, h2.goal_pub.trans h1.goal_pub,
    h2.marker_pub.trans h1.marker_pub,
    fun e he => (h2.log_quiet e he).trans (h1.log_quiet e he)⟩

theorem Idle.idle_of_info {x : Event} (hx : x.isMarker = false) (s : State) : Idle s (info x s) :=
  ⟨rfl, rfl, rfl, rfl, rfl, rfl, rfl, rfl, rfl, rfl, rfl, rfl, rfl, rfl, rfl, rfl, rfl, rfl, rfl,
    rfl, (Frame.of_info hx s).log_quiet⟩

/-- The lines with which `update` begins are not announcements of a step. -/
theorem prelude_idle (s : State) : Idle s { (prelude s) with nb_pts := 0 } := by
  have h0 : Idle s { s with nb_pts := 0 } :=
    ⟨rfl, rfl, rfl, rfl, rfl, rfl, rfl, rfl, rfl, rfl, rfl, rfl, rfl, rfl, rfl, rfl, rfl, rfl, rfl,
      rfl, fun _ _ => rfl⟩
  have h1 := Idle.idle_of_info (x := .newline) rfl { s with nb_pts := 0 }
  have h2 := Idle.idle_of_info (x := .new_laser_data) rfl (info .newline { s with nb_pts := 0 })
  have h3 := Idle.idle_of_info (x := .new_robot_moving_data) rfl
    (info .new_laser_data (info .newline { s with nb_pts := 0 }))
  exact (h0.idle_comp (h1.idle_comp (h2.idle_comp h3))).idle_comp
    ⟨rfl, rfl, rfl, rfl, rfl, rfl, rfl, rfl, rfl, rfl, rfl, rfl, rfl, rfl, rfl, rfl, rfl, rfl, rfl,
      rfl, fun _ _ => rfl⟩

theorem update_waiting_idle (s : State) : Idle s (update_waiting s) := by
  have step : ∀ (x : Event) (u : State) (b : Bool), x.isMarker = false →
      Idle u { (info x u) with display_laser := b } ∧
      Idle u { (info x u) with display_robot := b } := by
    intro x u b hx
    exact ⟨(Idle.idle_of_info hx u).idle_comp ⟨rfl, rfl, rfl, rfl, rfl, rfl, rfl, rfl, rfl, rfl, rfl, rfl, rfl,
        rfl, rfl, rfl, rfl, rfl, rfl, rfl, fun _ _ => rfl⟩,
      (Idle.idle_of_info hx u).idle_comp ⟨rfl, rfl, rfl, rfl, rfl, rfl, rfl, rfl, rfl, rfl, rfl, rfl, rfl,
        rfl, rfl, rfl, rfl, rfl, rfl, rfl, fun _ _ => rfl⟩⟩
  have ite_idle : ∀ (c : Bool) (u v : State), Idle u v → Idle u (if c = true then v else u) := by
    intro c u v h
    cases c
    · exact Idle.idle_same u
    · exact h
  have h1 : Idle s (wait_for_laser s) := ite_idle _ _ _ (step .wait_laser s true rfl).1
  have h2 : Idle (wait_for_laser s) (laser_is_ok (wait_for_laser s)) :=
    ite_idle _ _ _ (step .laser_ok _ false rfl).1
  have h3 : Idle (laser_is_ok (wait_for_laser s)) (wait_for_robot (laser_is_ok (wait_for_laser s))) :=
    ite_idle _ _ _ (step .wait_robot _ true rfl).2
  have h4 : Idle (wait_for_robot (laser_is_ok (wait_for_laser s))) (update_waiting s) :=
    ite_idle _ _ _ (step .robot_ok _ true rfl).2
  exact h1.idle_comp (h2.idle_comp (h3.idle_comp h4))

/-- When the gate of `update` is closed, `update` leaves the results of the
detection alone, publishes nothing and announces no detection step. -/
theorem update_idle (m : Libm) (s : State) (h : s.gate = false) : Idle s (update m s) := by
  rw [update_of_not_gate m s h]
  split_ifs with h1
  · exact (prelude_idle s).idle_comp (Idle.idle_of_info (x := .robot_moving) rfl _)
  · exact update_waiting_idle s

/-- When the gate of `update` is open, `update` is one run of its stationary
branch. -/
theorem update_stationary_of_gate (m : Libm) (s : State) (h : s.gate = true) :
    Stationary m s (update m s) := by
  have hc : s.current_robot_moving = false := by
    simp only [State.gate, Bool.and_eq_true, Bool.not_eq_true'] at h
    exact h.2
  have hx := prelude_idle s
  have hs := update_stationary_spec m { (prelude s) with nb_pts := 0 } hc
  rw [update_of_gate m s h]
  generalize update_stationary m { (prelude s) with nb_pts := 0 } = r at hs
  exact ⟨hs.init_laser, hs.init_robot, hs.previous_robot_moving, hs.current_robot_moving,
    fun e he => (hs.log_count e he).trans (by rw [hx.log_quiet e he]; rfl),
    hs.goal_pub, hs.persons_eq, hs.nb_eq⟩

/-- How often `update` announces each detection step. -/
theorem update_log_count (m : Libm) (s : State) (e : Event) (he : e.isMarker = true) :
    List.count e (update m s).log = List.count e s.log
      + (if s.gate = true then
          (if e = .storing_background then (if s.previous_robot_moving = true then 1 else 0)
            else 1)
        else 0) := by
  cases hg : s.gate
  · rw [(update_idle m s hg).log_quiet e he]
    simp
  · rw [(update_stationary_of_gate m s hg).log_count e he]
    simp

theorem gate_iff (s : State) :
    s.gate = true ↔
      (s.init_laser = true ∧ s.init_robot = true ∧ s.current_robot_moving = false) := by
  simp only [State.gate, Bool.and_eq_true, Bool.not_eq_true', and_assoc]

theorem gate_eq_false_iff (s : State) :
    s.gate = false ↔
      ¬ (s.init_laser = true ∧ s.init_robot = true ∧ s.current_robot_moving = false) := by
  rw [← gate_iff]
  simp

/-- C7: one call of `update` publishes the goal at most once; it publishes it
exactly when the detection ran (both streams seen, robot not moving) and at
least one person was detected in this call.  When the detection ran, the
persons are those of the pairs of the legs found in this call, so that with
fewer than two legs there is no person and nothing is published, whatever
goal was stored before. -/
theorem update_publishes (m : Libm) (s : State) :
    ((update m s).goal_pub = s.goal_pub ∨
      (update m s).goal_pub = s.goal_pub ++ [(update m s).goal_to_reach]) ∧
    ((update m s).goal_pub = s.goal_pub ++ [(update m s).goal_to_reach] ↔
      (s.init_laser = true ∧ s.init_robot = true ∧ s.current_robot_moving = false ∧
        (update m s).nb_moving_persons_detected ≠ 0)) ∧
    (s.init_laser = true → s.init_robot = true → s.current_robot_moving = false →
      (update m s).persons
        = (intRange 0 (update m s).nb_moving_legs_detected).flatMap (fun i =>
          ((intRange (i + 1) (update m s).nb_moving_legs_detected).filter (fun j =>
            decide (distancePoints m ((update m s).moving_leg_detected i)
              ((update m s).moving_leg_detected j) < legs_distance_max))).map (fun j =>
            (⟨((update m s).moving_leg_detected i).x
                + (((update m s).moving_leg_detected j).x
                  - ((update m s).moving_leg_detected i).x) / 2,
              ((update m s).moving_leg_detected i).y
                + (((update m s).moving_leg_detected j).y
                  - ((update m s).moving_leg_detected i).y) / 2,
              0⟩ : Point))) ∧
      (update m s).nb_moving_persons_detected = ((update m s).persons.length : Int) ∧
      ((update m s).nb_moving_legs_detected < 2 →
        (update m s).nb_moving_persons_detected = 0 ∧ (update m s).goal_pub = s.goal_pub)) := by
  cases hg : s.gate
  · have hi := update_idle m s hg
    have hng := (gate_eq_false_iff s).1 hg
    refine ⟨Or.inl hi.goal_pub, ⟨fun h => ?_, fun h => absurd ⟨h.1, h.2.1, h.2.2.1⟩ hng⟩,
      fun h1 h2 h3 => absurd ⟨h1, h2, h3⟩ hng⟩
    rw [hi.goal_pub] at h
    simp at h
  · have hs := update_stationary_of_gate m s hg
    have hgate := (gate_iff s).1 hg
    generalize update m s = r at hs
    have hpub := hs.goal_pub
    refine ⟨?_, ⟨fun h => ⟨hgate.1, hgate.2.1, hgate.2.2, fun h0 => ?_⟩, fun h => ?_⟩,
      fun _ _ _ => ⟨?_, ?_, fun hlt => ?_⟩⟩
    · by_cases hn : r.nb_moving_persons_detected ≠ 0
      · rw [if_pos hn] at hpub
        exact Or.inr hpub
      · rw [if_neg hn, List.append_nil] at hpub
        exact Or.inl hpub
    · rw [if_neg (not_not.mpr h0), List.append_nil] at hpub
      rw [hpub] at h
      simp at h
    · rw [if_pos h.2.2.2] at hpub
      exact hpub
    · rw [hs.persons_eq, allPersons_eq]
    · rw [hs.nb_eq, hs.persons_eq]
    · have hnil := allPersons_of_lt_two m r hlt
      have hz : r.nb_moving_persons_detected = 0 := by rw [hs.nb_eq, hnil]; rfl
      refine ⟨hz, ?_⟩
      rw [if_neg (not_not.mpr hz), List.append_nil] at hpub
      exact hpub

theorem scanCallback_control (m : Libm) (scan : LaserScan) (s : State) :
    (scanCallback m scan s).init_laser = true ∧
    (scanCallback m scan s).init_robot = s.init_robot ∧
    (scanCallback m scan s).previous_robot_moving = s.previous_robot_moving ∧
    (scanCallback m scan s).current_robot_moving = s.current_robot_moving ∧
    (scanCallback m scan s).log = s.log := by
  unfold scanCallback
  simp only []
  refine forLoop_preserves (scanCallback_step m scan)
    (fun p => p.1.init_laser = true ∧ p.1.init_robot = s.init_robot ∧
      p.1.previous_robot_moving = s.previous_robot_moving ∧
      p.1.current_robot_moving = s.current_robot_moving ∧ p.1.log = s.log) 0 _ _
    ⟨rfl, rfl, rfl, rfl, rfl⟩ ?_
  intro j p _ _ hp
  unfold scanCallback_step
  simp only []
  split_ifs <;> exact hp

theorem spinOnce_control (m : Libm) (tk : Tick) (s : State) :
    (spinOnce m tk s).control = s.control.spin tk.scan.isSome tk.moving ∧
    (spinOnce m tk s).log = s.log := by
  obtain ⟨scan, moving⟩ := tk
  cases scan with
  | none =>
    cases moving with
    | none => exact ⟨rfl, rfl⟩
    | some data => exact ⟨rfl, rfl⟩
  | some sc =>
    obtain ⟨h1, h2, h3, h4, h5⟩ := scanCallback_control m sc s
    cases moving with
    | none =>
      simp only [spinOnce, State.control, Control.spin, h1, h2, h3, h4, h5, Option.isSome_some,
        if_true, and_self]
    | some data =>
      simp only [spinOnce, robot_movingCallback, State.control, Control.spin, h1, h4, h5,
        Option.isSome_some, if_true, and_self]

theorem control_gate (s : State) : s.control.gate = s.gate :=
  rfl

theorem control_captures (s : State) : s.control.captures = s.captures :=
  rfl

theorem update_control (m : Libm) (s : State) : (update m s).control = s.control := by
  cases hg : s.gate
  · have h := update_idle m s hg
    simp only [State.control, h.init_laser, h.init_robot, h.previous_robot_moving,
      h.current_robot_moving]
  · have h := update_stationary_of_gate m s hg
    simp only [State.control, h.init_laser, h.init_robot, h.previous_robot_moving,
      h.current_robot_moving]

theorem update_ranBackground (m : Libm) (s : State) :
    ranBackground s (update m s) = s.captures := by
  unfold ranBackground
  rw [update_log_count m s Event.storing_background rfl]
  cases hg : s.gate <;> cases hp : s.previous_robot_moving <;> simp [State.captures, hg, hp]

theorem update_ranMotion (m : Libm) (s : State) : ranMotion s (update m s) = s.gate := by
  unfold ranMotion
  rw [update_log_count m s Event.detecting_motion rfl]
  cases hg : s.gate <;> simp

theorem tick_control (m : Libm) (tk : Tick) (s : State) :
    (tick m tk s).control = s.control.spin tk.shape.1 tk.shape.2 ∧
    ranBackground s (tick m tk s) = (s.control.spin tk.shape.1 tk.shape.2).captures ∧
    ranMotion s (tick m tk s) = (s.control.spin tk.shape.1 tk.shape.2).gate := by
  obtain ⟨h1, h2⟩ := spinOnce_control m tk s
  have e1 : ranBackground s (tick m tk s) = ranBackground (spinOnce m tk s) (tick m tk s) := by
    simp only [ranBackground, h2]
  have e2 : ranMotion s (tick m tk s) = ranMotion (spinOnce m tk s) (tick m tk s) := by
    simp only [ranMotion, h2]
  refine ⟨?_, ?_, ?_⟩
  · unfold tick
    rw [update_control, h1]
    rfl
  · rw [e1]
    unfold tick
    rw [update_ranBackground, ← control_captures, h1]
    rfl
  · rw [e2]
    unfold tick
    rw [update_ranMotion, ← control_gate, h1]
    rfl

/-- The ticks at which `store_background` runs are decided by the flags. -/
theorem captureTrace_eq (m : Libm) (ticks : List Tick) (s : State) :
    captureTrace m ticks s = controlTrace Control.captures (ticks.map Tick.shape) s.control := by
  induction ticks generalizing s with
  | nil => rfl
  | cons tk rest ih =>
    obtain ⟨h1, h2, _⟩ := tick_control m tk s
    simp only [captureTrace, List.map_cons, controlTrace, ih, h1, h2]
    rfl

/-- The ticks at which `detect_motion` runs are decided by the flags. -/
theorem motionTrace_eq (m : Libm) (ticks : List Tick) (s : State) :
    motionTrace m ticks s = controlTrace Control.gate (ticks.map Tick.shape) s.control := by
  induction ticks generalizing s with
  | nil => rfl
  | cons tk rest ih =>
    obtain ⟨h1, _, h3⟩ := tick_control m tk s
    simp only [motionTrace, List.map_cons, controlTrace, ih, h1, h3]
    rfl

/-! ## Background capture over a run -/

theorem controlTrace_captures (ticks : List Tick) (c : Control) (hl : c.init_laser = true)
    (hm : ∀ tk ∈ ticks, tk.moving ≠ none) :
    controlTrace Control.captures (ticks.map Tick.shape) c = transitionTrace ticks c.current := by
  induction ticks generalizing c with
  | nil => rfl
  | cons tk rest ih =>
    obtain ⟨scan, moving⟩ := tk
    obtain ⟨il, ir, pr, cu⟩ := c
    have hil : il = true := hl
    subst hil
    cases moving with
    | none => exact absurd rfl (hm _ (List.mem_cons_self _ _))
    | some data =>
      have hl2 : (Control.spin scan.isSome (some data) ⟨true, ir, pr, cu⟩).init_laser = true := by
        cases scan.isSome <;> rfl
      have hc : (Control.spin scan.isSome (some data) ⟨true, ir, pr, cu⟩).current = data := by
        cases scan.isSome <;> rfl
      have hcap : (Control.spin scan.isSome (some data) ⟨true, ir, pr, cu⟩).captures
          = (cu && !data) := by
        cases scan.isSome <;> cases cu <;> cases data <;> rfl
      have ih2 := ih (Control.spin scan.isSome (some data) ⟨true, ir, pr, cu⟩) hl2
        (fun tk htk => hm tk (List.mem_cons_of_mem _ htk))
      simp only [List.map_cons, Tick.shape, controlTrace, transitionTrace]
      simp only [Tick.shape] at ih2
      rw [ih2, hcap, hc]

/-- C8, as the code has it: once a scan has been received, and when every tick
delivers a value of robot_moving, `store_background` runs exactly on the ticks
on which the robot goes from moving to stationary: once for each such
transition, and never on a tick at which the robot was already stationary at
the preceding tick. -/
theorem capture_once_per_transition (m : Libm) (ticks : List Tick) (s : State)
    (hl : s.init_laser = true) (hm : ∀ tk ∈ ticks, tk.moving ≠ none) :
    captureTrace m ticks s = transitionTrace ticks s.current_robot_moving := by
  rw [captureTrace_eq]
  exact controlTrace_captures ticks s.control hl hm

/-- Witness for C8: after a first scan, the robot stops, stays stopped, moves
and stops again. -/
theorem capture_once_per_transition_witness :
    (scanCallback exampleLibm exampleScan initialState).init_laser = true ∧
    captureTrace exampleLibm
        [⟨none, some false⟩, ⟨some exampleScan, some false⟩, ⟨none, some true⟩, ⟨none, some false⟩]
        (scanCallback exampleLibm exampleScan initialState)
      = transitionTrace
        [⟨none, some false⟩, ⟨some exampleScan, some false⟩, ⟨none, some true⟩, ⟨none, some false⟩]
        (scanCallback exampleLibm exampleScan initialState).current_robot_moving :=
  ⟨(scanCallback_control exampleLibm exampleScan initialState).1,
    capture_once_per_transition exampleLibm _ _
      (scanCallback_control exampleLibm exampleScan initialState).1 (by simp)⟩

/-- C8 fails as stated.  First run: the robot stops on a tick that also brings
a scan, and the next tick brings nothing; `store_background` runs on both
ticks, although there is one transition and the robot was already stationary
at the second tick.  Second run: the robot stops before any scan has arrived;
`store_background` does not run on the tick of the transition. -/
theorem capture_not_once_per_transition :
    captureTrace exampleLibm [⟨some exampleScan, some false⟩, ⟨none, none⟩] initialState
      = [true, true] ∧
    transitionTrace [⟨some exampleScan, some false⟩, ⟨none, none⟩]
      initialState.current_robot_moving = [true, false] ∧
    captureTrace exampleLibm [⟨none, some false⟩] initialState = [false] ∧
    transitionTrace [⟨none, some false⟩] initialState.current_robot_moving = [true] := by
  rw [captureTrace_eq, captureTrace_eq]
  decide

/-- C9 fails on the code: the robot stops before any scan has arrived, and the
next tick brings the first scan and a second `false`.  On that tick
`detect_motion` runs, and `store_background` has run on neither tick (nor
before: the console of the initial state is empty). -/
theorem detect_motion_without_background :
    initialState.current_robot_moving = true ∧ initialState.init_laser = false ∧
    initialState.init_robot = false ∧ initialState.log = [] ∧
    captureTrace exampleLibm [⟨none, some false⟩, ⟨some exampleScan, some false⟩] initialState
      = [false, false] ∧
    motionTrace exampleLibm [⟨none, some false⟩, ⟨some exampleScan, some false⟩] initialState
      = [false, true] := by
  rw [captureTrace_eq, motionTrace_eq]
  decide

/-! ## Size, middle and dynamic percentage of a cluster -/

/-- A loop that adds `f i` to an accumulator computes a sum. -/
theorem forLoop_sum (f : Int → ℚ) (a b : Int) (acc : ℚ) :
    forLoop a b (fun i dist => dist + f i) acc = acc + ((intRange a b).map f).sum := by
  rcases le_or_lt a b with h | h
  · refine forLoop_invariant (fun i dist => dist + f i)
      (fun j dist => dist = acc + ((intRange a j).map f).sum) a b acc h ?_ ?_
    · simp [intRange_empty a a (le_refl _)]
    · intro j t hj _ ht
      rw [ht, intRange_succ a j hj]
      simp [add_assoc]
  · rw [forLoop_empty _ _ _ _ (le_of_lt h), intRange_empty a b (le_of_lt h)]
    simp

/-- The tables after the block that ends the current cluster at hit `e`. -/
theorem closeCluster_fields (m : Libm) (d e : Int) (s : State) :
    (closeCluster m d e s).nb_cluster = s.nb_cluster ∧
    (closeCluster m d e s).cluster = s.cluster ∧
    (closeCluster m d e s).cluster_start = s.cluster_start ∧
    (closeCluster m d e s).cluster_end = assign s.cluster_end s.nb_cluster e ∧
    (closeCluster m d e s).cluster_size = assign s.cluster_size s.nb_cluster
      (arcLength m s.current_scan (s.cluster_start s.nb_cluster) e) ∧
    (closeCluster m d e s).cluster_middle = assign s.cluster_middle s.nb_cluster
      (endpointMiddle s.current_scan (s.cluster_start s.nb_cluster) e) ∧
    (closeCluster m d e s).cluster_dynamic = assign s.cluster_dynamic s.nb_cluster
      (truncToInt ((d : ℚ) / ((e - s.cluster_start s.nb_cluster + 1 : Int) : ℚ) * 100)) ∧
    (closeCluster m d e s).current_scan = s.current_scan ∧
    (closeCluster m d e s).dynamic = s.dynamic ∧
    (closeCluster m d e s).goal_to_reach = s.goal_to_reach := by
  refine ⟨rfl, rfl, rfl, rfl, ?_, ?_, ?_, rfl, rfl, rfl⟩
  · simp only [closeCluster, info, pushDisplay, assign_same, forLoop_sum, zero_add, arcLength]
  · simp only [closeCluster, info, pushDisplay, assign_same, endpointMiddle]
    rw [add_comm (((s.current_scan e).x - (s.current_scan (s.cluster_start s.nb_cluster)).x) / 2),
      add_comm (((s.current_scan e).y - (s.current_scan (s.cluster_start s.nb_cluster)).y) / 2)]
  · simp only [closeCluster, info, pushDisplay, assign_same]

theorem clustering_init_data (s : State) :
    (clustering_init s).1.current_scan = s.current_scan ∧
    (clustering_init s).1.dynamic = s.dynamic ∧
    (clustering_init s).1.goal_to_reach = s.goal_to_reach ∧
    (clustering_init s).2 = (if s.dynamic 0 = true then 1 else 0) := by
  simp [clustering_init, info, pushDisplay]

/-- The local counter of dynamic hits after one iteration of the clustering
loop, when the continuity predicate holds. -/
theorem clustering_step_counter_of_continuity (m : Libm) (j : Int) (p : State × Int)
    (h : continuity p.1.range j) :
    (clustering_step m j p).2 = (if p.1.dynamic j = true then p.2 + 1 else p.2) := by
  have h2 : (if p.1.range (j - 1) - p.1.range j < 0 then -(p.1.range (j - 1) - p.1.range j)
      else p.1.range (j - 1) - p.1.range j) < cluster_threshold := by
    rw [ite_neg_eq_abs]
    exact h
  simp only [clustering_step]
  rw [if_pos h2]

/-- Effect of one iteration of the clustering loop on the sizes, middles and
dynamic percentages, when the continuity predicate fails. -/
theorem clustering_step_data_of_not_continuity (m : Libm) (j : Int) (p : State × Int)
    (h : ¬ continuity p.1.range j) :
    (clustering_step m j p).1.cluster_size = assign p.1.cluster_size p.1.nb_cluster
      (arcLength m p.1.current_scan (p.1.cluster_start p.1.nb_cluster) (j - 1)) ∧
    (clustering_step m j p).1.cluster_middle = assign p.1.cluster_middle p.1.nb_cluster
      (endpointMiddle p.1.current_scan (p.1.cluster_start p.1.nb_cluster) (j - 1)) ∧
    (clustering_step m j p).1.cluster_dynamic = assign p.1.cluster_dynamic p.1.nb_cluster
      (truncToInt ((p.2 : ℚ)
        / ((j - 1 - p.1.cluster_start p.1.nb_cluster + 1 : Int) : ℚ) * 100)) ∧
    (clustering_step m j p).1.current_scan = p.1.current_scan ∧
    (clustering_step m j p).1.dynamic = p.1.dynamic ∧
    (clustering_step m j p).1.goal_to_reach = p.1.goal_to_reach ∧
    (clustering_step m j p).2 = (if p.1.dynamic j = true then 1 else 0) := by
  have h2 : ¬ (if p.1.range (j - 1) - p.1.range j < 0 then -(p.1.range (j - 1) - p.1.range j)
      else p.1.range (j - 1) - p.1.range j) < cluster_threshold := by
    rw [ite_neg_eq_abs]
    exact h
  obtain ⟨_, _, _, _, h5, h6, h7, h8, h9, h10⟩ := closeCluster_fields m p.2 (j - 1) p.1
  simp only [clustering_step]
  rw [if_neg h2]
  refine ⟨h5, h6, h7, h8, h9, h10, ?_⟩
  simp [pushDisplay, h9]

theorem dynCount_single (dynamic : Int → Bool) (j : Int) :
    dynCount dynamic j j = (if dynamic j = true then 1 else 0) := by
  unfold dynCount
  rw [intRange_succ j j (le_refl _), intRange_empty j j (le_refl _)]
  cases h : dynamic j <;> simp [h]

theorem dynCount_succ (dynamic : Int → Bool) (s j : Int) (h : s ≤ j) :
    dynCount dynamic s j = dynCount dynamic s (j - 1) + (if dynamic j = true then 1 else 0) := by
  unfold dynCount
  have e : j - 1 + 1 = j := by ring
  rw [intRange_succ s j h, e, List.filter_append]
  cases hd : dynamic j <;> simp [hd]

theorem clusterDataInv_init (m : Libm) (s : State) :
    ClusterDataInv m s 1 (clustering_init s).1 (clustering_init s).2 := by
  obtain ⟨h1, _, h3, _, _, _⟩ := clustering_init_fields s
  obtain ⟨d1, d2, _, d4⟩ := clustering_init_data s
  refine ⟨d1, d2, ?_, ?_, ?_, ?_⟩
  · rw [d4, h1, h3, assign_same]
    exact (dynCount_single s.dynamic 0).symm
  · intro c hc0 hc1
    omega
  · intro c hc0 hc1
    omega
  · intro c hc0 hc1
    omega

theorem clusterDataInv_step (m : Libm) (s0 : State) (j : Int) (p : State × Int) (hj : 1 ≤ j)
    (inv : ClusteringInv s0 j p.1) (dinv : ClusterDataInv m s0 j p.1 p.2) :
    ClusterDataInv m s0 (j + 1) (clustering_step m j p).1 (clustering_step m j p).2 := by
  have hjj : j + 1 - 1 = j := by ring
  have hopen : p.1.cluster_start p.1.nb_cluster ≤ j - 1 := by
    have := inv.start_le (j - 1) (by omega) (by omega)
    rwa [inv.cluster_last] at this
  have hnb := inv.nb_nonneg
  by_cases hc : continuity p.1.range j
  · have hk := clustering_step_counter_of_continuity m j p hc
    rw [hk, clustering_step_of_continuity m j p hc]
    refine ⟨dinv.scan_eq, dinv.dynamic_eq, ?_, dinv.size, dinv.middle, dinv.percentage⟩
    rw [hjj, dinv.dynamic_eq]
    show _ = dynCount s0.dynamic (p.1.cluster_start p.1.nb_cluster) j
    rw [dynCount_succ s0.dynamic _ j (by omega), dinv.counter]
    split_ifs <;> rfl
  · obtain ⟨h1, _, h3, h4, _, _⟩ := clustering_step_of_not_continuity m j p hc
    obtain ⟨k1, k2, k3, k4, k5, _, k7⟩ := clustering_step_data_of_not_continuity m j p hc
    have hstart : ∀ c : Int, c ≤ p.1.nb_cluster →
        assign p.1.cluster_start (p.1.nb_cluster + 1) j c = p.1.cluster_start c :=
      fun c hc => assign_noteq (by omega) _ _
    have hend : ∀ c : Int, c < p.1.nb_cluster →
        assign p.1.cluster_end p.1.nb_cluster (j - 1) c = p.1.cluster_end c :=
      fun c hc => assign_noteq (by omega) _ _
    refine ⟨k4.trans dinv.scan_eq, k5.trans dinv.dynamic_eq, ?_, ?_, ?_, ?_⟩
    · rw [k7, h1, h3, assign_same, hjj, dinv.dynamic_eq]
      exact (dynCount_single s0.dynamic j).symm
    · intro c hc0 hc1
      rw [h1] at hc1
      rw [k1, h3, h4, hstart c (by omega)]
      by_cases hcn : c = p.1.nb_cluster
      · subst hcn
        rw [assign_same, assign_same, dinv.scan_eq]
      · have hlt : c < p.1.nb_cluster := by omega
        rw [assign_noteq hcn, hend c hlt]
        exact dinv.size c hc0 hlt
    · intro c hc0 hc1
      rw [h1] at hc1
      rw [k2, h3, h4, hstart c (by omega)]
      by_cases hcn : c = p.1.nb_cluster
      · subst hcn
        rw [assign_same, assign_same, dinv.scan_eq]
      · have hlt : c < p.1.nb_cluster := by omega
        rw [assign_noteq hcn, hend c hlt]
        exact dinv.middle c hc0 hlt
    · intro c hc0 hc1
      rw [h1] at hc1
      rw [k3, h3, h4, hstart c (by omega)]
      by_cases hcn : c = p.1.nb_cluster
      · subst hcn
        rw [assign_same, assign_same, dinv.counter]
      · have hlt : c < p.1.nb_cluster := by omega
        rw [assign_noteq hcn, hend c hlt]
        exact dinv.percentage c hc0 hlt

theorem clusterDataInv_loop (m : Libm) (s : State) (hN : 1 ≤ s.nb_beams) :
    ClusterDataInv m s s.nb_beams (clustering_loop m (clustering_init s)).1
      (clustering_loop m (clustering_init s)).2 := by
  have hnb : (clustering_init s).1.nb_beams = s.nb_beams := (clustering_init_fields s).2.2.2.2.2
  unfold clustering_loop
  rw [hnb]
  have h := forLoop_invariant (clustering_step m)
    (fun j p => ClusteringInv s j p.1 ∧ ClusterDataInv m s j p.1 p.2) 1 s.nb_beams
    (clustering_init s) hN ⟨clusteringInv_init s, clusterDataInv_init m s⟩
    (fun j p h1 _ inv => ⟨clusteringInv_step m s j p h1 inv.1,
      clusterDataInv_step m s j p h1 inv.1 inv.2⟩)
  exact h.2

/-- The tables of sizes, middles and dynamic percentages after
`perform_clustering`, in terms of the state at the exit of the main loop. -/
theorem perform_clustering_data_fields (m : Libm) (s : State) :
    (perform_clustering m s).cluster_size
      = assign (clustering_loop m (clustering_init s)).1.cluster_size
          (clustering_loop m (clustering_init s)).1.nb_cluster
          (arcLength m (clustering_loop m (clustering_init s)).1.current_scan
            ((clustering_loop m (clustering_init s)).1.cluster_start
              (clustering_loop m (clustering_init s)).1.nb_cluster)
            ((clustering_loop m (clustering_init s)).1.nb_beams - 1)) ∧
    (perform_clustering m s).cluster_middle
      = assign (clustering_loop m (clustering_init s)).1.cluster_middle
          (clustering_loop m (clustering_init s)).1.nb_cluster
          (endpointMiddle (clustering_loop m (clustering_init s)).1.current_scan
            ((clustering_loop m (clustering_init s)).1.cluster_start
              (clustering_loop m (clustering_init s)).1.nb_cluster)
            ((clustering_loop m (clustering_init s)).1.nb_beams - 1)) ∧
    (perform_clustering m s).cluster_dynamic
      = assign (clustering_loop m (clustering_init s)).1.cluster_dynamic
          (clustering_loop m (clustering_init s)).1.nb_cluster
          (truncToInt (((clustering_loop m (clustering_init s)).2 : ℚ)
            / (((clustering_loop m (clustering_init s)).1.nb_beams - 1
                - (clustering_loop m (clustering_init s)).1.cluster_start
                    (clustering_loop m (clustering_init s)).1.nb_cluster + 1 : Int) : ℚ) * 100)) ∧
    (perform_clustering m s).current_scan
      = (clustering_loop m (clustering_init s)).1.current_scan ∧
    (perform_clustering m s).dynamic = (clustering_loop m (clustering_init s)).1.dynamic ∧
    (perform_clustering m s).goal_to_reach
      = (clustering_loop m (clustering_init s)).1.goal_to_reach := by
  obtain ⟨_, _, _, _, h5, h6, h7, h8, h9, h10⟩ := closeCluster_fields m
    (clustering_loop m (clustering_init s)).2 ((clustering_loop m (clustering_init s)).1.nb_beams - 1)
    (clustering_loop m (clustering_init s)).1
  exact ⟨h5, h6, h7, h8, h9, h10⟩

/-- For a scan of at least one beam, every cluster stored by
`perform_clustering` has the size, the middle and the dynamic percentage
computed from its first and its last hit. -/
theorem perform_clustering_data (m : Libm) (s : State) (hN : 1 ≤ s.nb_beams) :
    (perform_clustering m s).current_scan = s.current_scan ∧
    (perform_clustering m s).dynamic = s.dynamic ∧
    (∀ c : Int, 0 ≤ c → c < (perform_clustering m s).nb_cluster →
      (perform_clustering m s).cluster_size c = arcLength m s.current_scan
        ((perform_clustering m s).cluster_start c) ((perform_clustering m s).cluster_end c) ∧
      (perform_clustering m s).cluster_middle c = endpointMiddle s.current_scan
        ((perform_clustering m s).cluster_start c) ((perform_clustering m s).cluster_end c) ∧
      (perform_clustering m s).cluster_dynamic c
        = truncToInt ((dynCount s.dynamic ((perform_clustering m s).cluster_start c)
              ((perform_clustering m s).cluster_end c) : ℚ)
            / (((perform_clustering m s).cluster_end c
                - (perform_clustering m s).cluster_start c + 1 : Int) : ℚ) * 100)) := by
  have inv := clusteringInv_loop m s hN
  have dinv := clusterDataInv_loop m s hN
  obtain ⟨h1, _, h3, h4, _, _⟩ := perform_clustering_fields m s
  obtain ⟨k1, k2, k3, k4, k5, _⟩ := perform_clustering_data_fields m s
  generalize (clustering_loop m (clustering_init s)).1 = q at inv dinv h1 h3 h4 k1 k2 k3 k4 k5
  generalize (clustering_loop m (clustering_init s)).2 = d at dinv k3
  have hnb := inv.nb_nonneg
  have hend : ∀ c : Int, c < q.nb_cluster →
      assign q.cluster_end q.nb_cluster (q.nb_beams - 1) c = q.cluster_end c :=
    fun c hc => assign_noteq (by omega) _ _
  refine ⟨k4.trans dinv.scan_eq, k5.trans dinv.dynamic_eq, ?_⟩
  intro c hc0 hc1
  rw [h1] at hc1
  rw [k1, k2, k3, h3, h4]
  by_cases hcn : c = q.nb_cluster
  · subst hcn
    rw [assign_same, assign_same, assign_same, assign_same, dinv.scan_eq, dinv.counter,
      inv.nb_beams_eq]
    exact ⟨rfl, rfl, rfl⟩
  · have hlt : c < q.nb_cluster := by omega
    simp only [assign_noteq hcn]
    exact ⟨dinv.size c hc0 hlt, dinv.middle c hc0 hlt, dinv.percentage c hc0 hlt⟩

/-- On a scan without beams `perform_clustering` stores one cluster, from hit
0 to hit `nb_beams - 1`. -/
theorem perform_clustering_of_no_beam (m : Libm) (s : State) (hN : s.nb_beams < 1) :
    (perform_clustering m s).nb_cluster = 1 ∧
    (perform_clustering m s).cluster_start 0 = 0 ∧
    (perform_clustering m s).cluster_end 0 = s.nb_beams - 1 ∧
    (perform_clustering m s).cluster_size 0 = arcLength m s.current_scan 0 (s.nb_beams - 1) ∧
    (perform_clustering m s).cluster_middle 0
      = endpointMiddle s.current_scan 0 (s.nb_beams - 1) := by
  have hnb : (clustering_init s).1.nb_beams = s.nb_beams := (clustering_init_fields s).2.2.2.2.2
  have e : clustering_loop m (clustering_init s) = clustering_init s := by
    unfold clustering_loop
    exact forLoop_empty _ _ _ _ (by omega)
  obtain ⟨h1, _, h3, h4, _, _⟩ := perform_clustering_fields m s
  obtain ⟨k1, k2, _, _, _, _⟩ := perform_clustering_data_fields m s
  obtain ⟨i1, _, i3, _, _, i6⟩ := clustering_init_fields s
  obtain ⟨j1, _, _, _⟩ := clustering_init_data s
  rw [e] at h1 h3 h4 k1 k2
  rw [h1, h3, h4, k1, k2, i1, i3, i6, j1]
  simp

/-- The size and the middle of every cluster stored by `perform_clustering`,
for every scan. -/
theorem perform_clustering_size_middle (m : Libm) (s : State) (c : Int) (hc0 : 0 ≤ c)
    (hc1 : c < (perform_clustering m s).nb_cluster) :
    (perform_clustering m s).cluster_size c = arcLength m s.current_scan
      ((perform_clustering m s).cluster_start c) ((perform_clustering m s).cluster_end c) ∧
    (perform_clustering m s).cluster_middle c = endpointMiddle s.current_scan
      ((perform_clustering m s).cluster_start c) ((perform_clustering m s).cluster_end c) := by
  rcases le_or_lt 1 s.nb_beams with hN | hN
  · have h := (perform_clustering_data m s hN).2.2 c hc0 hc1
    exact ⟨h.1, h.2.1⟩
  · obtain ⟨h1, h2, h3, h4, h5⟩ := perform_clustering_of_no_beam m s hN
    have hc : c = 0 := by omega
    subst hc
    rw [h2, h3]
    exact ⟨h4, h5⟩

/-! ## Sums and counts over a run of hits -/

theorem nodup_intRange (a b : Int) : (intRange a b).Nodup := by
  unfold intRange
  refine List.Nodup.map ?_ (List.nodup_range _)
  intro x y hxy
  simp only at hxy
  omega

theorem dynCount_eq_card (dynamic : Int → Bool) (s e : Int) :
    dynCount dynamic s e = (((Finset.Icc s e).filter (fun k => dynamic k = true)).card : Int) := by
  have e1 : (intRange s (e + 1)).toFinset = Finset.Icc s e := by
    ext k
    rw [List.mem_toFinset, mem_intRange, Finset.mem_Icc]
    omega
  unfold dynCount
  rw [← e1, ← List.toFinset_filter,
    List.toFinset_card_of_nodup ((nodup_intRange s (e + 1)).filter _)]

theorem dynCount_nonneg (dynamic : Int → Bool) (s e : Int) : 0 ≤ dynCount dynamic s e := by
  unfold dynCount
  omega

theorem dynCount_le (dynamic : Int → Bool) (s e : Int) (h : s ≤ e) :
    dynCount dynamic s e ≤ e - s + 1 := by
  unfold dynCount
  have h1 := List.length_filter_le (fun k => dynamic k) (intRange s (e + 1))
  rw [length_intRange] at h1
  omega

theorem dynCount_eq_length_iff (dynamic : Int → Bool) (s e : Int) (h : s ≤ e) :
    dynCount dynamic s e = e - s + 1 ↔ ∀ k : Int, s ≤ k → k ≤ e → dynamic k = true := by
  unfold dynCount
  have hl : ((intRange s (e + 1)).length : Int) = e - s + 1 := by
    rw [length_intRange]
    omega
  rw [← hl, Nat.cast_inj, List.filter_length_eq_length]
  constructor
  · intro hh k h1 h2
    exact hh k ((mem_intRange _ _ _).2 ⟨h1, by omega⟩)
  · intro hh k hk
    rw [mem_intRange] at hk
    exact hh k hk.1 (by omega)

theorem dynCount_eq_zero_iff (dynamic : Int → Bool) (s e : Int) :
    dynCount dynamic s e = 0 ↔ ∀ k : Int, s ≤ k → k ≤ e → dynamic k = false := by
  unfold dynCount
  rw [Nat.cast_eq_zero, List.length_eq_zero, List.filter_eq_nil_iff]
  constructor
  · intro hh k h1 h2
    have := hh k ((mem_intRange _ _ _).2 ⟨h1, by omega⟩)
    simpa using this
  · intro hh k hk
    rw [mem_intRange] at hk
    simp [hh k hk.1 (by omega)]

/-- On a non-negative value the conversion to `int` is the floor. -/
theorem truncToInt_of_nonneg (q : ℚ) (h : 0 ≤ q) : truncToInt q = ⌊q⌋ := by
  unfold truncToInt
  rw [Rat.floor_def, Int.tdiv_eq_ediv (Rat.num_nonneg.2 h) (by exact_mod_cast Nat.zero_le _)]

/-! ## Scans in one cluster -/

theorem breaks_of_continuity (range : Int → ℚ) (n : Int)
    (h : ∀ i : Int, 1 ≤ i → i ≤ n → continuity range i) : breaks range n = ∅ := by
  unfold breaks
  rw [Finset.filter_eq_empty_iff]
  intro i hi
  rw [Finset.mem_Icc] at hi
  exact not_not.mpr (h i hi.1 hi.2)

/-- When the continuity predicate holds between all the adjacent beams,
`perform_clustering` stores one cluster, from the first to the last beam. -/
theorem perform_clustering_single (m : Libm) (s : State) (hN : 1 ≤ s.nb_beams)
    (h : ∀ i : Int, 1 ≤ i → i ≤ s.nb_beams - 1 → continuity s.range i) :
    (perform_clustering m s).nb_cluster = 1 ∧ (perform_clustering m s).cluster_start 0 = 0 ∧
    (perform_clustering m s).cluster_end 0 = s.nb_beams - 1 := by
  have hc := perform_clustering_clustered m s hN
  have hnb : (perform_clustering m s).nb_cluster = 1 := by
    rw [hc.count, breaks_of_continuity s.range _ h]
    rfl
  have hend := hc.end_last
  rw [hnb] at hend
  exact ⟨hnb, hc.start_zero, hend⟩

/-- The dynamic percentage stored for a cluster is the floor of 100 times the
share of its dynamic beams. -/
theorem perform_clustering_percentage_floor (m : Libm) (s : State) (hN : 1 ≤ s.nb_beams)
    (c : Int) (hc0 : 0 ≤ c) (hc1 : c < (perform_clustering m s).nb_cluster) :
    (perform_clustering m s).cluster_start c ≤ (perform_clustering m s).cluster_end c ∧
    (perform_clustering m s).cluster_dynamic c
      = ⌊(100 * (dynCount s.dynamic ((perform_clustering m s).cluster_start c)
            ((perform_clustering m s).cluster_end c) : ℚ))
          / (((perform_clustering m s).cluster_end c
              - (perform_clustering m s).cluster_start c + 1 : Int) : ℚ)⌋ := by
  have hle := (perform_clustering_clustered m s hN).start_le_end c hc0 hc1
  have h := ((perform_clustering_data m s hN).2.2 c hc0 hc1).2.2
  refine ⟨hle, ?_⟩
  rw [h, div_mul_eq_mul_div, mul_comm _ (100 : ℚ)]
  apply truncToInt_of_nonneg
  apply div_nonneg
  · have := dynCount_nonneg s.dynamic ((perform_clustering m s).cluster_start c)
      ((perform_clustering m s).cluster_end c)
    have h2 : (0 : ℚ) ≤ (dynCount s.dynamic ((perform_clustering m s).cluster_start c)
        ((perform_clustering m s).cluster_end c) : ℚ) := by exact_mod_cast this
    linarith
  · have : (0 : Int) ≤ (perform_clustering m s).cluster_end c
        - (perform_clustering m s).cluster_start c + 1 := by omega
    exact_mod_cast this

/-- Floor of a percentage `100 * a / b` with `0 ≤ a ≤ b` and `1 ≤ b`. -/
theorem floor_percentage (a b : Int) (ha : 0 ≤ a) (hab : a ≤ b) (hb : 1 ≤ b) :
    0 ≤ ⌊(100 * (a : ℚ)) / (b : ℚ)⌋ ∧ ⌊(100 * (a : ℚ)) / (b : ℚ)⌋ ≤ 100 ∧
    (⌊(100 * (a : ℚ)) / (b : ℚ)⌋ = 100 ↔ a = b) ∧
    (⌊(100 * (a : ℚ)) / (b : ℚ)⌋ = 0 ↔ 100 * a < b) := by
  have hbq : (0 : ℚ) < (b : ℚ) := by exact_mod_cast (by omega : (0 : Int) < b)
  have haq : (0 : ℚ) ≤ (a : ℚ) := by exact_mod_cast ha
  have habq : (a : ℚ) ≤ (b : ℚ) := by exact_mod_cast hab
  have h0 : (0 : ℚ) ≤ 100 * (a : ℚ) / (b : ℚ) := div_nonneg (by linarith) (le_of_lt hbq)
  have h100 : 100 * (a : ℚ) / (b : ℚ) ≤ 100 := by
    rw [div_le_iff₀ hbq]
    linarith
  refine ⟨Int.floor_nonneg.2 h0, ?_, ?_, ?_⟩
  · have := Int.floor_le (100 * (a : ℚ) / (b : ℚ))
    have h2 : ((⌊100 * (a : ℚ) / (b : ℚ)⌋ : Int) : ℚ) ≤ 100 := le_trans this h100
    exact_mod_cast h2
  · rw [Int.floor_eq_iff]
    constructor
    · rintro ⟨h1, _⟩
      have h2 : (100 : ℚ) * b ≤ 100 * a := by
        have := (le_div_iff₀ hbq).1 h1
        push_cast at this
        linarith
      have h3 : (b : ℚ) ≤ a := by linarith
      have h4 : b ≤ a := by exact_mod_cast h3
      omega
    · intro hab'
      subst hab'
      constructor
      · rw [le_div_iff₀ hbq]
        push_cast
        linarith
      · push_cast
        linarith
  · rw [Int.floor_eq_iff]
    constructor
    · rintro ⟨_, h1⟩
      have h2 : 100 * (a : ℚ) < b := by
        have := (div_lt_iff₀ hbq).1 h1
        push_cast at this
        linarith
      exact_mod_cast h2
    · intro hlt
      have h2 : 100 * (a : ℚ) < b := by exact_mod_cast hlt
      constructor
      · push_cast
        exact h0
      · rw [div_lt_iff₀ hbq]
        push_cast
        linarith

theorem dynCount_of_single (dynamic : Int → Bool) (s e k0 : Int) (h0 : s ≤ k0) (h1 : k0 ≤ e)
    (h : ∀ k : Int, s ≤ k → k ≤ e → (dynamic k = true ↔ k = k0)) : dynCount dynamic s e = 1 := by
  rw [dynCount_eq_card]
  have e1 : (Finset.Icc s e).filter (fun k => dynamic k = true) = {k0} := by
    ext k
    simp only [Finset.mem_filter, Finset.mem_Icc, Finset.mem_singleton]
    constructor
    · rintro ⟨⟨a, b⟩, c⟩
      exact (h k a b).1 c
    · rintro rfl
      exact ⟨⟨h0, h1⟩, (h k h0 h1).2 rfl⟩
  rw [e1]
  rfl

/-- The detection of motion and the clustering on `oneDynamicBeam n k0`: beam
`k0` alone is dynamic, and all the beams are in one cluster. -/
theorem oneDynamicBeam_cluster (m : Libm) (n k0 : Int) (hn : 1 ≤ n) (h0 : 0 ≤ k0) (h1 : k0 < n) :
    (detect_motion (oneDynamicBeam n k0)).nb_beams = n ∧
    (∀ k : Int, 0 ≤ k → k ≤ n - 1 →
      ((detect_motion (oneDynamicBeam n k0)).dynamic k = true ↔ k = k0)) ∧
    (perform_clustering m (detect_motion (oneDynamicBeam n k0))).nb_cluster = 1 ∧
    (perform_clustering m (detect_motion (oneDynamicBeam n k0))).cluster_start 0 = 0 ∧
    (perform_clustering m (detect_motion (oneDynamicBeam n k0))).cluster_end 0 = n - 1 ∧
    (perform_clustering m (detect_motion (oneDynamicBeam n k0))).cluster_dynamic 0
      = ⌊(100 * ((1 : Int) : ℚ)) / (((n - 1 - 0 + 1 : Int) : Int) : ℚ)⌋ := by
  have hflags : ∀ k : Int, 0 ≤ k → k ≤ n - 1 →
      ((detect_motion (oneDynamicBeam n k0)).dynamic k = true ↔ k = k0) := by
    intro k hk0 hk1
    rw [detect_motion_eq]
    have hk : 0 ≤ k ∧ k < n := ⟨hk0, by omega⟩
    by_cases hkk : k = k0
    · simp [motionFlags, oneDynamicBeam, hk, hkk, h0, h1, detection_threshold]
      norm_num [abs_of_nonneg]
    · simp [motionFlags, oneDynamicBeam, hk, hkk, detection_threshold]
      norm_num
  have hnb : (detect_motion (oneDynamicBeam n k0)).nb_beams = n := by
    rw [detect_motion_eq]
    rfl
  have hrange : (detect_motion (oneDynamicBeam n k0)).range = fun _ => 1 := by
    rw [detect_motion_eq]
    rfl
  have hsingle := perform_clustering_single m (detect_motion (oneDynamicBeam n k0))
    (by rw [hnb]; exact hn)
    (fun i _ _ => by simp [continuity, hrange, cluster_threshold])
  rw [hnb] at hsingle
  obtain ⟨s1, s2, s3⟩ := hsingle
  have hfloor := (perform_clustering_percentage_floor m (detect_motion (oneDynamicBeam n k0))
    (by rw [hnb]; exact hn) 0 (le_refl _) (by rw [s1]; decide)).2
  rw [s2, s3, dynCount_of_single _ 0 (n - 1) k0 h0 (by omega) hflags] at hfloor
  exact ⟨hnb, hflags, s1, s2, s3, hfloor⟩

/-- C12, as the code has it: for a scan of `N ≥ 1` beams, every cluster stored
by `perform_clustering` has a dynamic percentage between 0 and 100; it is 100
exactly when all the beams of the cluster are dynamic, and it is 0 exactly
when fewer than one beam in a hundred of the cluster is dynamic, in particular
when none is. -/
theorem perform_clustering_percentage_bounds (m : Libm) (s : State) (hN : 1 ≤ s.nb_beams)
    (c : Int) (hc0 : 0 ≤ c) (hc1 : c < (perform_clustering m s).nb_cluster) :
    0 ≤ (perform_clustering m s).cluster_dynamic c ∧
    (perform_clustering m s).cluster_dynamic c ≤ 100 ∧
    ((perform_clustering m s).cluster_dynamic c = 100 ↔
      ∀ k : Int, (perform_clustering m s).cluster_start c ≤ k →
        k ≤ (perform_clustering m s).cluster_end c → s.dynamic k = true) ∧
    ((perform_clustering m s).cluster_dynamic c = 0 ↔
      100 * ((((Finset.Icc ((perform_clustering m s).cluster_start c)
          ((perform_clustering m s).cluster_end c)).filter
            (fun k => s.dynamic k = true)).card : Int))
        < (perform_clustering m s).cluster_end c
          - (perform_clustering m s).cluster_start c + 1) ∧
    ((∀ k : Int, (perform_clustering m s).cluster_start c ≤ k →
        k ≤ (perform_clustering m s).cluster_end c → s.dynamic k = false) →
      (perform_clustering m s).cluster_dynamic c = 0) ∧
    (perform_clustering m s).dynamic = s.dynamic := by
  obtain ⟨hle, h⟩ := perform_clustering_percentage_floor m s hN c hc0 hc1
  have hcnt0 := dynCount_nonneg s.dynamic ((perform_clustering m s).cluster_start c)
    ((perform_clustering m s).cluster_end c)
  have hcnt1 := dynCount_le s.dynamic _ _ hle
  obtain ⟨f1, f2, f3, f4⟩ := floor_percentage _ _ hcnt0 hcnt1 (by omega)
  rw [← h] at f1 f2 f3 f4
  refine ⟨f1, f2, ?_, ?_, ?_, (perform_clustering_data m s hN).2.1⟩
  · rw [f3]
    exact dynCount_eq_length_iff s.dynamic _ _ hle
  · rw [f4, dynCount_eq_card]
  · intro hnone
    rw [f4, (dynCount_eq_zero_iff s.dynamic _ _).2 hnone]
    omega

/-- Witness for C12: the first cluster of a scan of four beams. -/
theorem perform_clustering_percentage_bounds_witness :
    (1 : Int) ≤ fourBeams.nb_beams ∧
    (0 : Int) < (perform_clustering exampleLibm fourBeams).nb_cluster ∧
    0 ≤ (perform_clustering exampleLibm fourBeams).cluster_dynamic 0 ∧
    (perform_clustering exampleLibm fourBeams).cluster_dynamic 0 ≤ 100 :=
  have h : (0 : Int) < (perform_clustering exampleLibm fourBeams).nb_cluster := by
    have := (perform_clustering_clustered exampleLibm fourBeams (by decide)).nb_pos
    omega
  ⟨by decide, h,
    (perform_clustering_percentage_bounds exampleLibm fourBeams (by decide) 0 (le_refl _) h).1,
    (perform_clustering_percentage_bounds exampleLibm fourBeams (by decide) 0 (le_refl _) h).2.1⟩

/-- C12 fails as stated: on a scan of 101 beams in one cluster, of which beam
50 is dynamic, the stored percentage is 0. -/
theorem percentage_zero_with_dynamic_beam :
    (perform_clustering exampleLibm (detect_motion (oneDynamicBeam 101 50))).nb_cluster = 1 ∧
    (perform_clustering exampleLibm (detect_motion (oneDynamicBeam 101 50))).cluster_start 0 = 0 ∧
    (perform_clustering exampleLibm (detect_motion (oneDynamicBeam 101 50))).cluster_end 0 = 100 ∧
    (perform_clustering exampleLibm (detect_motion (oneDynamicBeam 101 50))).dynamic 50 = true ∧
    (perform_clustering exampleLibm (detect_motion (oneDynamicBeam 101 50))).cluster_dynamic 0
      = 0 := by
  obtain ⟨hnb, hflags, h1, h2, h3, h4⟩ :=
    oneDynamicBeam_cluster exampleLibm 101 50 (by decide) (by decide) (by decide)
  have hd := (perform_clustering_data exampleLibm (detect_motion (oneDynamicBeam 101 50))
    (by rw [hnb]; decide)).2.1
  refine ⟨h1, h2, h3, ?_, ?_⟩
  · rw [hd]
    exact (hflags 50 (by decide) (by decide)).2 rfl
  · rw [h4, Int.floor_eq_iff]
    norm_num

/-! ## Clusters of one beam -/

theorem arcLength_of_le (m : Libm) (scan : Int → Point) (s e : Int) (h : e ≤ s) :
    arcLength m scan s e = 0 := by
  unfold arcLength
  rw [intRange_empty s e h]
  rfl

/-- C13: for every scan, a cluster stored by `perform_clustering` that
consists of a single beam (`start = end`) has size 0; `detect_moving_legs`
takes no cluster of size 0 for a leg, whatever its dynamic percentage; hence
every leg found after `perform_clustering` comes from a cluster of at least
two beams. -/
theorem single_beam_cluster_is_no_leg (m : Libm) (s : State) :
    (∀ c : Int, 0 ≤ c → c < (perform_clustering m s).nb_cluster →
      (perform_clustering m s).cluster_start c = (perform_clustering m s).cluster_end c →
      (perform_clustering m s).cluster_size c = 0) ∧
    (∀ u : State,
      (detect_moving_legs u).legs
        = ((intRange 0 u.nb_cluster).filter (fun c =>
            decide (leg_size_min < u.cluster_size c ∧ u.cluster_size c < leg_size_max
              ∧ dynamic_threshold ≤ u.cluster_dynamic c))).map u.cluster_middle ∧
      ∀ c : Int, u.cluster_size c = 0 →
        c ∉ (intRange 0 u.nb_cluster).filter (fun c =>
            decide (leg_size_min < u.cluster_size c ∧ u.cluster_size c < leg_size_max
              ∧ dynamic_threshold ≤ u.cluster_dynamic c))) ∧
    (∀ c : Int, c ∈ (intRange 0 (perform_clustering m s).nb_cluster).filter (fun c =>
        decide (leg_size_min < (perform_clustering m s).cluster_size c
          ∧ (perform_clustering m s).cluster_size c < leg_size_max
          ∧ dynamic_threshold ≤ (perform_clustering m s).cluster_dynamic c)) →
      2 ≤ (perform_clustering m s).cluster_end c
        - (perform_clustering m s).cluster_start c + 1) := by
  refine ⟨?_, ?_, ?_⟩
  · intro c hc0 hc1 heq
    rw [(perform_clustering_size_middle m s c hc0 hc1).1]
    exact arcLength_of_le m _ _ _ (le_of_eq heq.symm)
  · intro u
    refine ⟨(detect_moving_legs_legs u).1, ?_⟩
    intro c hz hmem
    rw [List.mem_filter, decide_eq_true_eq, hz] at hmem
    have := hmem.2.1
    norm_num [leg_size_min] at this
  · intro c hmem
    rw [List.mem_filter, decide_eq_true_eq, mem_intRange] at hmem
    obtain ⟨⟨hc0, hc1⟩, hsize, _, _⟩ := hmem
    by_contra hlt
    have hz := arcLength_of_le m s.current_scan ((perform_clustering m s).cluster_start c)
      ((perform_clustering m s).cluster_end c) (by omega)
    rw [(perform_clustering_size_middle m s c hc0 hc1).1, hz] at hsize
    norm_num [leg_size_min] at hsize

/-! ## Scans -/

theorem scanFilled_zero (m : Libm) (scan : LaserScan) (h : State) : scanFilled m scan h 0 = h := by
  have e : ∀ i : Int, ¬ (0 ≤ i ∧ i < 0) := fun i => by omega
  simp [scanFilled, e]

theorem scanCallback_step_eq (m : Libm) (scan : LaserScan) (h : State) (j : Int) (hj : 0 ≤ j)
    (h1 : h.range_min = scan.range_min) (h2 : h.range_max = scan.range_max)
    (h3 : h.angle_min = scan.angle_min) (h4 : h.angle_inc = scan.angle_increment) :
    scanCallback_step m scan j (scanFilled m scan h j, h.angle_min + j * h.angle_inc)
      = (scanFilled m scan h (j + 1), h.angle_min + (j + 1) * h.angle_inc) := by
  have hr : ∀ (v : ℚ) (f : Int → ℚ), assign f j v j = v := fun v f => assign_same f j v
  have key : ∀ (v : ℚ), v = scanRange scan j →
      assign (scanFilled m scan h j).range j v
        = (scanFilled m scan h (j + 1)).range ∧
      assign (scanFilled m scan h j).current_scan j
          ⟨v * m.cos (h.angle_min + j * h.angle_inc), v * m.sin (h.angle_min + j * h.angle_inc), 0⟩
        = (scanFilled m scan h (j + 1)).current_scan := by
    intro v hv
    constructor
    · funext i
      by_cases hij : i = j
      · subst hij
        have : 0 ≤ i ∧ i < i + 1 := by omega
        simp [scanFilled, this, hv]
      · have e : (0 ≤ i ∧ i < j + 1) ↔ (0 ≤ i ∧ i < j) := by omega
        simp [scanFilled, assign_noteq hij, e]
    · funext i
      by_cases hij : i = j
      · subst hij
        have : 0 ≤ i ∧ i < i + 1 := by omega
        simp [scanFilled, this, hv, scanPoint, h3, h4]
      · have e : (0 ≤ i ∧ i < j + 1) ↔ (0 ≤ i ∧ i < j) := by omega
        simp [scanFilled, assign_noteq hij, e]
  have hmax : (scanFilled m scan h j).range_max = scan.range_max := h2
  have hmin : (scanFilled m scan h j).range_min = scan.range_min := h1
  have hinc : (scanFilled m scan h j).angle_inc = h.angle_inc := rfl
  by_cases hc : scan.ranges.getD j.toNat 0 < scan.range_max
      ∧ scan.ranges.getD j.toNat 0 > scan.range_min
  · have hv : scan.ranges.getD j.toNat 0 = scanRange scan j := by
      unfold scanRange
      rw [if_pos hc]
    obtain ⟨k1, k2⟩ := key _ hv
    simp only [scanCallback_step, hmax, hmin, if_pos hc, assign_same]
    refine Prod.ext ?_ ?_
    · simp only [scanFilled] at k1 k2 ⊢
      simp only [k1, k2, h1, h2]
    · simp only [scanFilled]
      ring
  · have hv : scan.range_max = scanRange scan j := by
      unfold scanRange
      rw [if_neg hc]
    obtain ⟨k1, k2⟩ := key _ hv
    simp only [scanCallback_step, hmax, hmin, if_neg hc, assign_same]
    refine Prod.ext ?_ ?_
    · simp only [scanFilled] at k1 k2 ⊢
      simp only [h1, h2] at k1 k2 ⊢
      simp only [k1, k2]
    · simp only [scanFilled]
      ring

theorem scanFilled_of_nonpos (m : Libm) (scan : LaserScan) (h : State) (n : Int) (hn : n ≤ 0) :
    scanFilled m scan h n = h := by
  have e : ∀ i : Int, ¬ (0 ≤ i ∧ i < n) := fun i => by omega
  simp [scanFilled, e]

/-- Closed form of `scanCallback`: the assignments of the header, then the
ranges and the points of the beams `0 .. nb_beams - 1`. -/
theorem scanCallback_eq (m : Libm) (scan : LaserScan) (s : State) :
    scanCallback m scan s
      = scanFilled m scan (scanHeader scan s) (scanHeader scan s).nb_beams := by
  have e0 : scanCallback m scan s
      = (forLoop 0 (scanHeader scan s).nb_beams (scanCallback_step m scan)
          (scanHeader scan s, (scanHeader scan s).angle_min)).1 := rfl
  rw [e0]
  rcases le_or_lt 0 (scanHeader scan s).nb_beams with hle | hlt
  · have h := forLoop_invariant (scanCallback_step m scan)
      (fun j p => p = (scanFilled m scan (scanHeader scan s) j,
        (scanHeader scan s).angle_min + j * (scanHeader scan s).angle_inc))
      0 (scanHeader scan s).nb_beams (scanHeader scan s, (scanHeader scan s).angle_min) hle
      (by
        show (scanHeader scan s, (scanHeader scan s).angle_min)
          = (scanFilled m scan (scanHeader scan s) 0,
            (scanHeader scan s).angle_min + ((0 : Int) : ℚ) * (scanHeader scan s).angle_inc)
        rw [scanFilled_zero]
        simp)
      (fun j p hj _ hp => by
        show scanCallback_step m scan j p
          = (scanFilled m scan (scanHeader scan s) (j + 1),
            (scanHeader scan s).angle_min + ((j + 1 : Int) : ℚ) * (scanHeader scan s).angle_inc)
        have hp2 : p = (scanFilled m scan (scanHeader scan s) j,
            (scanHeader scan s).angle_min + (j : ℚ) * (scanHeader scan s).angle_inc) := hp
        rw [hp2, scanCallback_step_eq m scan (scanHeader scan s) j hj rfl rfl rfl rfl]
        push_cast
        rfl)
    rw [h]
  · rw [forLoop_empty _ _ _ _ (le_of_lt hlt), scanFilled_of_nonpos _ _ _ _ (le_of_lt hlt)]

theorem truncToInt_intCast (n : Int) : truncToInt (n : ℚ) = n := by
  simp [truncToInt]

/-- C15: for every scan message and every beam index `i` below the stored
number of beams, `scanCallback` stores `range[i] = raw[i]` when
`range_min < raw[i] < range_max` (both strict) and `range[i] = range_max`
otherwise; hence, when `range_min < range_max`, every stored range `r`
satisfies `range_min < r ≤ range_max`. -/
theorem scanCallback_range (m : Libm) (scan : LaserScan) (s : State) :
    (scanCallback m scan s).range_min = scan.range_min ∧
    (scanCallback m scan s).range_max = scan.range_max ∧
    (∀ i : Int, 0 ≤ i → i < (scanCallback m scan s).nb_beams →
      ((scan.range_min < scan.ranges.getD i.toNat 0 ∧ scan.ranges.getD i.toNat 0 < scan.range_max →
          (scanCallback m scan s).range i = scan.ranges.getD i.toNat 0) ∧
        (¬ (scan.range_min < scan.ranges.getD i.toNat 0
              ∧ scan.ranges.getD i.toNat 0 < scan.range_max) →
          (scanCallback m scan s).range i = scan.range_max) ∧
        (scan.range_min < scan.range_max →
          scan.range_min < (scanCallback m scan s).range i ∧
          (scanCallback m scan s).range i ≤ scan.range_max))) := by
  rw [scanCallback_eq]
  refine ⟨rfl, rfl, ?_⟩
  intro i hi0 hi1
  have hi : 0 ≤ i ∧ i < (scanHeader scan s).nb_beams := ⟨hi0, hi1⟩
  have hr : (scanFilled m scan (scanHeader scan s) (scanHeader scan s).nb_beams).range i
      = scanRange scan i := by
    simp only [scanFilled, if_pos hi]
  rw [hr]
  unfold scanRange
  refine ⟨fun h => ?_, fun h => ?_, fun hlt => ?_⟩
  · rw [if_pos ⟨h.2, h.1⟩]
  · rw [if_neg (fun hh => h ⟨hh.2, hh.1⟩)]
  · split_ifs with hc
    · exact ⟨hc.2, le_of_lt hc.1⟩
    · exact ⟨hlt, le_refl _⟩

/-- After `perform_clustering` on a scan of at least one beam, beam 0 is in
cluster 0. -/
theorem clustered_cluster_zero (s t : State) (h : Clustered s t) (hN : 1 ≤ s.nb_beams) :
    t.cluster 0 = 0 := by
  obtain ⟨hb0, hb1⟩ := h.cluster_bounds 0 (le_refl _) (by omega)
  obtain ⟨hm0, _⟩ := h.member 0 (le_refl _) (by omega)
  by_contra hne
  have hlt := consecutive_lt t.cluster_start t.cluster_end t.nb_cluster h.start_le_end
    h.next_start 0 (t.cluster 0 - 1).toNat (le_refl _) (by omega)
  have e : (0 : Int) + ((t.cluster 0 - 1).toNat : Int) + 1 = t.cluster 0 := by omega
  rw [e] at hlt
  have h0 := h.start_le_end 0 (le_refl _) (by omega)
  have hz := h.start_zero
  omega

theorem tenBeams_motion :
    (detect_motion tenBeams).nb_beams = 10 ∧
    (detect_motion tenBeams).range = (fun i => if 3 ≤ i ∧ i ≤ 5 then 3 / 10 else 1) ∧
    (∀ i : Int, 0 ≤ i → i < 10 →
      ((detect_motion tenBeams).dynamic i = true ↔ (3 ≤ i ∧ i ≤ 5))) := by
  rw [detect_motion_eq]
  refine ⟨rfl, rfl, ?_⟩
  intro i hi0 hi1
  have hi : 0 ≤ i ∧ i < 10 := ⟨hi0, hi1⟩
  have h7 : |(7 / 10 : ℚ)| = 7 / 10 := abs_of_pos (by norm_num)
  by_cases hc : 3 ≤ i ∧ i ≤ 5
  · simp only [motionFlags, tenBeams, if_pos hi, if_pos hc, detection_threshold]
    norm_num [h7, hc]
  · simp only [motionFlags, tenBeams, if_pos hi, if_neg hc, detection_threshold]
    norm_num [hc]

theorem tenBeams_breaks (i : Int) (h1 : 1 ≤ i) (h2 : i ≤ 9) :
    (¬ continuity (detect_motion tenBeams).range i) ↔ (i = 3 ∨ i = 6) := by
  have h7 : |(7 / 10 : ℚ)| = 7 / 10 := abs_of_pos (by norm_num)
  rw [tenBeams_motion.2.1]
  interval_cases i <;> norm_num [continuity, cluster_threshold, h7]

/-- C16: for the scan of ten beams with `background = [1.0]*10` and
`ranges = [1.0,1.0,1.0,0.3,0.3,0.3,1.0,1.0,1.0,1.0]`, `detect_motion` marks
exactly the beams 3, 4 and 5 dynamic, and `perform_clustering` stores exactly
three clusters, `[0,2]`, `[3,5]` and `[6,9]`, with the dynamic percentages 0,
100 and 0. -/
theorem tenBeams_scenario (m : Libm) :
    tenBeams.nb_beams = 10 ∧
    (intRange 0 10).map tenBeams.background = [1, 1, 1, 1, 1, 1, 1, 1, 1, 1] ∧
    (intRange 0 10).map tenBeams.range
      = [1, 1, 1, 3 / 10, 3 / 10, 3 / 10, 1, 1, 1, 1] ∧
    (∀ i : Int, 0 ≤ i → i < 10 →
      ((detect_motion tenBeams).dynamic i = true ↔ (i = 3 ∨ i = 4 ∨ i = 5))) ∧
    (perform_clustering m (detect_motion tenBeams)).nb_cluster = 3 ∧
    (perform_clustering m (detect_motion tenBeams)).cluster_start 0 = 0 ∧
    (perform_clustering m (detect_motion tenBeams)).cluster_end 0 = 2 ∧
    (perform_clustering m (detect_motion tenBeams)).cluster_start 1 = 3 ∧
    (perform_clustering m (detect_motion tenBeams)).cluster_end 1 = 5 ∧
    (perform_clustering m (detect_motion tenBeams)).cluster_start 2 = 6 ∧
    (perform_clustering m (detect_motion tenBeams)).cluster_end 2 = 9 ∧
    (perform_clustering m (detect_motion tenBeams)).cluster_dynamic 0 = 0 ∧
    (perform_clustering m (detect_motion tenBeams)).cluster_dynamic 1 = 100 ∧
    (perform_clustering m (detect_motion tenBeams)).cluster_dynamic 2 = 0 := by
  obtain ⟨hnb, _, hflags⟩ := tenBeams_motion
  have hN : 1 ≤ (detect_motion tenBeams).nb_beams := by rw [hnb]; decide
  have hc := perform_clustering_clustered m (detect_motion tenBeams) hN
  have hfl := perform_clustering_percentage_floor m (detect_motion tenBeams) hN
  have c0 := clustered_cluster_zero _ _ hc hN
  have key : ∀ i : Int, 1 ≤ i → i ≤ 9 →
      ((i ≠ 3 ∧ i ≠ 6) → (perform_clustering m (detect_motion tenBeams)).cluster i
          = (perform_clustering m (detect_motion tenBeams)).cluster (i - 1)) ∧
      ((i = 3 ∨ i = 6) → (perform_clustering m (detect_motion tenBeams)).cluster i
          = (perform_clustering m (detect_motion tenBeams)).cluster (i - 1) + 1 ∧
        (perform_clustering m (detect_motion tenBeams)).cluster_end
          ((perform_clustering m (detect_motion tenBeams)).cluster (i - 1)) = i - 1 ∧
        (perform_clustering m (detect_motion tenBeams)).cluster_start
          ((perform_clustering m (detect_motion tenBeams)).cluster i) = i) := by
    intro i h1 h2
    obtain ⟨ha, hb⟩ := hc.adjacent i h1 (by rw [hnb]; omega)
    have hbr := tenBeams_breaks i h1 h2
    refine ⟨fun hne => ha ?_, fun he => hb (hbr.2 he)⟩
    by_contra hcont
    have := hbr.1 hcont
    omega
  have hcount := hc.count
  have hlast := hc.end_last
  have hbreaks : breaks (detect_motion tenBeams).range ((detect_motion tenBeams).nb_beams - 1)
      = {3, 6} := by
    ext i
    rw [hnb]
    simp only [breaks, Finset.mem_filter, Finset.mem_Icc, Finset.mem_insert,
      Finset.mem_singleton]
    constructor
    · rintro ⟨⟨h1, h2⟩, h3⟩
      exact (tenBeams_breaks i h1 (by omega)).1 h3
    · intro h
      have hi : 1 ≤ i ∧ i ≤ 10 - 1 := by omega
      exact ⟨hi, (tenBeams_breaks i hi.1 (by omega)).2 h⟩
  rw [hbreaks] at hcount
  have hnb3 : (perform_clustering m (detect_motion tenBeams)).nb_cluster = 3 := by
    rw [hcount]
    decide
  rw [hnb3, hnb] at hlast
  generalize perform_clustering m (detect_motion tenBeams) = t at *
  have k1 := (key 1 (by decide) (by decide)).1 (by decide)
  have k2 := (key 2 (by decide) (by decide)).1 (by decide)
  have k3 := (key 3 (by decide) (by decide)).2 (by decide)
  have k4 := (key 4 (by decide) (by decide)).1 (by decide)
  have k5 := (key 5 (by decide) (by decide)).1 (by decide)
  have k6 := (key 6 (by decide) (by decide)).2 (by decide)
  norm_num at k1 k2 k3 k4 k5 k6 hlast
  have v2 : t.cluster 2 = 0 := by omega
  have v3 : t.cluster 3 = 1 := by omega
  have v5 : t.cluster 5 = 1 := by omega
  have v6 : t.cluster 6 = 2 := by omega
  obtain ⟨_, e0, s1⟩ := k3
  obtain ⟨_, e1, s2⟩ := k6
  rw [v2] at e0
  rw [v3] at s1
  rw [v5] at e1
  rw [v6] at s2
  have hz : ∀ a b : Int, (∀ k : Int, a ≤ k → k ≤ b → ¬ (3 ≤ k ∧ k ≤ 5)) → 0 ≤ a → b < 10 →
      dynCount (detect_motion tenBeams).dynamic a b = 0 := by
    intro a b hab ha hb
    rw [dynCount_eq_zero_iff]
    intro k h1 h2
    have := hflags k (by omega) (by omega)
    cases hd : (detect_motion tenBeams).dynamic k
    · rfl
    · exact absurd (this.1 hd) (hab k h1 h2)
  have hfull : dynCount (detect_motion tenBeams).dynamic 3 5 = 5 - 3 + 1 := by
    rw [dynCount_eq_length_iff _ _ _ (by decide)]
    intro k h1 h2
    exact (hflags k (by omega) (by omega)).2 ⟨h1, h2⟩
  have r0 := (hfl 0 (by decide) (by rw [hnb3]; decide)).2
  have r1 := (hfl 1 (by decide) (by rw [hnb3]; decide)).2
  have r2 := (hfl 2 (by decide) (by rw [hnb3]; decide)).2
  rw [hc.start_zero, e0, hz 0 2 (fun k h1 h2 => by omega) (by decide) (by decide)] at r0
  rw [s1, e1, hfull] at r1
  rw [s2, hlast, hz 6 9 (fun k h1 h2 => by omega) (by decide) (by decide)] at r2
  refine ⟨rfl, ?_, ?_, ?_, hnb3, hc.start_zero, e0, s1, e1, s2, hlast, ?_, ?_, ?_⟩
  · have r : intRange 0 10 = [0, 1, 2, 3, 4, 5, 6, 7, 8, 9] := by decide
    rw [r]
    rfl
  · have r : intRange 0 10 = [0, 1, 2, 3, 4, 5, 6, 7, 8, 9] := by decide
    rw [r]
    simp [tenBeams]
  · intro i hi0 hi1
    rw [hflags i hi0 hi1]
    omega
  · rw [r0]
    norm_num
  · rw [r1, Int.floor_eq_iff]
    norm_num
  · rw [r2]
    norm_num

/-! ## Legs that are all close to each other -/

theorem clustersKept_refl (s : State) : ClustersKept s s :=
  ⟨rfl, rfl, rfl, rfl, rfl, rfl, rfl⟩

theorem clustersKept_comp {s t u : State} (h1 : ClustersKept s t) (h2 : ClustersKept t u) :
    ClustersKept s u :=
  ⟨h2.dynamic.trans h1.dynamic, h2.nb_cluster.trans h1.nb_cluster,
    h2.cluster_start.trans h1.cluster_start, h2.cluster_end.trans h1.cluster_end,
    h2.cluster_size.trans h1.cluster_size, h2.cluster_middle.trans h1.cluster_middle,
    h2.cluster_dynamic.trans h1.cluster_dynamic⟩

/-- `perform_clustering` changes neither the dynamic flags nor the goal. -/
theorem perform_clustering_keeps (m : Libm) (s : State) :
    (perform_clustering m s).dynamic = s.dynamic ∧
    (perform_clustering m s).goal_to_reach = s.goal_to_reach := by
  obtain ⟨_, _, _, _, k5, k6⟩ := perform_clustering_data_fields m s
  obtain ⟨_, i2, i3, _⟩ := clustering_init_data s
  have h : (clustering_loop m (clustering_init s)).1.dynamic = s.dynamic ∧
      (clustering_loop m (clustering_init s)).1.goal_to_reach = s.goal_to_reach := by
    unfold clustering_loop
    refine forLoop_preserves (clustering_step m)
      (fun p => p.1.dynamic = s.dynamic ∧ p.1.goal_to_reach = s.goal_to_reach) 1 _ _ ⟨i2, i3⟩ ?_
    intro j p _ _ hp
    by_cases hc : continuity p.1.range j
    · rw [clustering_step_of_continuity m j p hc]
      exact hp
    · obtain ⟨_, _, _, _, l5, l6, _⟩ := clustering_step_data_of_not_continuity m j p hc
      exact ⟨l5.trans hp.1, l6.trans hp.2⟩
  exact ⟨k5.trans h.1, k6.trans h.2⟩

theorem detect_moving_legs_step_kept (j : Int) (s : State) :
    ClustersKept s (detect_moving_legs_step j s) ∧
    (detect_moving_legs_step j s).goal_to_reach = s.goal_to_reach := by
  unfold detect_moving_legs_step
  split_ifs with h
  · simp only []
    refine forLoop_preserves _
      (fun t => ClustersKept s t ∧ t.goal_to_reach = s.goal_to_reach) _ _ _
      ⟨⟨rfl, rfl, rfl, rfl, rfl, rfl, rfl⟩, rfl⟩ ?_
    intro k t _ _ ht
    exact ⟨⟨ht.1.dynamic, ht.1.nb_cluster, ht.1.cluster_start, ht.1.cluster_end,
      ht.1.cluster_size, ht.1.cluster_middle, ht.1.cluster_dynamic⟩, ht.2⟩
  · exact ⟨clustersKept_refl s, rfl⟩

/-- `detect_moving_legs` changes neither the dynamic flags, nor the clusters,
nor the goal. -/
theorem detect_moving_legs_kept (s : State) :
    ClustersKept s (detect_moving_legs s) ∧
    (detect_moving_legs s).goal_to_reach = s.goal_to_reach := by
  have h2 : ClustersKept s (forLoop 0 s.nb_cluster detect_moving_legs_step
        { (info .detecting_moving_legs s) with nb_moving_legs_detected := 0 }) ∧
      (forLoop 0 s.nb_cluster detect_moving_legs_step
        { (info .detecting_moving_legs s) with nb_moving_legs_detected := 0 }).goal_to_reach
        = s.goal_to_reach := by
    refine forLoop_preserves detect_moving_legs_step
      (fun t => ClustersKept s t ∧ t.goal_to_reach = s.goal_to_reach) _ _ _
      ⟨⟨rfl, rfl, rfl, rfl, rfl, rfl, rfl⟩, rfl⟩ ?_
    intro j t _ _ ht
    obtain ⟨k1, k2⟩ := detect_moving_legs_step_kept j t
    exact ⟨clustersKept_comp ht.1 k1, k2.trans ht.2⟩
  unfold detect_moving_legs
  simp only []
  split_ifs with hne
  · exact ⟨⟨h2.1.dynamic, h2.1.nb_cluster, h2.1.cluster_start, h2.1.cluster_end,
      h2.1.cluster_size, h2.1.cluster_middle, h2.1.cluster_dynamic⟩, h2.2⟩
  · exact ⟨⟨h2.1.dynamic, h2.1.nb_cluster, h2.1.cluster_start, h2.1.cluster_end,
      h2.1.cluster_size, h2.1.cluster_middle, h2.1.cluster_dynamic⟩, h2.2⟩

theorem detect_moving_persons_step_kept (m : Libm) (i j : Int) (s : State) :
    ClustersKept s (detect_moving_persons_step m i j s) := by
  unfold detect_moving_persons_step
  split_ifs with h
  · exact ⟨rfl, rfl, rfl, rfl, rfl, rfl, rfl⟩
  · exact clustersKept_refl s

/-- `detect_moving_persons` changes neither the dynamic flags nor the
clusters. -/
theorem detect_moving_persons_kept (m : Libm) (s : State) :
    ClustersKept s (detect_moving_persons m s) := by
  have h2 : ClustersKept s (forLoop 0 s.nb_moving_legs_detected (detect_moving_persons_row m)
      { (info .detecting_moving_persons s) with nb_moving_persons_detected := 0 }) := by
    refine forLoop_preserves (detect_moving_persons_row m) (fun t => ClustersKept s t) _ _ _
      ⟨rfl, rfl, rfl, rfl, rfl, rfl, rfl⟩ ?_
    intro i t _ _ ht
    unfold detect_moving_persons_row
    refine forLoop_preserves (detect_moving_persons_step m i) (fun u => ClustersKept s u) _ _ _
      ht ?_
    intro j u _ _ hu
    exact clustersKept_comp hu (detect_moving_persons_step_kept m i j u)
  unfold detect_moving_persons
  simp only []
  split_ifs with hne
  · exact ⟨h2.dynamic, h2.nb_cluster, h2.cluster_start, h2.cluster_end, h2.cluster_size,
      h2.cluster_middle, h2.cluster_dynamic⟩
  · exact ⟨h2.dynamic, h2.nb_cluster, h2.cluster_start, h2.cluster_end, h2.cluster_size,
      h2.cluster_middle, h2.cluster_dynamic⟩

/-- The dynamic flags after the four detection steps are those computed by
`detect_motion`. -/
theorem detection_dynamic (m : Libm) (s : State) :
    (detection m s).dynamic = motionFlags s.background s.range s.nb_beams s.dynamic := by
  have e : detection m s = detect_moving_persons m
      (detect_moving_legs (perform_clustering m (detect_motion s))) := rfl
  rw [e, (detect_moving_persons_kept m _).dynamic, (detect_moving_legs_kept _).1.dynamic,
    (perform_clustering_keeps m _).1, detect_motion_eq]

/-- Every cluster of a clustered scan lies inside the scan. -/
theorem clustered_start_end_bounds (s t : State) (h : Clustered s t) (c : Int) (hc0 : 0 ≤ c)
    (hc1 : c < t.nb_cluster) :
    0 ≤ t.cluster_start c ∧ t.cluster_end c ≤ s.nb_beams - 1 := by
  have h0 := h.start_le_end 0 (le_refl _) (by have := h.nb_pos; omega)
  have hz := h.start_zero
  have hl := h.end_last
  have hll := h.start_le_end (t.nb_cluster - 1) (by have := h.nb_pos; omega) (by omega)
  constructor
  · rcases eq_or_lt_of_le hc0 with e | hpos
    · rw [← e, hz]
    · have := consecutive_lt t.cluster_start t.cluster_end t.nb_cluster h.start_le_end
        h.next_start 0 (c - 1).toNat (le_refl _) (by omega)
      have e : (0 : Int) + ((c - 1).toNat : Int) + 1 = c := by omega
      rw [e] at this
      omega
  · rcases eq_or_lt_of_le (show c ≤ t.nb_cluster - 1 by omega) with e | hlt
    · rw [e, hl]
    · have := consecutive_lt t.cluster_start t.cluster_end t.nb_cluster h.start_le_end
        h.next_start c (t.nb_cluster - 1 - c - 1).toNat hc0 (by omega)
      have e : c + ((t.nb_cluster - 1 - c - 1).toNat : Int) + 1 = t.nb_cluster - 1 := by omega
      rw [e] at this
      omega

/-- When no beam of the scan is dynamic, every cluster has the dynamic
percentage 0. -/
theorem percentage_zero_of_no_motion (m : Libm) (a : State) (hN : 1 ≤ a.nb_beams)
    (hd : ∀ i : Int, 0 ≤ i → i < a.nb_beams → a.dynamic i = false) (c : Int) (hc0 : 0 ≤ c)
    (hc1 : c < (perform_clustering m a).nb_cluster) :
    (perform_clustering m a).cluster_dynamic c = 0 := by
  have hcl := perform_clustering_clustered m a hN
  obtain ⟨b1, b2⟩ := clustered_start_end_bounds a _ hcl c hc0 hc1
  have hz : dynCount a.dynamic ((perform_clustering m a).cluster_start c)
      ((perform_clustering m a).cluster_end c) = 0 := by
    rw [dynCount_eq_zero_iff]
    intro k h1 h2
    exact hd k (by omega) (by omega)
  rw [((perform_clustering_data m a hN).2.2 c hc0 hc1).2.2, hz]
  have := truncToInt_intCast 0
  simpa using this

/-- When every cluster has the dynamic percentage 0, no cluster is a moving
leg. -/
theorem no_leg_of_percentage_zero (a : State)
    (h : ∀ c : Int, 0 ≤ c → c < a.nb_cluster → a.cluster_dynamic c = 0) :
    (detect_moving_legs a).nb_moving_legs_detected = 0 ∧ (detect_moving_legs a).legs = [] := by
  obtain ⟨h1, h2⟩ := detect_moving_legs_legs a
  have hl : legClusters a a.nb_cluster = [] := by
    unfold legClusters
    rw [List.filter_eq_nil_iff]
    intro c hc
    rw [mem_intRange] at hc
    simp only [isMovingLeg, h c hc.1 hc.2, decide_eq_true_eq, not_and]
    intro _ _
    norm_num [dynamic_threshold]
  rw [h1, h2, hl]
  exact ⟨rfl, rfl⟩

/-- The four detection steps on a state whose background equals the ranges of
the scan: nothing moves, so nothing is detected. -/
theorem detection_of_still (m : Libm) (b : State) (hN : 1 ≤ b.nb_beams)
    (hbg : ∀ i : Int, 0 ≤ i → i < b.nb_beams → b.background i = b.range i) :
    (∀ i : Int, 0 ≤ i → i < b.nb_beams → (detection m b).dynamic i = false) ∧
    (∀ c : Int, 0 ≤ c → c < (detection m b).nb_cluster → (detection m b).cluster_dynamic c = 0) ∧
    (detection m b).nb_moving_legs_detected = 0 ∧ (detection m b).legs = [] ∧
    (detection m b).nb_moving_persons_detected = 0 ∧ (detection m b).persons = [] := by
  have hflag : ∀ i : Int, 0 ≤ i → i < b.nb_beams →
      motionFlags b.background b.range b.nb_beams b.dynamic i = false := by
    intro i h0 h1
    simp only [motionFlags]
    rw [if_pos ⟨h0, h1⟩, hbg i h0 h1, sub_self, abs_zero]
    norm_num [detection_threshold]
  refine ⟨?_, ?_⟩
  · intro i h0 h1
    rw [detection_dynamic]
    exact hflag i h0 h1
  have e : detection m b = detect_moving_persons m
      (detect_moving_legs (perform_clustering m (detect_motion b))) := rfl
  rw [e]
  have f1 := detect_motion_frame b
  have hN1 : 1 ≤ (detect_motion b).nb_beams := by
    have e1 : (detect_motion b).nb_beams = b.nb_beams := f1.nb_beams
    rw [e1]
    exact hN
  have hd1 : ∀ i : Int, 0 ≤ i → i < (detect_motion b).nb_beams →
      (detect_motion b).dynamic i = false := by
    intro i h0 h1
    have e1 : (detect_motion b).nb_beams = b.nb_beams := f1.nb_beams
    rw [e1] at h1
    have e2 : (detect_motion b).dynamic = motionFlags b.background b.range b.nb_beams b.dynamic := by
      rw [detect_motion_eq]
    rw [e2]
    exact hflag i h0 h1
  generalize detect_motion b = A1 at hN1 hd1
  have hp := percentage_zero_of_no_motion m A1 hN1 hd1
  generalize perform_clustering m A1 = A2 at hp
  obtain ⟨l1, l2⟩ := no_leg_of_percentage_zero A2 hp
  obtain ⟨ka, _⟩ := detect_moving_legs_kept A2
  generalize detect_moving_legs A2 = A3 at l1 l2 ka
  have inv := detect_moving_persons_inv m A3
  have kp := detect_moving_persons_kept m A3
  have hnil := allPersons_of_lt_two m A3 (by omega)
  rw [hnil] at inv
  generalize detect_moving_persons m A3 = A4 at inv kp
  refine ⟨?_, ?_, ?_, ?_, ?_⟩
  · intro c h0 h1
    rw [kp.nb_cluster, ka.nb_cluster] at h1
    rw [kp.cluster_dynamic, ka.cluster_dynamic]
    exact hp c h0 h1
  · rw [inv.nb_legs_eq, l1]
  · unfold State.legs
    rw [inv.legs_eq, inv.nb_legs_eq]
    exact l2
  · rw [inv.nb_eq]
    rfl
  · exact inv.persons_eq

/-- The tables of the detection after the stationary branch of `update`, when
it calls `store_background`. -/
theorem update_stationary_of_capture (m : Libm) (x : State)
    (hc : x.current_robot_moving = false) (hp : x.previous_robot_moving = true) :
    (update_stationary m x).nb_beams
      = (detection m (store_background (info .robot_not_moving x))).nb_beams ∧
    (update_stationary m x).range
      = (detection m (store_background (info .robot_not_moving x))).range ∧
    (update_stationary m x).background
      = (detection m (store_background (info .robot_not_moving x))).background ∧
    (update_stationary m x).dynamic
      = (detection m (store_background (info .robot_not_moving x))).dynamic ∧
    (update_stationary m x).nb_cluster
      = (detection m (store_background (info .robot_not_moving x))).nb_cluster ∧
    (update_stationary m x).cluster_dynamic
      = (detection m (store_background (info .robot_not_moving x))).cluster_dynamic ∧
    (update_stationary m x).nb_moving_legs_detected
      = (detection m (store_background (info .robot_not_moving x))).nb_moving_legs_detected ∧
    (update_stationary m x).legs
      = (detection m (store_background (info .robot_not_moving x))).legs ∧
    (update_stationary m x).nb_moving_persons_detected
      = (detection m (store_background (info .robot_not_moving x))).nb_moving_persons_detected ∧
    (update_stationary m x).persons
      = (detection m (store_background (info .robot_not_moving x))).persons := by
  rw [update_stationary_eq m x hc]
  simp only [hp, if_true]
  generalize detection m (store_background (info .robot_not_moving x)) = D
  split_ifs <;> exact ⟨rfl, rfl, rfl, rfl, rfl, rfl, rfl, rfl, rfl, rfl⟩

/-- On a tick at which `update` calls `store_background`, the tables of the
detection are those that the four detection steps compute from the state
right after that call. -/
theorem update_of_capture (m : Libm) (s : State) (hg : s.gate = true)
    (hp : s.previous_robot_moving = true) :
    (update m s).nb_beams = (detection m (afterCapture s)).nb_beams ∧
    (update m s).range = (detection m (afterCapture s)).range ∧
    (update m s).background = (detection m (afterCapture s)).background ∧
    (update m s).dynamic = (detection m (afterCapture s)).dynamic ∧
    (update m s).nb_cluster = (detection m (afterCapture s)).nb_cluster ∧
    (update m s).cluster_dynamic = (detection m (afterCapture s)).cluster_dynamic ∧
    (update m s).nb_moving_legs_detected
      = (detection m (afterCapture s)).nb_moving_legs_detected ∧
    (update m s).legs = (detection m (afterCapture s)).legs ∧
    (update m s).nb_moving_persons_detected
      = (detection m (afterCapture s)).nb_moving_persons_detected ∧
    (update m s).persons = (detection m (afterCapture s)).persons := by
  have hc : s.current_robot_moving = false := ((gate_iff s).1 hg).2.2
  rw [update_of_gate m s hg]
  exact update_stationary_of_capture m { (prelude s) with nb_pts := 0 } hc hp

theorem store_background_fields (x : State) :
    (store_background x).nb_beams = x.nb_beams ∧ (store_background x).range = x.range ∧
    (store_background x).background = storedBackground x.background x.range x.nb_beams := by
  rw [store_background_eq]
  exact ⟨rfl, rfl, rfl⟩

theorem prelude_scan (s : State) :
    (info .robot_not_moving { (prelude s) with nb_pts := 0 }).nb_beams = s.nb_beams ∧
    (info .robot_not_moving { (prelude s) with nb_pts := 0 }).range = s.range ∧
    (info .robot_not_moving { (prelude s) with nb_pts := 0 }).background = s.background := by
  simp only [info, prelude, and_self]

/-- Right after the call of `store_background` the background holds the
ranges of the scan. -/
theorem afterCapture_fields (s : State) :
    (afterCapture s).nb_beams = s.nb_beams ∧ (afterCapture s).range = s.range ∧
    (afterCapture s).background = storedBackground s.background s.range s.nb_beams := by
  obtain ⟨h1, h2, h3⟩ := store_background_fields
    (info .robot_not_moving { (prelude s) with nb_pts := 0 })
  obtain ⟨p1, p2, p3⟩ := prelude_scan s
  unfold afterCapture
  rw [h1, h2, h3, p1, p2, p3]
  exact ⟨rfl, rfl, rfl⟩

/-- Claim C21. On a tick at which `update` calls `store_background` (both
streams have delivered, `previous_robot_moving` is true and
`current_robot_moving` is false) with a scan of at least one beam, the
background holds the ranges of the scan, `detect_motion` marks no beam
dynamic, every cluster has the dynamic percentage 0, no leg and no person is
detected, and no goal is published. -/
theorem update_on_capture (m : Libm) (s : State) (hl : s.init_laser = true)
    (hr : s.init_robot = true) (hp : s.previous_robot_moving = true)
    (hc : s.current_robot_moving = false) (hN : 1 ≤ s.nb_beams) :
    List.count Event.storing_background (update m s).log
        = List.count Event.storing_background s.log + 1
      ∧ (update m s).range = s.range
      ∧ (∀ i : Int, 0 ≤ i → i < s.nb_beams → (update m s).background i = s.range i)
      ∧ (∀ i : Int, 0 ≤ i → i < s.nb_beams → (update m s).dynamic i = false)
      ∧ (∀ c : Int, 0 ≤ c → c < (update m s).nb_cluster → (update m s).cluster_dynamic c = 0)
      ∧ (update m s).nb_moving_legs_detected = 0 ∧ (update m s).legs = []
      ∧ (update m s).nb_moving_persons_detected = 0 ∧ (update m s).persons = []
      ∧ (update m s).goal_pub = s.goal_pub := by
  have hg : s.gate = true := (gate_iff s).2 ⟨hl, hr, hc⟩
  obtain ⟨u1, u2, u3, u4, u5, u6, u7, u8, u9, u10⟩ := update_of_capture m s hg hp
  obtain ⟨a1, a2, a3⟩ := afterCapture_fields s
  obtain ⟨f1, f2, _, f4, _⟩ := detection_frame m (afterCapture s)
  have hN2 : 1 ≤ (afterCapture s).nb_beams := by rw [a1]; exact hN
  have hbg : ∀ i : Int, 0 ≤ i → i < (afterCapture s).nb_beams →
      (afterCapture s).background i = (afterCapture s).range i := by
    intro i h0 h1
    rw [a1] at h1
    rw [a3, a2]
    simp only [storedBackground]
    rw [if_pos ⟨h0, h1⟩]
  obtain ⟨d1, d2, d3, d4, d5, d6⟩ := detection_of_still m (afterCapture s) hN2 hbg
  have st := update_stationary_of_gate m s hg
  have hlog := st.log_count Event.storing_background rfl
  have hpub := st.goal_pub
  rw [a1] at d1
  rw [if_pos rfl, if_pos hp] at hlog
  rw [u9, d5] at hpub
  refine ⟨hlog, ?_, ?_, ?_, ?_, ?_, ?_, ?_, ?_, ?_⟩
  · rw [u2, f2, a2]
  · intro i h0 h1
    rw [u3, f4, a3]
    simp only [storedBackground]
    rw [if_pos ⟨h0, h1⟩]
  · intro i h0 h1
    rw [u4]
    exact d1 i h0 h1
  · intro c h0 h1
    rw [u5] at h1
    rw [u6]
    exact d2 c h0 h1
  · rw [u7, d3]
  · rw [u8, d4]
  · rw [u9, d5]
  · rw [u10, d6]
  · simpa using hpub

/-- The scan of ten beams, three of them off the old background, on the tick
at which the robot has just stopped: the capture hides the three beams. -/
theorem update_on_capture_witness :
    tenBeamsStopped.init_laser = true ∧ tenBeamsStopped.init_robot = true
      ∧ tenBeamsStopped.previous_robot_moving = true
      ∧ tenBeamsStopped.current_robot_moving = false ∧ 1 ≤ tenBeamsStopped.nb_beams
      ∧ (∀ i : Int, 0 ≤ i → i < tenBeamsStopped.nb_beams →
          (update exampleLibm tenBeamsStopped).dynamic i = false)
      ∧ (update exampleLibm tenBeamsStopped).nb_moving_persons_detected = 0
      ∧ (update exampleLibm tenBeamsStopped).goal_pub = tenBeamsStopped.goal_pub :=
  ⟨rfl, rfl, rfl, rfl, by decide,
    (update_on_capture exampleLibm tenBeamsStopped rfl rfl rfl rfl (by decide)).2.2.2.1,
    (update_on_capture exampleLibm tenBeamsStopped rfl rfl rfl rfl (by decide)).2.2.2.2.2.2.2.1,
    (update_on_capture exampleLibm tenBeamsStopped rfl rfl rfl rfl
      (by decide)).2.2.2.2.2.2.2.2.2⟩

/-! ## How many persons one scan can give -/

end FollowMe
